import Mathlib

/-!
# trek-cli: the device-authorization login flow (`cmd/auth.go`)

A shallow embedding of the device authorization request, the token poller, the
credential cache and the commands `login`, `logout` and `whoami`.

Modelling conventions.

* An instant (`time.Time`) is an `Int`: nanoseconds on a single clock.  Instants are
  not bounded (the range of `time.Time` is far wider than anything the program adds).
* A `time.Duration` is an `Int` holding an `int64` number of nanoseconds; every
  arithmetic operation the source performs on durations is followed by `int64`,
  the two's-complement wrap-around of Go's 64-bit integers.  Go's `int` is taken to
  be 64 bits wide (amd64, arm64).
* The world outside the program (the context, the timers, the HTTP client, the file
  system) is an explicit environment of oracles; the program is a function of it.
* A Go `string` is a `String`: text in valid UTF-8, which `encoding/json` writes and
  reads back unchanged.
* The credential file is described by what reading it yields; its permission bits are
  followed separately (`Modes`), and a write that succeeds leaves a file that can be
  read.
-/

namespace Trek

/-! ## Machine integers and time -/

/-- Two's-complement wrap-around of a mathematical integer to Go's `int64`. -/
def int64 (x : Int) : Int := (x + 2 ^ 63) % 2 ^ 64 - 2 ^ 63

/-- The largest `int64`. -/
def maxInt64 : Int := 2 ^ 63 - 1

/-- The constant `time.Second`, in nanoseconds. -/
def Second : Int := 1000000000

/-- The expression `time.Duration(n) * time.Second`. -/
def secondsDuration (n : Int) : Int := int64 (int64 n * Second)

/-- The method `Time.Add`. -/
def timeAdd (t d : Int) : Int := t + d

/-- The method `Time.Before`. -/
def timeBefore (t u : Int) : Bool := decide (t < u)

/-- The method `Time.After`. -/
def timeAfter (t u : Int) : Bool := decide (u < t)

/-! ## Errors -/

/-- The two values `ctx.Err()` can have once the context is done. -/
inductive CtxError
  | Canceled
  | DeadlineExceeded
  deriving DecidableEq, Repr

/-- The Go `error` values that occur in `cmd/auth.go`, by origin. -/
inductive GoError
  /-- The value of `ctx.Err()`. -/
  | context (e : CtxError)
  /-- The `*url.Error` returned by `http.DefaultClient.Do`. -/
  | url (msg : String)
  /-- The error returned by `http.NewRequestWithContext`. -/
  | newRequest (msg : String)
  /-- The error returned by `json` decoding. -/
  | json (msg : String)
  /-- The `*fs.PathError` returned by `os` calls; `notExist` is `os.IsNotExist`. -/
  | path (op : String) (notExist : Bool)
  /-- An error made by `fmt.Errorf` without `%w`: just its message. -/
  | errorf (msg : String)
  /-- An error made by `fmt.Errorf("<pfx>: %w", inner)`. -/
  | wrap (pfx : String) (inner : GoError)
  deriving DecidableEq, Repr

/-- The method `Error()`: the message of an error. -/
def GoError.Error : GoError → String
  | .context .Canceled => "context canceled"
  | .context .DeadlineExceeded => "context deadline exceeded"
  | .url msg => msg
  | .newRequest msg => msg
  | .json msg => msg
  | .path op _ => op
  | .errorf msg => msg
  | .wrap pfx inner => pfx ++ ": " ++ inner.Error

/-! ## Data model -/

/-- The struct `DeviceAuthResponse`. -/
structure DeviceAuthResponse where
  DeviceCode : String
  UserCode : String
  VerificationURI : String
  VerificationURIComplete : String
  ExpiresIn : Int
  Interval : Int
  deriving DecidableEq, Repr

/-- The struct `TokenResponse`. -/
structure TokenResponse where
  AccessToken : String
  TokenType : String
  ExpiresIn : Int
  RefreshToken : String
  IDToken : String
  Error : String
  ErrorDesc : String
  deriving DecidableEq, Repr

/-- The zero value of `TokenResponse`, as made by `var result TokenResponse`. -/
def TokenResponse.zero : TokenResponse :=
  { AccessToken := "", TokenType := "", ExpiresIn := 0, RefreshToken := "",
    IDToken := "", Error := "", ErrorDesc := "" }

/-- The struct `StoredCredentials`; `ExpiresAt` is an instant. -/
structure StoredCredentials where
  AccessToken : String
  RefreshToken : String
  ExpiresAt : Int
  Email : String
  deriving DecidableEq, Repr

/-! ## The token endpoint as seen by the poller -/

/-- A response body of the token endpoint, by what `json.Decoder.Decode` makes of it. -/
inductive Body
  /-- A JSON object that decodes without error; `t` holds the decoded members
  (absent members keep their zero value). -/
  | object (t : TokenResponse)
  /-- Text that is not a JSON value: `Decode` fails before it stores anything. -/
  | notJSON (raw : String)
  /-- JSON of the wrong shape (a member of the wrong type, or not an object):
  `Decode` stores the members that fit, `stored`, and returns a type error. -/
  | mistyped (stored : TokenResponse)
  deriving DecidableEq, Repr

/-- The call `json.NewDecoder(resp.Body).Decode(&result)` on a zero-valued `result`:
the value `result` has afterwards, and the returned error. -/
def Decode : Body → TokenResponse × Option GoError
  | .object t => (t, none)
  | .notJSON raw => (TokenResponse.zero, some (.json ("invalid character in " ++ raw)))
  | .mistyped stored => (stored, some (.json "cannot unmarshal"))

/-- Whether a body can be decoded as a `TokenResponse`. -/
def Body.decodable (b : Body) : Bool := (Decode b).2.isNone

/-- The outcome of one `http.DefaultClient.Do(req)`. -/
inductive HttpResult
  /-- Transport-level failure: `Do` returned an error. -/
  | transportError (msg : String)
  /-- The server answered (with any status) and this body. -/
  | response (status : Nat) (body : Body)
  deriving DecidableEq, Repr

/-- The context passed to `pollForToken`. -/
structure Ctx where
  /-- The instant at which `ctx.Done()` is closed, if it ever is. -/
  doneAt : Option Int
  /-- The value of `ctx.Err()` from then on. -/
  err : CtxError

/-- The environment of one `pollForToken` call.  Oracles are indexed by the loop
iteration (from 0). -/
structure Env where
  ctx : Ctx
  /-- The error of `http.NewRequestWithContext` for the token endpoint, if it has one
  (it depends only on the context and the endpoint, which are the same in every
  iteration). -/
  newRequestErr : Option String
  /-- By how many nanoseconds the timer of iteration `k` delivers late. -/
  timerLag : Nat → Nat
  /-- Whether `select` takes the `ctx.Done()` case when both cases are ready at the
  same instant (Go chooses at random). -/
  selectDone : Nat → Bool
  /-- How long the request of iteration `k` takes, until the next loop test. -/
  doTime : Nat → Nat
  /-- The outcome of the request of iteration `k`. -/
  doResult : Nat → HttpResult

/-- One token request, as logged: the duration passed to `time.After` before it,
the instant it was sent, and its outcome. -/
structure Poll where
  wait : Int
  sentAt : Int
  outcome : HttpResult
  deriving DecidableEq, Repr

/-- The variables of the loop of `pollForToken`, with the log of token requests made
so far (oldest first). -/
structure PollState where
  now : Int
  interval : Int
  deadline : Int
  iter : Nat
  log : List Poll
  deriving DecidableEq, Repr

/-- The outcome of the `select` statement. -/
inductive Selected
  /-- The case `<-ctx.Done()` was taken at instant `t`. -/
  | done (t : Int)
  /-- The case `<-time.After(interval)` was taken at instant `t`. -/
  | timer (t : Int)
  deriving DecidableEq, Repr

/-- The instant at which the timer of iteration `s.iter` delivers: a timer with a
duration of zero or less is due at once. -/
def timerAt (env : Env) (s : PollState) : Int :=
  s.now + max s.interval 0 + env.timerLag s.iter

/-- The `select` statement of `pollForToken` (lines 207-211). -/
def selectWait (env : Env) (s : PollState) : Selected :=
  match env.ctx.doneAt with
  | none => .timer (timerAt env s)
  | some c =>
    if c < timerAt env s then .done (max c s.now)
    else if c = timerAt env s ∧ env.selectDone s.iter = true then .done (timerAt env s)
    else .timer (timerAt env s)

/-- What one iteration of the loop does. -/
inductive Step
  /-- The loop goes on (`continue`). -/
  | next (s : PollState)
  /-- The function returns. -/
  | ret (r : Except GoError TokenResponse) (s : PollState)

/-- The state once the request of the iteration that starts in `s` has been sent at
instant `t` and `Do` has returned: the clock has moved on and the request is logged
with the duration that was passed to `time.After`. -/
def afterRequest (env : Env) (s : PollState) (t : Int) : PollState :=
  { s with
    now := t + env.doTime s.iter
    iter := s.iter + 1
    log := s.log ++ [⟨s.interval, t, env.doResult s.iter⟩] }

/-- One pass through the loop of `pollForToken` (lines 206-248), the loop test
included; line 250 is the exit of the loop. -/
def pollStep (env : Env) (s : PollState) : Step :=
  if timeBefore s.now s.deadline = false then
    .ret (.error (.errorf "authentication timed out")) s
  else
    match selectWait env s with
    | .done t => .ret (.error (.context env.ctx.err)) { s with now := t }
    | .timer t =>
      match env.newRequestErr with
      | some msg => .ret (.error (.newRequest msg)) { s with now := t }
      | none =>
        let s1 := afterRequest env s t
        match env.doResult s.iter with
        | .transportError _ => .next s1
        | .response _ body =>
          let result := (Decode body).1
          if result.Error = "" then .ret (.ok result) s1
          else if result.Error = "authorization_pending" then .next s1
          else if result.Error = "slow_down" then
            .next { s1 with interval := int64 (s1.interval + int64 (5 * Second)) }
          else if result.Error = "expired_token" then
            .ret (.error (.errorf "device code expired")) s1
          else if result.Error = "access_denied" then
            .ret (.error (.errorf "access denied by user")) s1
          else
            .ret (.error (.errorf (result.Error ++ ": " ++ result.ErrorDesc))) s1

/-- The loop of `pollForToken`, run for at most `fuel` iterations; `none` when the
fuel runs out before the function returns. -/
def pollLoop (env : Env) : Nat → PollState → Option (Except GoError TokenResponse × PollState)
  | 0, _ => none
  | fuel + 1, s =>
    match pollStep env s with
    | .ret r s1 => some (r, s1)
    | .next s1 => pollLoop env fuel s1

/-- The state on entry to the loop (lines 199-204); `now` is `time.Now()` there. -/
def pollInit (now : Int) (deviceAuth : DeviceAuthResponse) : PollState :=
  let interval := secondsDuration deviceAuth.Interval
  let interval := if interval < int64 (5 * Second) then int64 (5 * Second) else interval
  { now := now
    interval := interval
    deadline := timeAdd now (secondsDuration deviceAuth.ExpiresIn)
    iter := 0
    log := [] }

/-- The function `pollForToken`: its result and its final state. -/
def pollForToken (env : Env) (now : Int) (deviceAuth : DeviceAuthResponse) (fuel : Nat) :
    Option (Except GoError TokenResponse × PollState) :=
  pollLoop env fuel (pollInit now deviceAuth)

/-! ## The credential file -/

/-- The state of the file `~/.trek/credentials.json`, by what reading and parsing it
yields. -/
inductive CredentialsFile
  /-- There is no such file. -/
  | absent
  /-- The file exists and `os.ReadFile` fails on it. -/
  | unreadable
  /-- The file is read and `json.Unmarshal` rejects its content `data`. -/
  | corrupt (data : String)
  /-- The file is read and `json.Unmarshal` yields `c`. -/
  | holds (c : StoredCredentials)
  deriving DecidableEq, Repr

/-- The function `loadCredentials`. -/
def loadCredentials : CredentialsFile → Except GoError StoredCredentials
  | .absent => .error (.path "open" true)
  | .unreadable => .error (.path "open" false)
  | .corrupt data => .error (.json ("invalid character in " ++ data))
  | .holds c => .ok c

/-- The failures the file system can answer `saveCredentials` with. -/
structure SaveFaults where
  /-- The error of `os.MkdirAll`, if it fails. -/
  mkdirErr : Option GoError
  /-- The error of `json.MarshalIndent`, if it fails. -/
  marshalErr : Option GoError
  /-- The error of `os.WriteFile`, if it fails. -/
  writeErr : Option GoError
  /-- The state a failed `os.WriteFile` leaves the file in. -/
  leftover : CredentialsFile

/-- The function `saveCredentials`: the returned error and the file afterwards. -/
def saveCredentials (faults : SaveFaults) (file : CredentialsFile) (creds : StoredCredentials) :
    Option GoError × CredentialsFile :=
  match faults.mkdirErr with
  | some e => (some e, file)
  | none =>
    match faults.marshalErr with
    | some e => (some e, file)
    | none =>
      match faults.writeErr with
      | some e => (some e, faults.leftover)
      | none => (none, .holds creds)

/-- The function `GetAccessToken`; `now` is `time.Now()` at line 297. -/
def GetAccessToken (file : CredentialsFile) (now : Int) : String :=
  match loadCredentials file with
  | .error _ => ""
  | .ok creds => if timeAfter now creds.ExpiresAt = true then "" else creds.AccessToken

/-! ## The JSON form of the credentials -/

/-- A JSON value as far as the credential file needs it. -/
inductive JsonValue
  /-- A string. -/
  | str (s : String)
  /-- The value `null`. -/
  | null
  /-- Any other value: a number, a boolean, an array, an object. -/
  | other
  deriving DecidableEq, Repr

/-- The content of a file, as `json.Unmarshal` reads it. -/
inductive FileData
  /-- Bytes that are not a JSON value. -/
  | text (raw : String)
  /-- A JSON object with these members, in order (`null` reads as no members). -/
  | object (members : List (String × JsonValue))
  /-- A JSON value that is neither an object nor `null`. -/
  | scalar
  deriving DecidableEq, Repr

/-- The two methods of `time.Time` that `encoding/json` calls, on the text between
the quotes. -/
structure TimeCodec where
  /-- The method `Time.MarshalJSON`: the RFC 3339 form of an instant. -/
  format : Int → String
  /-- The method `Time.UnmarshalJSON`: the instant of a text in RFC 3339 form. -/
  parse : String → Option Int

/-- The zero value of `StoredCredentials`, as made by `var creds StoredCredentials`
(the zero `time.Time` is written as the instant 0). -/
def StoredCredentials.zero : StoredCredentials :=
  { AccessToken := "", RefreshToken := "", ExpiresAt := 0, Email := "" }

/-- The JSON members `json.MarshalIndent` writes for a `StoredCredentials`, by its
struct tags (lines 75-80): `refresh_token` and `email` are `omitempty`. -/
def marshalMembers (tc : TimeCodec) (creds : StoredCredentials) : List (String × JsonValue) :=
  [("access_token", .str creds.AccessToken)] ++
  (if creds.RefreshToken = "" then [] else [("refresh_token", .str creds.RefreshToken)]) ++
  [("expires_at", .str (tc.format creds.ExpiresAt))] ++
  (if creds.Email = "" then [] else [("email", .str creds.Email)])

/-- The call `json.MarshalIndent(creds, "", "  ")`, when it succeeds. -/
def MarshalIndent (tc : TimeCodec) (creds : StoredCredentials) : FileData :=
  .object (marshalMembers tc creds)

/-- How `json.Unmarshal` stores one member into a `StoredCredentials`: a member
with the name of a field (as `json.MarshalIndent` writes it) sets it when the value
fits the field, leaves it when the value is `null`, and is an error otherwise; other
members are skipped. -/
def storeMember (tc : TimeCodec) (acc : Except GoError StoredCredentials)
    (m : String × JsonValue) : Except GoError StoredCredentials :=
  match acc with
  | .error e => .error e
  | .ok c =>
    if m.1 = "access_token" then
      match m.2 with
      | .str s => .ok { c with AccessToken := s }
      | .null => .ok c
      | .other => .error (.json "cannot unmarshal into field access_token")
    else if m.1 = "refresh_token" then
      match m.2 with
      | .str s => .ok { c with RefreshToken := s }
      | .null => .ok c
      | .other => .error (.json "cannot unmarshal into field refresh_token")
    else if m.1 = "expires_at" then
      match m.2 with
      | .str s =>
        match tc.parse s with
        | some t => .ok { c with ExpiresAt := t }
        | none => .error (.json "parsing time")
      | .null => .ok c
      | .other => .error (.json "parsing time")
    else if m.1 = "email" then
      match m.2 with
      | .str s => .ok { c with Email := s }
      | .null => .ok c
      | .other => .error (.json "cannot unmarshal into field email")
    else .ok c

/-- The call `json.Unmarshal(data, &creds)` on a zero-valued `creds`. -/
def Unmarshal (tc : TimeCodec) : FileData → Except GoError StoredCredentials
  | .text raw => .error (.json ("invalid character in " ++ raw))
  | .scalar => .error (.json "cannot unmarshal into Go value of type cmd.StoredCredentials")
  | .object members => members.foldl (storeMember tc) (.ok StoredCredentials.zero)

/-- The state of a credential file that is there and can be read, by its content. -/
def fileWith (tc : TimeCodec) (data : FileData) : CredentialsFile :=
  match Unmarshal tc data with
  | .ok c => .holds c
  | .error _ =>
    match data with
    | .text raw => .corrupt raw
    | _ => .corrupt "<json>"

/-! ## The package `time`, as `encoding/json` uses it -/

/-- The function `isLeap` of package `time`. -/
def isLeap (year : Int) : Bool :=
  decide (year % 4 = 0 ∧ (year % 100 ≠ 0 ∨ year % 400 = 0))

/-- The table `daysBefore` of package `time`: the days of a non-leap year before the
month with index `m`, from 0 for January; index 12 is the length of the year. -/
def daysBefore (m : Int) : Int :=
  if m ≤ 0 then 0 else if m = 1 then 31 else if m = 2 then 59 else if m = 3 then 90
  else if m = 4 then 120 else if m = 5 then 151 else if m = 6 then 181
  else if m = 7 then 212 else if m = 8 then 243 else if m = 9 then 273
  else if m = 10 then 304 else if m = 11 then 334 else 365

/-- The function `daysIn` of package `time`. -/
def daysIn (month year : Int) : Int :=
  if month = 2 ∧ isLeap year = true then 29 else daysBefore month - daysBefore (month - 1)

/-- The year from which days are counted, 1 January -399: a year before every year
that can be written, at the start of a cycle of 400 years (package `time` counts
from the year -292277022399, which also is). -/
def absoluteZeroYear : Int := -399

/-- The days from 1 January -399 to 1 January 1970. -/
def unixToAbsoluteDays : Int := 865259

/-- The year and the day of the year (from 0) of a day counted from 1 January -399:
the first half of the function `absDate` of package `time`. -/
def absYear (abs : Int) : Int × Int :=
  let n := abs / 146097
  let y := 400 * n
  let d := abs - 146097 * n
  let n := d / 36524
  let n := n - n / 4
  let y := y + 100 * n
  let d := d - 36524 * n
  let n := d / 1461
  let y := y + 4 * n
  let d := d - 1461 * n
  let n := d / 365
  let n := n - n / 4
  let y := y + n
  let d := d - 365 * n
  (y + absoluteZeroYear, d)

/-- The month (from 1) and the day of the month (from 1) of the day `yday` of a year:
the second half of the function `absDate` of package `time`. -/
def monthDay (year yday : Int) : Int × Int :=
  if isLeap year = true ∧ yday = 31 + 29 - 1 then (2, 29)
  else
    let day := if isLeap year = true ∧ yday > 31 + 29 - 1 then yday - 1 else yday
    let month := day / 31
    let end_ := daysBefore (month + 1)
    if day ≥ end_ then (month + 1 + 1, day - end_ + 1)
    else (month + 1, day - daysBefore month + 1)

/-- The function `daysSinceEpoch` of package `time`: the days from 1 January -399 to
1 January of `year`. -/
def daysSinceEpoch (year : Int) : Int :=
  let y := year - absoluteZeroYear
  let n := y / 400
  let y := y - 400 * n
  let d := 146097 * n
  let n := y / 100
  let y := y - 100 * n
  let d := d + 36524 * n
  let n := y / 4
  let y := y - 4 * n
  let d := d + 1461 * n
  d + 365 * y

/-- The day, counted from 1 January -399, of a date: the computation of the function
`Date` of package `time`. -/
def dateDays (year month day : Int) : Int :=
  daysSinceEpoch year + daysBefore (month - 1) +
    (if isLeap year = true ∧ month ≥ 3 then 1 else 0) + (day - 1)

/-- The decimal digit for the last digit of `d`. -/
def digitChar (d : Int) : Char :=
  if d % 10 = 0 then '0' else if d % 10 = 1 then '1' else if d % 10 = 2 then '2'
  else if d % 10 = 3 then '3' else if d % 10 = 4 then '4' else if d % 10 = 5 then '5'
  else if d % 10 = 6 then '6' else if d % 10 = 7 then '7' else if d % 10 = 8 then '8'
  else '9'

/-- The value of a decimal digit; `none` for any other character. -/
def digitVal (c : Char) : Option Int :=
  if c = '0' then some 0 else if c = '1' then some 1 else if c = '2' then some 2
  else if c = '3' then some 3 else if c = '4' then some 4 else if c = '5' then some 5
  else if c = '6' then some 6 else if c = '7' then some 7 else if c = '8' then some 8
  else if c = '9' then some 9 else none

/-- The last `width` decimal digits of `x`, the most significant first. -/
def digitsOf : Nat → Int → List Char
  | 0, _ => []
  | width + 1, x => digitsOf width (x / 10) ++ [digitChar x]

/-- The function `appendInt` of package `time`: the decimal form of `x`, after the
sign, filled with zeros to `width` digits. -/
def appendInt (x : Int) (width : Nat) : List Char :=
  let u := if x < 0 then -x else x
  (if x < 0 then ['-'] else []) ++
    (if u < 10 ^ width then digitsOf width u else Nat.toDigits 10 u.toNat)

/-- The fields of an instant in a zone, as `Time.locabs`, `absDate` and `absClock`
compute them; `offset` is the offset of the zone in seconds east of UTC. -/
structure Civil where
  year : Int
  month : Int
  day : Int
  hour : Int
  min : Int
  sec : Int
  nsec : Int
  deriving DecidableEq, Repr

/-- The fields of the instant `t` (nanoseconds since 1970 UTC) in a zone. -/
def civil (offset t : Int) : Civil :=
  let abs := t / 1000000000 + offset + unixToAbsoluteDays * 86400
  let date := absYear (abs / 86400)
  let md := monthDay date.1 date.2
  let sec := abs % 86400
  { year := date.1, month := md.1, day := md.2, hour := sec / 3600,
    min := sec % 3600 / 60, sec := sec % 60, nsec := t % 1000000000 }

/-- The bytes `b` without the zeros at their end. -/
def trimZeros (b : List Char) : List Char := (b.reverse.dropWhile fun c => c = '0').reverse

/-- The function `appendNano` of package `time` for the layout ".999999999": nothing
for zero, else the point and nine digits without the zeros at the end. -/
def appendNano (nanosec : Int) : List Char :=
  if nanosec = 0 then [] else '.' :: trimZeros (appendInt nanosec 9)

/-- The zone of `appendFormatRFC3339`: "Z" for the offset zero, else the sign and
the offset in hours and minutes; the division `offset / 60` of Go rounds towards
zero. -/
def appendZone (offset : Int) : List Char :=
  if offset = 0 then ['Z']
  else
    let zone := if offset < 0 then -(-offset / 60) else offset / 60
    let sign := if zone < 0 then '-' else '+'
    let zone := if zone < 0 then -zone else zone
    sign :: (appendInt (zone / 60) 2 ++ [':'] ++ appendInt (zone % 60) 2)

/-- The method `Time.appendFormatRFC3339` with nanoseconds. -/
def appendFormatRFC3339 (offset t : Int) : List Char :=
  let c := civil offset t
  appendInt c.year 4 ++ ['-'] ++ appendInt c.month 2 ++ ['-'] ++ appendInt c.day 2 ++ ['T'] ++
    appendInt c.hour 2 ++ [':'] ++ appendInt c.min 2 ++ [':'] ++ appendInt c.sec 2 ++
    appendNano c.nsec ++ appendZone offset

/-- The method `Time.MarshalJSON`, without the quotes: the text of
`appendFormatRFC3339`, refused when the year is not in 0..9999 or the hour of the
zone is not below 24. -/
def MarshalJSON (offset t : Int) : Except GoError String :=
  if (civil offset t).year < 0 ∨ 9999 < (civil offset t).year then
    .error (.errorf "Time.MarshalJSON: year outside of range [0,9999]")
  else if offset ≤ -86400 ∨ 86400 ≤ offset then
    .error (.errorf "Time.MarshalJSON: timezone hour outside of range [0,23]")
  else .ok (String.mk (appendFormatRFC3339 offset t))

/-- The closure `parseUint` of `parseRFC3339`: the number written by the digits `s`,
when they are digits and the number is within `min..max`. -/
def parseUint (s : List Char) (min max : Int) : Option Int :=
  match s.foldl (fun acc c => acc.bind fun x => (digitVal c).map fun d => x * 10 + d)
      (some 0) with
  | some x => if x < min ∨ max < x then none else some x
  | none => none

/-- The function `Date` of package `time` for fields within their ranges and the
zone UTC: the instant, in nanoseconds since 1970. -/
def Date (year month day hour min sec nsec : Int) : Int :=
  ((dateDays year month day - unixToAbsoluteDays) * 86400 + hour * 3600 + min * 60 + sec) *
    1000000000 + nsec

/-- The number `atoi` reads from digits. -/
def atoi (s : List Char) : Int := s.foldl (fun x c => x * 10 + (digitVal c).getD 0) 0

/-- The function `parseNanoseconds` of package `time`, on the digits after the point:
at most nine digits are read, and scaled to nanoseconds. -/
def parseNanoseconds (digits : List Char) : Int :=
  atoi (digits.take 9) * 10 ^ (9 - (digits.take 9).length)

/-- The fractional second of `parseRFC3339`: the nanoseconds and what follows. -/
def parseFraction (s : List Char) : Int × List Char :=
  match s with
  | '.' :: c :: rest =>
    if (digitVal c).isSome = true then
      (parseNanoseconds ((c :: rest).takeWhile fun x => (digitVal x).isSome),
        (c :: rest).dropWhile fun x => (digitVal x).isSome)
    else (0, s)
  | _ => (0, s)

/-- The zone of `parseRFC3339`: the offset in seconds. -/
def parseZone (s : List Char) : Option Int :=
  match s with
  | ['Z'] => some 0
  | [sign, h1, h2, colon, m1, m2] =>
    (parseUint [h1, h2] 0 23).bind fun hr =>
    (parseUint [m1, m2] 0 59).bind fun mm =>
    if (sign = '-' ∨ sign = '+') ∧ colon = ':' then
      some (if sign = '-' then -((hr * 60 + mm) * 60) else (hr * 60 + mm) * 60)
    else none
  | _ => none

/-- The function `parseRFC3339` of package `time`: the instant a text denotes. -/
def parseRFC3339 (s : List Char) : Option Int :=
  match s with
  | y1 :: y2 :: y3 :: y4 :: c1 :: m1 :: m2 :: c2 :: d1 :: d2 :: c3 :: h1 :: h2 :: c4 ::
      n1 :: n2 :: c5 :: s1 :: s2 :: rest =>
    (parseUint [y1, y2, y3, y4] 0 9999).bind fun year =>
    (parseUint [m1, m2] 1 12).bind fun month =>
    (parseUint [d1, d2] 1 (daysIn month year)).bind fun day =>
    (parseUint [h1, h2] 0 23).bind fun hour =>
    (parseUint [n1, n2] 0 59).bind fun min =>
    (parseUint [s1, s2] 0 59).bind fun sec =>
    if c1 = '-' ∧ c2 = '-' ∧ c3 = 'T' ∧ c4 = ':' ∧ c5 = ':' then
      let frac := parseFraction rest
      (parseZone frac.2).map fun zoneOffset =>
        Date year month day hour min sec frac.1 - zoneOffset * 1000000000
    else none
  | _ => none

/-- The method `Time.UnmarshalJSON`, on the text between the quotes. -/
def UnmarshalJSON (text : String) : Except GoError Int :=
  match parseRFC3339 text.data with
  | some t => .ok t
  | none => .error (.errorf ("parsing time " ++ text))

/-- The two methods of `time.Time` that `encoding/json` calls, for times in a zone
with the offset `offset`, in seconds east of UTC. -/
def goTime (offset : Int) : TimeCodec :=
  { format := fun t => String.mk (appendFormatRFC3339 offset t)
    parse := fun s => parseRFC3339 s.data }

/-! ## UTF-8, as `encoding/json` uses it -/

/-- The rune `utf8.RuneError`, U+FFFD. -/
def RuneError : Char := Char.ofNat 0xFFFD

/-- The function `utf8.DecodeRune`: the first rune of `p` and its width in bytes;
`(RuneError, 1)` for a byte that begins no well-formed encoding, `(RuneError, 0)` for
no bytes. The values are written with arithmetic where Go masks and shifts. -/
def DecodeRune (p : List UInt8) : Char × Nat :=
  match p with
  | [] => (RuneError, 0)
  | p0 :: rest =>
    let b0 := p0.toNat
    if b0 < 0x80 then (Char.ofNat b0, 1)
    else if b0 < 0xC2 then (RuneError, 1)
    else if b0 < 0xE0 then
      match rest with
      | p1 :: _ =>
        if 0x80 ≤ p1.toNat ∧ p1.toNat ≤ 0xBF then
          (Char.ofNat ((b0 - 0xC0) * 64 + (p1.toNat - 0x80)), 2)
        else (RuneError, 1)
      | _ => (RuneError, 1)
    else if b0 < 0xF0 then
      match rest with
      | p1 :: p2 :: _ =>
        if (if b0 = 0xE0 then 0xA0 else 0x80) ≤ p1.toNat ∧
            p1.toNat ≤ (if b0 = 0xED then 0x9F else 0xBF) ∧
            0x80 ≤ p2.toNat ∧ p2.toNat ≤ 0xBF then
          (Char.ofNat ((b0 - 0xE0) * 4096 + (p1.toNat - 0x80) * 64 + (p2.toNat - 0x80)), 3)
        else (RuneError, 1)
      | _ => (RuneError, 1)
    else if b0 < 0xF5 then
      match rest with
      | p1 :: p2 :: p3 :: _ =>
        if (if b0 = 0xF0 then 0x90 else 0x80) ≤ p1.toNat ∧
            p1.toNat ≤ (if b0 = 0xF4 then 0x8F else 0xBF) ∧
            0x80 ≤ p2.toNat ∧ p2.toNat ≤ 0xBF ∧ 0x80 ≤ p3.toNat ∧ p3.toNat ≤ 0xBF then
          (Char.ofNat ((b0 - 0xF0) * 262144 + (p1.toNat - 0x80) * 4096 +
            (p2.toNat - 0x80) * 64 + (p3.toNat - 0x80)), 4)
        else (RuneError, 1)
      | _ => (RuneError, 1)
    else (RuneError, 1)

/-- The function `utf8.AppendRune` for a Unicode scalar value: its UTF-8 encoding. -/
def AppendRune (r : Char) : List UInt8 :=
  let v := r.toNat
  if v ≤ 0x7F then [UInt8.ofNat v]
  else if v ≤ 0x7FF then [UInt8.ofNat (0xC0 + v / 64), UInt8.ofNat (0x80 + v % 64)]
  else if v ≤ 0xFFFF then
    [UInt8.ofNat (0xE0 + v / 4096), UInt8.ofNat (0x80 + v / 64 % 64), UInt8.ofNat (0x80 + v % 64)]
  else
    [UInt8.ofNat (0xF0 + v / 262144), UInt8.ofNat (0x80 + v / 4096 % 64),
      UInt8.ofNat (0x80 + v / 64 % 64), UInt8.ofNat (0x80 + v % 64)]

/-- The runes a `for range` loop reads from the bytes `p`, as the encoder of
`encoding/json` does: a byte that begins no well-formed encoding reads as
`RuneError`. `fuel` bounds the number of runes. -/
def runesLoop : Nat → List UInt8 → List Char
  | 0, _ => []
  | fuel + 1, p =>
    match p with
    | [] => []
    | _ :: _ => (DecodeRune p).1 :: runesLoop fuel (p.drop (DecodeRune p).2)

/-- The text of the JSON string `json.Marshal` writes for the Go string `p`: its
runes, with U+FFFD for every byte that is not part of well-formed UTF-8. -/
def jsonString (p : List UInt8) : String := String.mk (runesLoop p.length p)

/-- The UTF-8 encoding of a text. -/
def utf8 : List Char → List UInt8
  | [] => []
  | r :: rest => AppendRune r ++ utf8 rest

/-- The Go string `json.Unmarshal` makes of the text of a JSON string. -/
def goString (s : String) : List UInt8 := utf8 s.data

/-- The struct `StoredCredentials` as Go holds it: its strings are sequences of
bytes, which need not be UTF-8. -/
structure GoCredentials where
  AccessToken : List UInt8
  RefreshToken : List UInt8
  ExpiresAt : Int
  Email : List UInt8
  deriving DecidableEq, Repr

/-- The texts `json.MarshalIndent` writes for the strings of a credential. -/
def GoCredentials.toText (g : GoCredentials) : StoredCredentials :=
  { AccessToken := jsonString g.AccessToken, RefreshToken := jsonString g.RefreshToken,
    ExpiresAt := g.ExpiresAt, Email := jsonString g.Email }

/-- The credential `json.Unmarshal` builds from the texts it has read. -/
def StoredCredentials.toGo (c : StoredCredentials) : GoCredentials :=
  { AccessToken := goString c.AccessToken, RefreshToken := goString c.RefreshToken,
    ExpiresAt := c.ExpiresAt, Email := goString c.Email }

/-- The call `json.MarshalIndent(creds, "", "  ")` on the struct as Go holds it, when
it succeeds. -/
def MarshalIndentGo (tc : TimeCodec) (g : GoCredentials) : FileData :=
  MarshalIndent tc g.toText

/-- The call `json.Unmarshal(data, &creds)` into the struct as Go holds it. -/
def UnmarshalGo (tc : TimeCodec) (data : FileData) : Except GoError GoCredentials :=
  match Unmarshal tc data with
  | .ok c => .ok c.toGo
  | .error e => .error e

/-! ## The permission bits -/

/-- The permission bits of `~/.trek` and of `credentials.json` in it, each when it
exists, and the umask of the process. -/
structure Modes where
  umask : Nat
  dir : Option Nat
  file : Option Nat
  deriving DecidableEq, Repr

/-- The permission bits `perm` less those of the umask. -/
def lessUmask (perm umask : Nat) : Nat := perm ^^^ (perm &&& umask)

/-- What a successful `os.MkdirAll(dir, perm)` does to the permission bits: a
directory that exists is left as it is, a new one gets `perm` less the umask. -/
def MkdirAll (perm : Nat) (m : Modes) : Modes :=
  match m.dir with
  | some _ => m
  | none => { m with dir := some (lessUmask perm m.umask) }

/-- What a successful `os.WriteFile(path, data, perm)` does to the permission bits:
a file that exists is truncated and keeps its bits, a new one gets `perm` less the
umask. -/
def WriteFile (perm : Nat) (m : Modes) : Modes :=
  match m.file with
  | some _ => m
  | none => { m with file := some (lessUmask perm m.umask) }

/-- The function `saveCredentials` again, followed on the permission bits: the
returned error and the bits afterwards. -/
def saveCredentialsModes (faults : SaveFaults) (m : Modes) : Option GoError × Modes :=
  match faults.mkdirErr with
  | some e => (some e, m)
  | none =>
    let m1 := MkdirAll 0o700 m
    match faults.marshalErr with
    | some e => (some e, m1)
    | none =>
      match faults.writeErr with
      | some e =>
        (some e, if faults.leftover = .absent then { m1 with file := none }
          else WriteFile 0o600 m1)
      | none => (none, WriteFile 0o600 m1)

/-! ## Login -/

/-- The credentials `runLogin` builds from a grant (lines 120-124); `now` is
`time.Now()` at line 123. -/
def newCredentials (now : Int) (token : TokenResponse) : StoredCredentials :=
  { AccessToken := token.AccessToken
    RefreshToken := token.RefreshToken
    ExpiresAt := timeAdd now (secondsDuration token.ExpiresIn)
    Email := "" }

/-- Steps 3 and 4 of `runLogin` (lines 113-131): poll, then save.  The result is the
returned error and the credential file afterwards. -/
def pollAndSave (env : Env) (faults : SaveFaults) (file : CredentialsFile) (now : Int)
    (deviceAuth : DeviceAuthResponse) (fuel : Nat) : Option (Option GoError × CredentialsFile) :=
  match pollForToken env now deviceAuth fuel with
  | none => none
  | some (.error err, _) => some (some (.wrap "authentication failed" err), file)
  | some (.ok token, s) =>
    match saveCredentials faults file (newCredentials s.now token) with
    | (some err, file1) => some (some (.wrap "failed to save credentials" err), file1)
    | (none, file1) => some (none, file1)

/-- The configuration error of `runLogin` (line 95). -/
def configError : GoError :=
  .errorf ("clerk-domain and client-id are required " ++
    "(set via flags or TREK_CLERK_DOMAIN/TREK_CLERK_CLIENT_ID env vars)")

/-! ## The device authorization endpoint -/

/-- A response body of the device authorization endpoint, by what
`json.Decoder.Decode` makes of it. -/
inductive DeviceBody
  /-- A JSON object that decodes without error; `d` holds the decoded members
  (absent members keep their zero value). -/
  | object (d : DeviceAuthResponse)
  /-- Text that is not a JSON value: `Decode` fails before it stores anything. -/
  | notJSON
  /-- JSON of the wrong shape: `Decode` stores the members that fit and returns a
  type error. -/
  | mistyped (stored : DeviceAuthResponse)
  deriving DecidableEq, Repr

/-- The zero value of `DeviceAuthResponse`, as made by `var result DeviceAuthResponse`. -/
def DeviceAuthResponse.zero : DeviceAuthResponse :=
  { DeviceCode := "", UserCode := "", VerificationURI := "", VerificationURIComplete := "",
    ExpiresIn := 0, Interval := 0 }

/-- The call `json.NewDecoder(resp.Body).Decode(&result)` of
`requestDeviceAuthorization`, on a zero-valued `result`: the value `result` has
afterwards, and the returned error. -/
def DecodeDevice : DeviceBody → DeviceAuthResponse × Option GoError
  | .object d => (d, none)
  | .notJSON => (DeviceAuthResponse.zero, some (.json "invalid character"))
  | .mistyped stored => (stored, some (.json "cannot unmarshal"))

/-- A response of the device authorization endpoint. -/
structure DeviceResponse where
  StatusCode : Nat
  /-- The bytes of the body, as `io.ReadAll` returns them. -/
  text : String
  /-- The same body, as the JSON decoder reads it. -/
  body : DeviceBody
  deriving DecidableEq, Repr

/-- The outcome of the `http.DefaultClient.Do(req)` of `requestDeviceAuthorization`. -/
inductive DeviceHttpResult
  /-- Transport-level failure: `Do` returned an error. -/
  | transportError (msg : String)
  /-- The server answered. -/
  | response (r : DeviceResponse)
  deriving DecidableEq, Repr

/-- The environment of `requestDeviceAuthorization`. -/
structure DeviceEnv where
  /-- The error of `http.NewRequestWithContext` for an endpoint, if it has one. -/
  newRequestErr : String → Option String
  /-- The outcome of the POST of a form to an endpoint. -/
  doResult : String → List (String × String) → DeviceHttpResult

/-- The endpoint `requestDeviceAuthorization` posts to (line 165). -/
def deviceEndpoint (clerkDomain : String) : String :=
  "https://" ++ clerkDomain ++ "/oauth/device/code"

/-- The form `requestDeviceAuthorization` posts (lines 167-169), before encoding. -/
def deviceForm (clientID : String) : List (String × String) :=
  [("client_id", clientID), ("scope", "openid email profile")]

/-- The function `requestDeviceAuthorization`. -/
def requestDeviceAuthorization (env : DeviceEnv) (clerkDomain clientID : String) :
    Except GoError DeviceAuthResponse :=
  let endpoint := deviceEndpoint clerkDomain
  match env.newRequestErr endpoint with
  | some msg => .error (.newRequest msg)
  | none =>
    match env.doResult endpoint (deviceForm clientID) with
    | .transportError msg => .error (.url msg)
    | .response resp =>
      if resp.StatusCode ≠ 200 then
        .error (.errorf ("device auth request failed: " ++ resp.text))
      else
        match DecodeDevice resp.body with
        | (_, some err) => .error err
        | (result, none) => .ok result

/-- The number of requests `requestDeviceAuthorization` sends: one, unless the
request cannot be built. -/
def deviceRequestsSent (env : DeviceEnv) (clerkDomain : String) : Nat :=
  match env.newRequestErr (deviceEndpoint clerkDomain) with
  | some _ => 0
  | none => 1

/-! ## The commands -/

/-- What `runLogin` reads its configuration from: the two flags and the two
environment variables (`os.Getenv` yields the empty string for an unset one). -/
structure LoginConfig where
  flagClerkDomain : String
  flagClientID : String
  envClerkDomain : String
  envClientID : String
  deriving DecidableEq, Repr

/-- The world around one `runLogin`. -/
structure LoginWorld where
  device : DeviceEnv
  /-- The environment of the poll; its context is replaced by the one `runLogin`
  makes. -/
  poll : Env
  /-- The instant `time.Now()` on entry to `pollForToken`. -/
  pollStart : Int
  faults : SaveFaults

/-- The context `context.Background()`: it is never done. -/
def Background : Ctx := { doneAt := none, err := .Canceled }

/-- The environment `runLogin` polls in: that of the world, under the context
`context.Background()` of line 98. -/
def LoginWorld.pollEnv (w : LoginWorld) : Env := { w.poll with ctx := Background }

/-- What `runLogin` returns and leaves behind. -/
structure LoginResult where
  err : Option GoError
  /-- The credential file afterwards. -/
  file : CredentialsFile
  /-- The number of device authorization requests sent. -/
  deviceRequests : Nat
  /-- The token requests sent. -/
  polls : List Poll
  deriving DecidableEq, Repr

/-- The function `runLogin`; the messages it prints are left out. `none` when the
fuel of the poll loop runs out. -/
def runLogin (w : LoginWorld) (cfg : LoginConfig) (file : CredentialsFile) (fuel : Nat) :
    Option LoginResult :=
  let clerkDomain := if cfg.flagClerkDomain = "" then cfg.envClerkDomain else cfg.flagClerkDomain
  let clientID := if cfg.flagClientID = "" then cfg.envClientID else cfg.flagClientID
  if clerkDomain = "" ∨ clientID = "" then
    some { err := some configError, file := file, deviceRequests := 0, polls := [] }
  else
    let sent := deviceRequestsSent w.device clerkDomain
    match requestDeviceAuthorization w.device clerkDomain clientID with
    | .error err =>
      some { err := some (.wrap "device authorization failed" err), file := file,
             deviceRequests := sent, polls := [] }
    | .ok deviceAuth =>
      match pollForToken w.pollEnv w.pollStart deviceAuth fuel with
      | none => none
      | some (.error err, s) =>
        some { err := some (.wrap "authentication failed" err), file := file,
               deviceRequests := sent, polls := s.log }
      | some (.ok token, s) =>
        match saveCredentials w.faults file (newCredentials s.now token) with
        | (some err, file1) =>
          some { err := some (.wrap "failed to save credentials" err), file := file1,
                 deviceRequests := sent, polls := s.log }
        | (none, file1) =>
          some { err := none, file := file1, deviceRequests := sent, polls := s.log }

/-- The function `os.IsNotExist`. -/
def IsNotExist : GoError → Bool
  | .path _ notExist => notExist
  | _ => false

/-- The call `os.Remove(credPath)`: the returned error and the file afterwards.
`refusal` is the reason for which the file system refuses to remove a file that
exists, if it does refuse. -/
def Remove (refusal : Option String) : CredentialsFile → Option GoError × CredentialsFile
  | .absent => (some (.path "remove: no such file or directory" true), .absent)
  | file =>
    match refusal with
    | some reason => (some (.path ("remove: " ++ reason) false), file)
    | none => (none, .absent)

/-- What `runLogout` prints, returns and leaves behind. -/
structure LogoutResult where
  stdout : String
  err : Option GoError
  file : CredentialsFile
  deriving DecidableEq, Repr

/-- The function `runLogout`. -/
def runLogout (refusal : Option String) (file : CredentialsFile) : LogoutResult :=
  match Remove refusal file with
  | (some err, file1) =>
    if IsNotExist err = false then
      { stdout := "", err := some (.wrap "failed to remove credentials" err), file := file1 }
    else
      { stdout := "‚úÖ Logged out successfully\n", err := none, file := file1 }
  | (none, file1) =>
    { stdout := "‚úÖ Logged out successfully\n", err := none, file := file1 }

/-- The function `runWhoami`: what it prints and the error it returns. `now` is
`time.Now()` at line 151 and `rfc3339` is `Time.Format(time.RFC3339)`. -/
def runWhoami (rfc3339 : Int → String) (file : CredentialsFile) (now : Int) :
    String × Option GoError :=
  match loadCredentials file with
  | .error _ => ("Not authenticated. Run 'trek auth login' to authenticate.\n", none)
  | .ok creds =>
    if timeAfter now creds.ExpiresAt = true then
      ("Session expired. Run 'trek auth login' to re-authenticate.\n", none)
    else
      ("Authenticated\n" ++
        (if creds.Email ≠ "" then "Email: " ++ creds.Email ++ "\n" else "") ++
        "Expires: " ++ rfc3339 creds.ExpiresAt ++ "\n", none)

/-! ## Runtime faults -/

/-- A run-time panic of the Go runtime. -/
structure Panic where
  msg : String
  deriving DecidableEq, Repr

/-! ## The configuration file and the settings (`cmd/root.go`) -/

/-- A YAML value in a mapping of the configuration file. A scalar is kept as its
text, whatever type YAML resolves it to. -/
inductive YamlValue
  /-- A scalar other than `null`, with its text. -/
  | scalar (text : String)
  /-- The scalar `null`. -/
  | null
  /-- A sequence or a mapping. -/
  | composite
  deriving DecidableEq, Repr

/-- The content of a file, as `yaml.Unmarshal` reads it. -/
inductive YamlDoc
  /-- Bytes that are not YAML. -/
  | invalid (msg : String)
  /-- No document at all (an empty file, blanks, comments), or the document `null`. -/
  | empty
  /-- A mapping with string keys, in order; the keys are distinct. -/
  | mapping (entries : List (String × YamlValue))
  /-- Any other document: a scalar, a sequence. -/
  | other
  deriving DecidableEq, Repr

/-- The state of a configuration file. -/
inductive ConfigFile
  /-- There is no such file. -/
  | absent
  /-- The file exists and `os.ReadFile` fails on it. -/
  | unreadable
  /-- The file is read and has this content. -/
  | content (doc : YamlDoc)
  deriving DecidableEq, Repr

/-- The call `os.ReadFile(path)` on a configuration file. -/
def readConfig : ConfigFile → Except GoError YamlDoc
  | .absent => .error (.path "open: no such file or directory" true)
  | .unreadable => .error (.path "open: permission denied" false)
  | .content doc => .ok doc

/-- The package variables `apiEndpoint`, `apiToken`, `orgID` and `env`. -/
structure Settings where
  apiEndpoint : String
  apiToken : String
  orgID : String
  env : String
  deriving DecidableEq, Repr

/-- The anonymous struct `cfg` of `loadConfigFile` (lines 87-92). -/
structure ConfigValues where
  Endpoint : String
  Token : String
  Org : String
  Env : String
  deriving DecidableEq, Repr

/-- The value of a key in a mapping, if the key is there. -/
def yamlLookup (entries : List (String × YamlValue)) (key : String) : Option YamlValue :=
  (entries.find? fun e => e.1 = key).map fun e => e.2

/-- How `yaml.Unmarshal` fills one string field of a struct from a mapping: the text
of a scalar, the empty string for `null` or a key that is not there, and a type
error for a sequence or a mapping. -/
def yamlField (entries : List (String × YamlValue)) (key : String) : Except GoError String :=
  match yamlLookup entries key with
  | none => .ok ""
  | some (.scalar text) => .ok text
  | some .null => .ok ""
  | some .composite => .error (.errorf ("yaml: cannot unmarshal " ++ key ++ " into string"))

/-- The call `yaml.Unmarshal(data, &cfg)` of `loadConfigFile`, on a zero-valued
`cfg`. -/
def unmarshalConfig : YamlDoc → Except GoError ConfigValues
  | .invalid msg => .error (.errorf ("yaml: " ++ msg))
  | .empty => .ok { Endpoint := "", Token := "", Org := "", Env := "" }
  | .other => .error (.errorf "yaml: cannot unmarshal into struct")
  | .mapping entries =>
    match yamlField entries "endpoint", yamlField entries "token", yamlField entries "org",
      yamlField entries "env" with
    | .ok e, .ok t, .ok o, .ok v => .ok { Endpoint := e, Token := t, Org := o, Env := v }
    | .error err, _, _, _ => .error err
    | _, .error err, _, _ => .error err
    | _, _, .error err, _ => .error err
    | _, _, _, .error err => .error err

/-- The function `loadConfigFile`: the settings afterwards and what it writes to
the standard error. -/
def loadConfigFile (path : String) (file : ConfigFile) (g : Settings) : Settings × String :=
  match readConfig file with
  | .error err =>
    if IsNotExist err = false then
      (g, "Warning: failed to read config file " ++ path ++ ": " ++ err.Error ++ "\n")
    else (g, "")
  | .ok data =>
    match unmarshalConfig data with
    | .error err =>
      (g, "Warning: failed to parse config file " ++ path ++ ": " ++ err.Error ++ "\n")
    | .ok cfg =>
      let g := if g.apiEndpoint = "" ∧ cfg.Endpoint ≠ "" then
        { g with apiEndpoint := cfg.Endpoint } else g
      let g := if g.apiToken = "" ∧ cfg.Token ≠ "" then { g with apiToken := cfg.Token } else g
      let g := if g.orgID = "" ∧ cfg.Org ≠ "" then { g with orgID := cfg.Org } else g
      let g := if g.env = "" ∧ cfg.Env ≠ "" then { g with env := cfg.Env } else g
      (g, "")

/-- The client `trek.NewClient` builds, as far as this repository fixes it: the four
values it is given. -/
structure Client where
  endpoint : String
  token : String
  orgID : String
  env : String
  deriving DecidableEq, Repr

/-- The function `getClient`. -/
def getClient (g : Settings) : Except GoError Client :=
  if g.apiEndpoint = "" then
    .error (.errorf "API endpoint required (--endpoint or TREK_API_ENDPOINT)")
  else if g.apiToken = "" then
    .error (.errorf "API token required (--token or TREK_API_TOKEN)")
  else if g.orgID = "" then
    .error (.errorf "org ID required (--org or TREK_ORG_ID)")
  else if g.env = "" then
    .error (.errorf "env required (--env or TREK_ENV)")
  else
    .ok { endpoint := g.apiEndpoint, token := g.apiToken, orgID := g.orgID, env := g.env }

/-! ## Session creation (`cmd/start.go`) -/

/-- The call `strings.SplitN(s, "=", 2)`: the text before the first `=` and the text
after it, or `s` alone when it has no `=`. -/
def SplitN2 (s : String) : List String :=
  match s.data.span (fun c => c ≠ '=') with
  | (key, _ :: value) => [String.mk key, String.mk value]
  | (_, []) => [s]

/-- A `map[string]string`: the value of each key that is in the map. -/
abbrev Labels := String → Option String

/-- The assignment `m[key] = value`. -/
def Labels.set (m : Labels) (key value : String) : Labels :=
  fun k => if k = key then some value else m k

/-- The loop of `parseLabels` (lines 101-107); `quote` is the verb `%q` of `fmt`. -/
def parseLabelsLoop (quote : String → String) : List String → Labels → Except GoError Labels
  | [], result => .ok result
  | l :: rest, result =>
    match SplitN2 l with
    | [key, value] => parseLabelsLoop quote rest (result.set key value)
    | _ =>
      .error (.errorf ("invalid label format " ++ quote l ++ ": expected key=value"))

/-- The function `parseLabels`; `none` is the nil map. -/
def parseLabels (quote : String → String) (labels : List String) :
    Except GoError (Option Labels) :=
  if labels.length = 0 then .ok none
  else
    match parseLabelsLoop quote labels (fun _ => none) with
    | .error err => .error err
    | .ok result => .ok (some result)

/-- The struct `trek.Selector`, as far as `runCreate` fills it; `Custom` stays nil. -/
structure Selector where
  UserID : String
  RequestID : String
  TenantID : String
  Route : String
  deriving DecidableEq, Repr

/-- The function `trek.IsEmptySelector` of the client library: whether no field of
the selector is set (`TestSelectorConstruction` checks it on the four fields). -/
def IsEmptySelector (sel : Selector) : Bool :=
  decide (sel.UserID = "" ∧ sel.RequestID = "" ∧ sel.TenantID = "" ∧ sel.Route = "")

/-- The struct `trek.CreateSessionRequest`. -/
structure CreateSessionRequest where
  Selector : Selector
  Level : String
  TTLSeconds : Int
  Reason : String
  Labels : Option Labels

/-- The package variables the flags of `session create` are bound to. -/
structure CreateFlags where
  userID : String
  requestID : String
  tenantID : String
  route : String
  ttl : Int
  level : String
  reason : String
  labels : List String

/-- The world around one `runCreate`. -/
structure CreateWorld where
  /-- The verb `%q` of `fmt`. -/
  quote : String → String
  /-- The expression `int(ttl.Seconds())`. -/
  seconds : Int → Int
  /-- The error of `client.CreateSession` for a request, if it fails. -/
  createErr : Client → CreateSessionRequest → Option GoError

/-- What `runCreate` returns, and the create-session requests it has sent; the
messages it prints are left out. -/
structure CreateResult where
  err : Option GoError
  sent : List (Client × CreateSessionRequest)

/-- The function `runCreate`. -/
def runCreate (w : CreateWorld) (g : Settings) (f : CreateFlags) : CreateResult :=
  match getClient g with
  | .error err => { err := some err, sent := [] }
  | .ok client =>
    let selector : Selector :=
      { UserID := f.userID, RequestID := f.requestID, TenantID := f.tenantID, Route := f.route }
    if IsEmptySelector selector = true then
      { err := some (.errorf
          "at least one selector field required (--user, --request, --tenant, or --route)"),
        sent := [] }
    else
      match parseLabels w.quote f.labels with
      | .error err => { err := some err, sent := [] }
      | .ok labelMap =>
        let req : CreateSessionRequest :=
          { Selector := selector, Level := f.level, TTLSeconds := w.seconds f.ttl,
            Reason := f.reason, Labels := labelMap }
        match w.createErr client req with
        | some err =>
          { err := some (.wrap "failed to create session" err), sent := [(client, req)] }
        | none => { err := none, sent := [(client, req)] }

/-! ## Table output (`cmd/list.go`) -/

/-- The function `truncate`, on the bytes of the string: `len` and the slice
expression count bytes. A slice bound out of range is a run-time panic. -/
def truncate (s : List UInt8) (max : Int) : Except Panic (List UInt8) :=
  if (s.length : Int) ≤ max then .ok s
  else
    let high := int64 (max - 3)
    if high < 0 ∨ (s.length : Int) < high then
      .error { msg := "slice bounds out of range" }
    else .ok (s.take high.toNat ++ [46, 46, 46])

/-! ## Environment switch (`cmd/env.go`) -/

/-- The failures the system can answer `runEnvSwitch` with. -/
structure SwitchFaults where
  /-- The error of `os.UserHomeDir`, if it fails. -/
  homeErr : Option GoError
  /-- The error of `os.MkdirAll`, if it fails. -/
  mkdirErr : Option GoError
  /-- The error of `yaml.Marshal`, if it fails. -/
  marshalErr : Option GoError
  /-- The error of `os.WriteFile`, if it fails. -/
  writeErr : Option GoError
  /-- The state a failed `os.WriteFile` leaves the file in. -/
  leftover : ConfigFile

/-- The call `yaml.Unmarshal(data, &cfg)` of `runEnvSwitch`, on a nil
`map[string]interface{}`: the map afterwards (`none` is the nil map), or the error. -/
def unmarshalMap : YamlDoc → Except GoError (Option (List (String × YamlValue)))
  | .invalid msg => .error (.errorf ("yaml: " ++ msg))
  | .empty => .ok none
  | .other => .error (.errorf "yaml: cannot unmarshal into map[string]interface {}")
  | .mapping entries => .ok (some entries)

/-- The assignment `cfg[key] = value` on a map that is not nil. -/
def setKey (entries : List (String × YamlValue)) (key : String) (value : YamlValue) :
    List (String × YamlValue) :=
  match entries with
  | [] => [(key, value)]
  | e :: rest => if e.1 = key then (key, value) :: rest else e :: setKey rest key value

/-- What `runEnvSwitch` returns and leaves behind. -/
structure SwitchResult where
  err : Option GoError
  /-- The configuration file afterwards. -/
  file : ConfigFile
  /-- The package variable `env` afterwards. -/
  env : String
  stdout : String
  deriving DecidableEq, Repr

/-- The function `runEnvSwitch`; `file` is the state of `~/.trek/config.yaml` and
`env` the package variable. -/
def runEnvSwitch (faults : SwitchFaults) (args : List String) (file : ConfigFile)
    (env : String) : Except Panic SwitchResult :=
  match args with
  | [] => .error { msg := "index out of range [0] with length 0" }
  | targetEnv :: _ =>
    match faults.homeErr with
    | some err =>
      .ok { err := some (.wrap "failed to get home directory" err), file := file, env := env,
            stdout := "" }
    | none =>
      let loaded : Except GoError (Option (List (String × YamlValue))) :=
        match readConfig file with
        | .error err =>
          if IsNotExist err = true then .ok (some [])
          else .error (.wrap "failed to read config" err)
        | .ok data =>
          match unmarshalMap data with
          | .error err => .error (.wrap "failed to parse config" err)
          | .ok cfg => .ok cfg
      match loaded with
      | .error err => .ok { err := some err, file := file, env := env, stdout := "" }
      | .ok none => .error { msg := "assignment to entry in nil map" }
      | .ok (some entries) =>
        let cfg := setKey entries "env" (.scalar targetEnv)
        match faults.mkdirErr with
        | some err =>
          .ok { err := some (.wrap "failed to create config directory" err), file := file,
                env := env, stdout := "" }
        | none =>
          match faults.marshalErr with
          | some err =>
            .ok { err := some (.wrap "failed to marshal config" err), file := file,
                  env := env, stdout := "" }
          | none =>
            match faults.writeErr with
            | some err =>
              .ok { err := some (.wrap "failed to write config" err),
                    file := faults.leftover, env := env, stdout := "" }
            | none =>
              .ok { err := none, file := .content (.mapping cfg), env := targetEnv,
                    stdout := "Switched to environment: " ++ targetEnv ++ "\n" }

/-! ## Vocabulary of the properties -/

/-- The `error` member the poller reads from the outcome of a request; `none` for a
transport failure. -/
def HttpResult.errorCode : HttpResult → Option String
  | .transportError _ => none
  | .response _ body => some (Decode body).1.Error

/-- The iteration that starts in state `s` passes the loop test, waits out its timer
until `t`, builds its request and gets the outcome `r` for it. -/
def Polls (env : Env) (s : PollState) (t : Int) (r : HttpResult) : Prop :=
  s.now < s.deadline ∧ selectWait env s = .timer t ∧ env.newRequestErr = none ∧
    env.doResult s.iter = r

/-- The state after `n` iterations from `s`, when none of them returns. -/
def pollAfter (env : Env) : Nat → PollState → Option PollState
  | 0, s => some s
  | n + 1, s =>
    match pollStep env s with
    | .next s1 => pollAfter env n s1
    | .ret _ _ => none

/-- The number of `slow_down` responses in a log. -/
def slowDowns (log : List Poll) : Nat :=
  (log.filter fun p => decide (p.outcome.errorCode = some "slow_down")).length

/-- The duration the poller passes to `time.After` after the request `p`: five
seconds more than before it when `p` was answered with `slow_down` (the addition is
Go's, on `int64`), and otherwise the same. -/
def nextWait (p : Poll) : Int :=
  if p.outcome.errorCode = some "slow_down" then int64 (p.wait + int64 (5 * Second)) else p.wait

/-- The state `s` occurs in the run of `pollForToken` from this input: the loop
reaches it after some iterations, or the function returns in it. -/
def InRun (env : Env) (now : Int) (deviceAuth : DeviceAuthResponse) (s : PollState) : Prop :=
  (∃ n, pollAfter env n (pollInit now deviceAuth) = some s) ∨
    ∃ fuel r, pollForToken env now deviceAuth fuel = some (r, s)

/-- The waits of a state follow the poller's rule: each logged request was preceded
by the wait `nextWait` gives for the request before it, the current interval is the
one `nextWait` gives for the last request, and all of them are `int64` values. -/
def WaitsFollow (s : PollState) : Prop :=
  (∀ k p q, s.log[k]? = some p → s.log[k + 1]? = some q → q.wait = nextWait p) ∧
  (∀ p, s.log.getLast? = some p → s.interval = nextWait p) ∧
  -9223372036854775808 ≤ s.interval ∧ ∀ p ∈ s.log, -9223372036854775808 ≤ p.wait

/-- The error the poller returns for a provider error code that ends the polling. -/
def providerError (code desc : String) : GoError :=
  if code = "expired_token" then .errorf "device code expired"
  else if code = "access_denied" then .errorf "access denied by user"
  else .errorf (code ++ ": " ++ desc)

/-- The challenge with the given `interval` and `expires_in`. -/
def challenge (interval expiresIn : Int) : DeviceAuthResponse :=
  { DeviceCode := "dev", UserCode := "ABCD-EFGH", VerificationURI := "https://c.test/device",
    VerificationURIComplete := "https://c.test/device?user_code=ABCD-EFGH",
    ExpiresIn := expiresIn, Interval := interval }

/-- The body of a provider error with the given code and description. -/
def errorBody (code desc : String) : Body :=
  .object { TokenResponse.zero with Error := code, ErrorDesc := desc }

/-- An environment without cancellation or delays in which request `k` gets `r k`. -/
def scripted (r : Nat → HttpResult) : Env :=
  { ctx := { doneAt := none, err := .Canceled }
    newRequestErr := none
    timerLag := fun _ => 0
    selectDone := fun _ => false
    doTime := fun _ => 0
    doResult := r }

/-- The report of `runWhoami` when no credential can be loaded. -/
def notAuthenticated : String :=
  "Not authenticated. Run 'trek auth login' to authenticate.\n"

/-- The report of `runWhoami` for a credential that has expired. -/
def sessionExpired : String :=
  "Session expired. Run 'trek auth login' to re-authenticate.\n"

/-- The report of `runWhoami` for a valid credential: the status, the email when
there is one, and the expiry. -/
def authenticated (rfc3339 : Int → String) (c : StoredCredentials) : String :=
  "Authenticated\n" ++ (if c.Email ≠ "" then "Email: " ++ c.Email ++ "\n" else "") ++
    "Expires: " ++ rfc3339 c.ExpiresAt ++ "\n"

/-- The identity domain `runLogin` works with: the flag, or else the environment
variable. -/
def LoginConfig.clerkDomain (cfg : LoginConfig) : String :=
  if cfg.flagClerkDomain = "" then cfg.envClerkDomain else cfg.flagClerkDomain

/-- The client id `runLogin` works with: the flag, or else the environment
variable. -/
def LoginConfig.clientID (cfg : LoginConfig) : String :=
  if cfg.flagClientID = "" then cfg.envClientID else cfg.flagClientID

/-- The message of the error `e` contains `text`. -/
def Mentions (e : GoError) (text : String) : Prop := text.data <:+: e.Error.data

/-- The settings `loadConfigFile` leaves for a configuration file that parses to
`cfg`: each setting keeps its value unless it is empty, and then takes the value of
the file. -/
def merged (g : Settings) (cfg : ConfigValues) : Settings :=
  { apiEndpoint := if g.apiEndpoint = "" then cfg.Endpoint else g.apiEndpoint
    apiToken := if g.apiToken = "" then cfg.Token else g.apiToken
    orgID := if g.orgID = "" then cfg.Org else g.orgID
    env := if g.env = "" then cfg.Env else g.env }

/-- The bytes of a string, in UTF-8. -/
def bytes (s : String) : List UInt8 := s.toUTF8.data.toList

/-- The part of a label before its first "=". -/
def labelKey (l : String) : String := String.mk (l.data.takeWhile fun c => c ≠ '=')

/-- The part of a label after its first "=". -/
def labelValue (l : String) : String := String.mk ((l.data.dropWhile fun c => c ≠ '=').drop 1)

/-- The value of the last label of a list that has the key `k`. -/
def lastValue (labels : List String) (k : String) : Option String :=
  (labels.reverse.find? fun l => labelKey l = k).map labelValue

/-- The quotient of `a` by `b`, rounded up. -/
def ceilDiv (a b : Int) : Int := (a + b - 1) / b

/-- What the deadline guard keeps true of the loop of `pollForToken` entered at `start`
with the challenge `d`: the deadline is `start` plus `expires_in` seconds, every
request logged was preceded by a wait of at least max(interval, 5) seconds, and the
interval lies between that value and that value plus 5 seconds for each request. -/
def WithinBudget (start : Int) (d : DeviceAuthResponse) (s : PollState) : Prop :=
  s.deadline = start + d.ExpiresIn * Second ∧
  start + (s.log.length : Int) * (max d.Interval 5 * Second) ≤ s.now ∧
  max d.Interval 5 * Second ≤ s.interval ∧
  s.interval ≤ (max d.Interval 5 + 5 * (s.log.length : Int)) * Second

/-- The value a mapping has for a key, as a string: the text of a scalar, and the
empty string when the key is not there or its value is `null`. -/
def fieldText (entries : List (String × YamlValue)) (key : String) : String :=
  match yamlLookup entries key with
  | some (.scalar text) => text
  | _ => ""

/-! ## Example runs -/

/-- Every request is answered with the provider error `code k`. -/
def answers (code : Nat → String) : Nat → HttpResult :=
  fun k => .response 400 (errorBody (code k) "")

/-- A successful grant with `expires_in` 3600. -/
def grant3600 : TokenResponse :=
  { AccessToken := "access-123", TokenType := "Bearer", ExpiresIn := 3600,
    RefreshToken := "refresh-456", IDToken := "", Error := "", ErrorDesc := "" }

/-- The provider never authorizes. -/
def pendingEnv : Env := scripted (answers fun _ => "authorization_pending")

/-- Polls 1 to 4 are pending, poll 5 is a grant. -/
def grantEnv : Env :=
  scripted fun k =>
    if k < 4 then .response 400 (errorBody "authorization_pending" "")
    else .response 200 (.object grant3600)

/-- The state of `grantEnv` with challenge (5, 30) after four pending polls. -/
def grantState : PollState :=
  (pollAfter grantEnv 4 (pollInit 0 (challenge 5 30))).getD (pollInit 0 (challenge 5 30))

/-- Polls 1 to 5 are pending, poll 6 is a grant. -/
def lateGrantEnv : Env :=
  scripted fun k =>
    if k < 5 then .response 400 (errorBody "authorization_pending" "")
    else .response 200 (.object grant3600)

/-- The user denies at the first poll. -/
def deniedEnv : Env := scripted (answers fun _ => "access_denied")

/-- The first request fails at transport level; the user denies at the second. -/
def flakyEnv : Env :=
  scripted fun k =>
    if k = 0 then .transportError "dial tcp: connection refused"
    else .response 400 (errorBody "access_denied" "")

/-- The context is cancelled two seconds into the first wait. -/
def cancelledEnv : Env :=
  { pendingEnv with ctx := { doneAt := some 2000000000, err := .Canceled } }

/-- Poll 2 is answered with `slow_down`, the others are pending. -/
def slowDownEnv : Env :=
  scripted (answers fun k => if k = 1 then "slow_down" else "authorization_pending")

/-- The state of `slowDownEnv` with challenge (3, 60) after three polls. -/
def slowDownState : PollState :=
  (pollAfter slowDownEnv 3 (pollInit 0 (challenge 3 60))).getD (pollInit 0 (challenge 3 60))

/-- Poll 1 is answered with `slow_down`, poll 2 with `access_denied`. -/
def overflowEnv : Env :=
  scripted (answers fun k => if k = 0 then "slow_down" else "access_denied")

/-- The token endpoint answers with an HTML error page. -/
def badGatewayEnv : Env :=
  scripted fun _ => .response 502 (.notJSON "<html>502 Bad Gateway</html>")

/-- A file system that does not fail. -/
def noFaults : SaveFaults :=
  { mkdirErr := none, marshalErr := none, writeErr := none, leftover := .absent }

/-- A credential that expires at instant 100. -/
def cred100 : StoredCredentials :=
  { AccessToken := "tok", RefreshToken := "", ExpiresAt := 100, Email := "" }

/-- A grant whose `expires_in` does not fit a `time.Duration`. -/
def grantHuge : TokenResponse :=
  { TokenResponse.zero with AccessToken := "tok", ExpiresIn := 9223372037 }

/-- A rendering of instants for the examples. -/
def stamp : Int → String := fun _ => "2025-01-15T12:00:00Z"

/-- The credentials of `TestStoredCredentialsSerialization`; the instant is
2025-01-15 12:00:00 UTC, in nanoseconds since 1970. -/
def testCreds : StoredCredentials :=
  { AccessToken := "test-access-token", RefreshToken := "test-refresh-token",
    ExpiresAt := 1736942400000000000, Email := "test@example.com" }

/-- A credential whose access token is the one byte 0xFF, which is not UTF-8. -/
def invalidToken : GoCredentials :=
  { AccessToken := [0xFF], RefreshToken := [], ExpiresAt := 0, Email := [] }

/-- A file system on which `os.WriteFile` fails. -/
def diskFull : SaveFaults :=
  { mkdirErr := none, marshalErr := none,
    writeErr := some (.path "write: no space left on device" false), leftover := .corrupt "" }

/-- The device endpoint answers every request with `r`. -/
def deviceAnswers (r : DeviceResponse) : DeviceEnv :=
  { newRequestErr := fun _ => none, doResult := fun _ _ => .response r }

/-- The challenge of `TestDeviceAuthResponseParsing`. -/
def testChallenge : DeviceAuthResponse :=
  { DeviceCode := "device-123", UserCode := "ABCD-EFGH",
    VerificationURI := "https://clerk.example.com/device",
    VerificationURIComplete := "https://clerk.example.com/device?user_code=ABCD-EFGH",
    ExpiresIn := 1800, Interval := 5 }

/-- The device endpoint issues the challenge (5, 30). -/
def challengeEnv : DeviceEnv :=
  deviceAnswers { StatusCode := 200, text := "", body := .object (challenge 5 30) }

/-- The configuration with both values given as flags. -/
def flagsConfig : LoginConfig :=
  { flagClerkDomain := "clerk.example.com", flagClientID := "client-1",
    envClerkDomain := "", envClientID := "" }

/-- The configuration with the domain from the environment and no client id. -/
def noClientConfig : LoginConfig :=
  { flagClerkDomain := "", flagClientID := "",
    envClerkDomain := "clerk.example.com", envClientID := "" }

/-- The user denies at the first poll. -/
def deniedWorld : LoginWorld :=
  { device := challengeEnv, poll := deniedEnv, pollStart := 0, faults := noFaults }

/-- Polls 1 to 4 are pending, poll 5 is a grant with `expires_in` 3600. -/
def grantWorld : LoginWorld :=
  { device := challengeEnv, poll := grantEnv, pollStart := 0, faults := noFaults }

/-- As `grantWorld`, on a file system on which `os.WriteFile` fails. -/
def diskFullWorld : LoginWorld := { grantWorld with faults := diskFull }

/-- The first poll is a grant whose `expires_in` does not fit a `time.Duration`. -/
def hugeGrantWorld : LoginWorld :=
  { device := challengeEnv, poll := scripted fun _ => .response 200 (.object grantHuge),
    pollStart := 0, faults := noFaults }

/-- A fresh home directory under the usual umask. -/
def freshModes : Modes := { umask := 0o022, dir := none, file := none }

/-- A directory and a file that exist with wider permissions. -/
def wideModes : Modes := { umask := 0o022, dir := some 0o755, file := some 0o644 }

/-- The device endpoint cannot be reached. -/
def unreachableWorld : LoginWorld :=
  { device := { newRequestErr := fun _ => none,
                doResult := fun _ _ => .transportError "dial tcp: connection refused" },
    poll := grantEnv, pollStart := 0, faults := noFaults }

/-- The device endpoint answers 403 with the body "invalid_client". -/
def forbiddenWorld : LoginWorld :=
  { device := deviceAnswers ⟨403, "invalid_client", .notJSON⟩, poll := deniedEnv,
    pollStart := 0, faults := noFaults }

/-- Settings with everything but the token. -/
def noTokenSettings : Settings :=
  { apiEndpoint := "https://api.trek.dev", apiToken := "", orgID := "test-org", env := "prod" }

/-- The settings of the case "all valid" of `TestGetClientValidation`. -/
def validSettings : Settings :=
  { apiEndpoint := "https://api.trek.dev", apiToken := "test-token", orgID := "test-org",
    env := "prod" }

/-- No setting is there. -/
def emptySettings : Settings := { apiEndpoint := "", apiToken := "", orgID := "", env := "" }

/-- The configuration file of the case "env vars take precedence" of
`TestLoadConfigFile`. -/
def stagingConfig : ConfigFile :=
  .content (.mapping [("endpoint", .scalar "https://config.trek.dev"),
    ("token", .scalar "config-token"), ("org", .scalar "config-org"),
    ("env", .scalar "staging")])

/-- The settings of that case before the file is loaded. -/
def envVarSettings : Settings :=
  { apiEndpoint := "https://env.trek.dev", apiToken := "env-token", orgID := "", env := "" }

/-- The mapping of a file with the lines `endpoint: https://x.test` and `token: [a]`. -/
def mistypedEntries : List (String × YamlValue) :=
  [("endpoint", .scalar "https://x.test"), ("token", .composite)]

/-- The flags of `session create` with no selector and the defaults. -/
def noSelectorFlags : CreateFlags :=
  { userID := "", requestID := "", tenantID := "", route := "", ttl := 900000000000,
    level := "debug", reason := "", labels := [] }

/-- A world in which every create-session request succeeds. -/
def createWorld : CreateWorld :=
  { quote := fun s => "\"" ++ s ++ "\"", seconds := fun d => d / 1000000000,
    createErr := fun _ _ => none }

/-- A system on which nothing `runEnvSwitch` asks for fails. -/
def noSwitchFaults : SwitchFaults :=
  { homeErr := none, mkdirErr := none, marshalErr := none, writeErr := none,
    leftover := .absent }

/-! ## Basic facts -/

theorem int64_of_bounds {x : Int} (h1 : -9223372036854775808 ≤ x)
    (h2 : x ≤ 9223372036854775807) : int64 x = x := by
  unfold int64
  have h : (x + 2 ^ 63) % 2 ^ 64 = x + 2 ^ 63 :=
    Int.emod_eq_of_lt (by norm_num; omega) (by norm_num; omega)
  rw [h]; ring

theorem int64_five_seconds : int64 (5 * Second) = 5000000000 := by decide

theorem pollLoop_succ (env : Env) (fuel : Nat) (s : PollState) :
    pollLoop env (fuel + 1) s =
      match pollStep env s with
      | .ret r s1 => some (r, s1)
      | .next s1 => pollLoop env fuel s1 := rfl

theorem pollLoop_mono (env : Env) :
    ∀ (fuel : Nat) (s : PollState) (r : Except GoError TokenResponse × PollState),
      pollLoop env fuel s = some r → ∀ k, pollLoop env (fuel + k) s = some r := by
  intro fuel
  induction fuel with
  | zero => intro s r h; simp [pollLoop] at h
  | succ n ih =>
    intro s r h k
    have e : n + 1 + k = (n + k) + 1 := by omega
    rw [e, pollLoop_succ]
    rw [pollLoop_succ] at h
    cases hs : pollStep env s with
    | ret r1 s1 => rw [hs] at h; simpa using h
    | next s1 => rw [hs] at h; simpa using ih s1 r h k

theorem pollLoop_after (env : Env) :
    ∀ (n : Nat) (s0 s : PollState), pollAfter env n s0 = some s →
      ∀ fuel, pollLoop env (n + fuel) s0 = pollLoop env fuel s := by
  intro n
  induction n with
  | zero => intro s0 s h fuel; simp [pollAfter] at h; simp [h]
  | succ n ih =>
    intro s0 s h fuel
    have e : n + 1 + fuel = (n + fuel) + 1 := by omega
    rw [e, pollLoop_succ]
    simp only [pollAfter] at h
    cases hs : pollStep env s0 with
    | ret r1 s1 => rw [hs] at h; simp at h
    | next s1 => rw [hs] at h; simpa using ih s1 s h fuel

/-- What an iteration does once its request has got an outcome. -/
theorem pollStep_of_polls {env : Env} {s : PollState} {t : Int} {r : HttpResult}
    (h : Polls env s t r) :
    pollStep env s =
      match r with
      | .transportError _ => .next (afterRequest env s t)
      | .response _ body =>
        if (Decode body).1.Error = "" then .ret (.ok (Decode body).1) (afterRequest env s t)
        else if (Decode body).1.Error = "authorization_pending" then
          .next (afterRequest env s t)
        else if (Decode body).1.Error = "slow_down" then
          .next { afterRequest env s t with
                  interval := int64 ((afterRequest env s t).interval + int64 (5 * Second)) }
        else .ret (.error (providerError (Decode body).1.Error (Decode body).1.ErrorDesc))
          (afterRequest env s t) := by
  obtain ⟨h1, h2, h3, h4⟩ := h
  unfold pollStep
  simp only [timeBefore, h1, decide_True, h2, h3, h4]
  cases r with
  | transportError m => simp
  | response st body =>
    simp only [providerError]
    split_ifs <;> simp_all

/-- Every way in which an iteration can return. -/
theorem pollStep_ret_cases {env : Env} {s s1 : PollState} {r : Except GoError TokenResponse}
    (h : pollStep env s = .ret r s1) :
    (s.deadline ≤ s.now ∧ r = .error (.errorf "authentication timed out") ∧ s1 = s) ∨
    (∃ t, s.now < s.deadline ∧ selectWait env s = .done t ∧
        r = .error (.context env.ctx.err) ∧ s1 = { s with now := t }) ∨
    (∃ t msg, s.now < s.deadline ∧ selectWait env s = .timer t ∧
        env.newRequestErr = some msg ∧ r = .error (.newRequest msg) ∧
        s1 = { s with now := t }) ∨
    (∃ t status body, Polls env s t (.response status body) ∧ s1 = afterRequest env s t ∧
        (((Decode body).1.Error = "" ∧ r = .ok (Decode body).1) ∨
          ((Decode body).1.Error ≠ "" ∧ (Decode body).1.Error ≠ "authorization_pending" ∧
            (Decode body).1.Error ≠ "slow_down" ∧
            r = .error (providerError (Decode body).1.Error (Decode body).1.ErrorDesc)))) := by
  by_cases hnow : s.now < s.deadline
  · cases hsel : selectWait env s with
    | done t =>
      right; left
      refine ⟨t, hnow, rfl, ?_⟩
      unfold pollStep at h
      simp only [timeBefore, hnow, decide_True, hsel] at h
      simp at h
      exact ⟨h.1.symm, h.2.symm⟩
    | timer t =>
      cases hreq : env.newRequestErr with
      | some msg =>
        right; right; left
        refine ⟨t, msg, hnow, rfl, rfl, ?_⟩
        unfold pollStep at h
        simp only [timeBefore, hnow, decide_True, hsel, hreq] at h
        simp at h
        exact ⟨h.1.symm, h.2.symm⟩
      | none =>
        right; right; right
        cases hres : env.doResult s.iter with
        | transportError m =>
          have hp : Polls env s t (.transportError m) := ⟨hnow, hsel, hreq, hres⟩
          rw [pollStep_of_polls hp] at h; simp at h
        | response status body =>
          have hp : Polls env s t (.response status body) := ⟨hnow, hsel, hreq, hres⟩
          rw [pollStep_of_polls hp] at h
          refine ⟨t, status, body, hp, ?_⟩
          simp only at h
          split_ifs at h with h1 h2 h3
          · simp at h; exact ⟨h.2.symm, Or.inl ⟨h1, h.1.symm⟩⟩
          · simp at h; exact ⟨h.2.symm, Or.inr ⟨h1, h2, h3, h.1.symm⟩⟩
  · left
    unfold pollStep at h
    simp only [timeBefore, hnow, decide_False, if_true] at h
    simp at h
    exact ⟨not_lt.mp hnow, h.1.symm, h.2.symm⟩

/-- Every way in which an iteration can go on to the next one. -/
theorem pollStep_next_cases {env : Env} {s s1 : PollState} (h : pollStep env s = .next s1) :
    ∃ t, Polls env s t (env.doResult s.iter) ∧
      (((env.doResult s.iter).errorCode = none ∨
          (env.doResult s.iter).errorCode = some "authorization_pending") ∧
          s1 = afterRequest env s t ∨
        (env.doResult s.iter).errorCode = some "slow_down" ∧
          s1 = { afterRequest env s t with
                 interval := int64 (s.interval + int64 (5 * Second)) }) := by
  by_cases hnow : s.now < s.deadline
  · cases hsel : selectWait env s with
    | done t =>
      unfold pollStep at h
      simp only [timeBefore, hnow, decide_True, hsel] at h
      simp at h
    | timer t =>
      cases hreq : env.newRequestErr with
      | some msg =>
        unfold pollStep at h
        simp only [timeBefore, hnow, decide_True, hsel, hreq] at h
        simp at h
      | none =>
        refine ⟨t, ⟨hnow, hsel, hreq, rfl⟩, ?_⟩
        cases hres : env.doResult s.iter with
        | transportError m =>
          have hp : Polls env s t (.transportError m) := ⟨hnow, hsel, hreq, hres⟩
          rw [pollStep_of_polls hp] at h; simp at h
          exact Or.inl ⟨Or.inl rfl, h.symm⟩
        | response status body =>
          have hp : Polls env s t (.response status body) := ⟨hnow, hsel, hreq, hres⟩
          rw [pollStep_of_polls hp] at h
          simp only at h
          split_ifs at h with h1 h2 h3
          · simp at h
            exact Or.inl ⟨Or.inr (by simp [HttpResult.errorCode, h2]), h.symm⟩
          · simp at h
            refine Or.inr ⟨by simp [HttpResult.errorCode, h3], ?_⟩
            rw [← h]; rfl
  · unfold pollStep at h
    simp only [timeBefore, hnow, decide_False, if_true] at h
    simp at h

theorem pollStep_timeout {env : Env} {s : PollState} (h : s.deadline ≤ s.now) :
    pollStep env s = .ret (.error (.errorf "authentication timed out")) s := by
  unfold pollStep
  simp [timeBefore, not_lt.mpr h]

theorem pollAfter_snoc (env : Env) :
    ∀ (n : Nat) (s0 s s1 : PollState), pollAfter env n s0 = some s →
      pollStep env s = .next s1 → pollAfter env (n + 1) s0 = some s1 := by
  intro n
  induction n with
  | zero =>
    intro s0 s s1 h hs
    simp [pollAfter] at h
    subst h
    simp [pollAfter, hs]
  | succ n ih =>
    intro s0 s s1 h hs
    simp only [pollAfter] at h
    cases h0 : pollStep env s0 with
    | ret r1 s2 => rw [h0] at h; simp at h
    | next s2 =>
      rw [h0] at h
      have := ih s2 s s1 h hs
      rw [pollAfter, h0]
      exact this

/-- A property kept by every iteration that goes on holds in every state the loop
reaches. -/
theorem pollAfter_invariant (env : Env) (P : PollState → Prop)
    (hnext : ∀ s s1, P s → pollStep env s = .next s1 → P s1) :
    ∀ (n : Nat) (s0 s : PollState), P s0 → pollAfter env n s0 = some s → P s := by
  intro n
  induction n with
  | zero => intro s0 s h0 h; simp [pollAfter] at h; exact h ▸ h0
  | succ n ih =>
    intro s0 s h0 h
    simp only [pollAfter] at h
    cases hs : pollStep env s0 with
    | ret r1 s2 => rw [hs] at h; simp at h
    | next s2 => rw [hs] at h; exact ih s2 s (hnext s0 s2 h0 hs) h

/-- A property kept by every iteration holds in the state the function returns in. -/
theorem pollLoop_invariant (env : Env) (P : PollState → Prop)
    (hnext : ∀ s s1, P s → pollStep env s = .next s1 → P s1)
    (hret : ∀ s r s1, P s → pollStep env s = .ret r s1 → P s1) :
    ∀ (fuel : Nat) (s0 s : PollState) (r : Except GoError TokenResponse), P s0 →
      pollLoop env fuel s0 = some (r, s) → P s := by
  intro fuel
  induction fuel with
  | zero => intro s0 s r _ h; simp [pollLoop] at h
  | succ n ih =>
    intro s0 s r h0 h
    rw [pollLoop_succ] at h
    cases hs : pollStep env s0 with
    | ret r1 s2 =>
      rw [hs] at h; simp at h
      exact h.2 ▸ hret s0 r1 s2 h0 hs
    | next s2 => rw [hs] at h; exact ih s2 s r (hnext s0 s2 h0 hs) h

/-- The step that makes the loop return, for a run that returns. -/
theorem pollLoop_last_step (env : Env) :
    ∀ (fuel : Nat) (s0 s : PollState) (r : Except GoError TokenResponse),
      pollLoop env fuel s0 = some (r, s) →
      ∃ n sl, pollAfter env n s0 = some sl ∧ pollStep env sl = .ret r s := by
  intro fuel
  induction fuel with
  | zero => intro s0 s r h; simp [pollLoop] at h
  | succ k ih =>
    intro s0 s r h
    rw [pollLoop_succ] at h
    cases hs : pollStep env s0 with
    | ret r1 s2 =>
      rw [hs] at h; simp at h
      exact ⟨0, s0, rfl, by rw [hs, h.1, h.2]⟩
    | next s2 =>
      rw [hs] at h
      obtain ⟨n, sl, h1, h2⟩ := ih s2 s r h
      exact ⟨n + 1, sl, by simp [pollAfter, hs, h1], h2⟩

/-- With a request that cannot be built, no token request is ever sent. -/
theorem pollAfter_newRequestErr (env : Env) (msg : String) (h : env.newRequestErr = some msg) :
    ∀ (n : Nat) (s0 s : PollState), pollAfter env n s0 = some s → n = 0 := by
  intro n s0 s hs
  cases n with
  | zero => rfl
  | succ n =>
    simp only [pollAfter] at hs
    cases h0 : pollStep env s0 with
    | ret r1 s2 => rw [h0] at hs; simp at hs
    | next s2 =>
      obtain ⟨t, hp, _⟩ := pollStep_next_cases h0
      rw [hp.2.2.1] at h
      simp at h

/-- A grant that the loop returns is the decoded body of some response, with an
empty `error` member. -/
theorem pollLoop_ok_inv (env : Env) (fuel : Nat) (s0 s : PollState) (g : TokenResponse)
    (h : pollLoop env fuel s0 = some (.ok g, s)) :
    ∃ k status body, env.doResult k = .response status body ∧ (Decode body).1 = g ∧
      g.Error = "" := by
  obtain ⟨n, sl, _, hstep⟩ := pollLoop_last_step env fuel s0 s (.ok g) h
  rcases pollStep_ret_cases hstep with h1 | ⟨t, _, _, h1, _⟩ | ⟨t, m, _, _, _, h1, _⟩ |
    ⟨t, status, body, hp, _, h1 | h1⟩
  · simp at h1
  · simp at h1
  · simp at h1
  · obtain ⟨he, hr⟩ := h1
    have hg : g = (Decode body).1 := by simpa using hr
    exact ⟨sl.iter, status, body, hp.2.2.2, hg.symm, hg ▸ he⟩
  · simp at h1

/-- How a run of the loop can end. -/
theorem pollLoop_result_cases (env : Env) (fuel : Nat) (s0 s : PollState)
    (r : Except GoError TokenResponse) (h : pollLoop env fuel s0 = some (r, s)) :
    (∃ g, g.Error = "" ∧ r = .ok g) ∨
    (∃ code desc, code ≠ "" ∧ code ≠ "authorization_pending" ∧ code ≠ "slow_down" ∧
        r = .error (providerError code desc)) ∨
    r = .error (.context env.ctx.err) ∨
    r = .error (.errorf "authentication timed out") ∨
    (∃ msg, env.newRequestErr = some msg ∧ r = .error (.newRequest msg)) := by
  obtain ⟨n, sl, _, hstep⟩ := pollLoop_last_step env fuel s0 s r h
  rcases pollStep_ret_cases hstep with h1 | ⟨t, _, _, h1, _⟩ | ⟨t, m, _, _, hm, h1, _⟩ |
    ⟨t, status, body, hp, _, h1 | h1⟩
  · exact Or.inr (Or.inr (Or.inr (Or.inl h1.2.1)))
  · exact Or.inr (Or.inr (Or.inl h1))
  · exact Or.inr (Or.inr (Or.inr (Or.inr ⟨m, hm, h1⟩)))
  · exact Or.inl ⟨_, h1.1, h1.2⟩
  · exact Or.inr (Or.inl ⟨_, _, h1.1, h1.2.1, h1.2.2.1, h1.2.2.2⟩)

theorem providerError_ne_url (code desc msg : String) : providerError code desc ≠ .url msg := by
  unfold providerError
  split_ifs <;> simp

/-- While every response is `authorization_pending` and nothing cancels the wait,
the loop returns the timeout once the deadline has passed. -/
theorem pending_terminates (env : Env) (hctx : env.ctx.doneAt = none)
    (hreq : env.newRequestErr = none)
    (hpending : ∀ k, (env.doResult k).errorCode = some "authorization_pending") :
    ∀ (m : Nat) (s : PollState), 0 < s.interval → s.deadline - s.now ≤ m →
      ∃ fuel s1, pollLoop env fuel s = some (.error (.errorf "authentication timed out"), s1) ∧
        s1.deadline = s.deadline ∧ s1.deadline ≤ s1.now := by
  intro m
  induction m with
  | zero =>
    intro s _ hm
    have hd : s.deadline ≤ s.now := by simpa using hm
    exact ⟨1, s, by rw [pollLoop_succ, pollStep_timeout hd], rfl, hd⟩
  | succ m ih =>
    intro s hint hm
    by_cases hnow : s.now < s.deadline
    · have hsel : selectWait env s = .timer (timerAt env s) := by simp [selectWait, hctx]
      have hp : Polls env s (timerAt env s) (env.doResult s.iter) := ⟨hnow, hsel, hreq, rfl⟩
      have hk := hpending s.iter
      have hstep : pollStep env s = .next (afterRequest env s (timerAt env s)) := by
        cases hres : env.doResult s.iter with
        | transportError e => rw [hres] at hk; simp [HttpResult.errorCode] at hk
        | response status body =>
          rw [hres] at hk hp
          have he : (Decode body).1.Error = "authorization_pending" := by
            simpa [HttpResult.errorCode] using hk
          rw [pollStep_of_polls hp]
          simp [he]
      have hlag : (0 : Int) ≤ (env.timerLag s.iter : Int) := Int.ofNat_nonneg _
      have hdo : (0 : Int) ≤ (env.doTime s.iter : Int) := Int.ofNat_nonneg _
      have hmax : s.interval ≤ max s.interval 0 := le_max_left _ _
      have hadv : (afterRequest env s (timerAt env s)).deadline -
          (afterRequest env s (timerAt env s)).now ≤ m := by
        simp only [afterRequest, timerAt]
        push_cast at hm ⊢
        omega
      obtain ⟨fuel, s1, h1, h2, h3⟩ := ih (afterRequest env s (timerAt env s)) hint hadv
      exact ⟨fuel + 1, s1, by rw [pollLoop_succ, hstep]; exact h1, h2, h3⟩
    · have hd : s.deadline ≤ s.now := not_lt.mp hnow
      exact ⟨1, s, by rw [pollLoop_succ, pollStep_timeout hd], rfl, hd⟩

theorem pollInit_interval_pos (now : Int) (deviceAuth : DeviceAuthResponse) :
    5000000000 ≤ (pollInit now deviceAuth).interval := by
  simp only [pollInit, int64_five_seconds]
  split_ifs with h <;> omega

theorem int64_ge (x : Int) : -9223372036854775808 ≤ int64 x := by
  unfold int64
  have h : 0 ≤ (x + 2 ^ 63) % 2 ^ 64 := Int.emod_nonneg _ (by norm_num)
  norm_num at h ⊢
  omega

theorem int64_le (x : Int) : int64 x ≤ 9223372036854775807 := by
  unfold int64
  have h : (x + 2 ^ 63) % 2 ^ 64 < 2 ^ 64 := Int.emod_lt_of_pos _ (by norm_num)
  norm_num at h ⊢
  omega

/-- A property that holds on entry to the loop and is kept by every iteration holds
in every state of the run. -/
theorem inRun_invariant (env : Env) (now : Int) (deviceAuth : DeviceAuthResponse)
    (P : PollState → Prop) (h0 : P (pollInit now deviceAuth))
    (hnext : ∀ s s1, P s → pollStep env s = .next s1 → P s1)
    (hret : ∀ s r s1, P s → pollStep env s = .ret r s1 → P s1)
    (s : PollState) (h : InRun env now deviceAuth s) : P s := by
  rcases h with ⟨n, h⟩ | ⟨fuel, r, h⟩
  · exact pollAfter_invariant env P hnext n _ s h0 h
  · exact pollLoop_invariant env P hnext hret fuel _ s r h0 h

/-- The timer case of the `select` is not taken after the context is done. -/
theorem selectWait_timer_le {env : Env} {s : PollState} {t c : Int}
    (hsel : selectWait env s = .timer t) (hdone : env.ctx.doneAt = some c) : t ≤ c := by
  unfold selectWait at hsel
  simp only [hdone] at hsel
  split_ifs at hsel with h1 h2
  · have : t = timerAt env s := by simpa using hsel.symm
    omega

/-- No logged request was sent after the instant at which the context is done. -/
theorem log_sent_before_done (env : Env) (now : Int) (deviceAuth : DeviceAuthResponse)
    (c : Int) (hdone : env.ctx.doneAt = some c) (s : PollState)
    (h : InRun env now deviceAuth s) : ∀ p ∈ s.log, p.sentAt ≤ c := by
  refine inRun_invariant env now deviceAuth (fun s => ∀ p ∈ s.log, p.sentAt ≤ c) ?_ ?_ ?_ s h
  · intro p hp; simp [pollInit] at hp
  · intro s s1 hs hstep p hp
    obtain ⟨t, hpoll, h1 | h1⟩ := pollStep_next_cases hstep
    · rw [h1.2] at hp
      simp only [afterRequest, List.mem_append, List.mem_singleton] at hp
      rcases hp with hp | hp
      · exact hs p hp
      · rw [hp]; exact selectWait_timer_le hpoll.2.1 hdone
    · rw [h1.2] at hp
      simp only [afterRequest, List.mem_append, List.mem_singleton] at hp
      rcases hp with hp | hp
      · exact hs p hp
      · rw [hp]; exact selectWait_timer_le hpoll.2.1 hdone
  · intro s r s1 hs hstep p hp
    rcases pollStep_ret_cases hstep with h1 | ⟨t, _, _, _, h1⟩ | ⟨t, m, _, _, _, _, h1⟩ |
      ⟨t, status, body, hpoll, h1, _⟩
    · rw [h1.2.2] at hp; exact hs p hp
    · rw [h1] at hp; exact hs p hp
    · rw [h1] at hp; exact hs p hp
    · rw [h1] at hp
      simp only [afterRequest, List.mem_append, List.mem_singleton] at hp
      rcases hp with hp | hp
      · exact hs p hp
      · rw [hp]; exact selectWait_timer_le hpoll.2.1 hdone

theorem nextWait_ge (p : Poll) (h : -9223372036854775808 ≤ p.wait) :
    -9223372036854775808 ≤ nextWait p := by
  unfold nextWait
  split_ifs
  · exact int64_ge _
  · exact h

theorem waitsFollow_append {s s1 : PollState} {e : Poll} (h : WaitsFollow s)
    (he : e.wait = s.interval) (hlog : s1.log = s.log ++ [e])
    (hint : s1.interval = nextWait e) : WaitsFollow s1 := by
  obtain ⟨hchain, hlast, hrange, hwaits⟩ := h
  have hewait : -9223372036854775808 ≤ e.wait := by rw [he]; exact hrange
  refine ⟨?_, ?_, ?_, ?_⟩
  · intro k p q hp hq
    rw [hlog] at hp hq
    by_cases hk : k + 1 < s.log.length
    · rw [List.getElem?_append_left (by omega)] at hp
      rw [List.getElem?_append_left hk] at hq
      exact hchain k p q hp hq
    · by_cases hk2 : k + 1 = s.log.length
      · rw [List.getElem?_append_left (by omega)] at hp
        rw [List.getElem?_append_right (by omega)] at hq
        have hq0 : q = e := by
          have : k + 1 - s.log.length = 0 := by omega
          rw [this] at hq
          simpa using hq.symm
        have hpl : s.log.getLast? = some p := by
          rw [List.getLast?_eq_getElem?]
          have : s.log.length - 1 = k := by omega
          rw [this]; exact hp
        rw [hq0, he]
        exact hlast p hpl
      · rw [List.getElem?_append_right (by omega)] at hq
        have hnone : [e][k + 1 - s.log.length]? = none :=
          List.getElem?_eq_none (by simp; omega)
        rw [hnone] at hq
        simp at hq
  · intro p hp
    rw [hlog, List.getLast?_concat] at hp
    have : p = e := by simpa using hp.symm
    rw [this]; exact hint
  · rw [hint]; exact nextWait_ge e hewait
  · intro p hp
    rw [hlog] at hp
    simp only [List.mem_append, List.mem_singleton] at hp
    rcases hp with hp | hp
    · exact hwaits p hp
    · rw [hp]; exact hewait

theorem waitsFollow_of_eq {s s1 : PollState} (h : WaitsFollow s) (hlog : s1.log = s.log)
    (hint : s1.interval = s.interval) : WaitsFollow s1 := by
  unfold WaitsFollow at h ⊢
  rw [hlog, hint]; exact h

/-- The waits of every state of a run follow the poller's rule. -/
theorem inRun_waitsFollow (env : Env) (now : Int) (deviceAuth : DeviceAuthResponse)
    (s : PollState) (h : InRun env now deviceAuth s) : WaitsFollow s := by
  refine inRun_invariant env now deviceAuth WaitsFollow ?_ ?_ ?_ s h
  · refine ⟨?_, ?_, ?_, ?_⟩
    · intro k p q hp; simp [pollInit] at hp
    · intro p hp; simp [pollInit] at hp
    · have := pollInit_interval_pos now deviceAuth
      omega
    · intro p hp; simp [pollInit] at hp
  · intro s s1 hs hstep
    obtain ⟨t, hpoll, h1 | h1⟩ := pollStep_next_cases hstep
    · refine waitsFollow_append (e := ⟨s.interval, t, env.doResult s.iter⟩) hs rfl
        (by rw [h1.2]; rfl) ?_
      rw [h1.2]
      have hne : (env.doResult s.iter).errorCode ≠ some "slow_down" := by
        rcases h1.1 with h2 | h2 <;> rw [h2] <;> simp
      simp [nextWait, afterRequest, hne]
    · refine waitsFollow_append (e := ⟨s.interval, t, env.doResult s.iter⟩) hs rfl
        (by rw [h1.2]; rfl) ?_
      rw [h1.2]
      simp [nextWait, h1.1]
  · intro s r s1 hs hstep
    rcases pollStep_ret_cases hstep with h1 | ⟨t, _, _, _, h1⟩ | ⟨t, m, _, _, _, _, h1⟩ |
      ⟨t, status, body, hpoll, h1, h2⟩
    · rw [h1.2.2]; exact hs
    · exact waitsFollow_of_eq hs (by rw [h1]) (by rw [h1])
    · exact waitsFollow_of_eq hs (by rw [h1]) (by rw [h1])
    · refine waitsFollow_append (e := ⟨s.interval, t, .response status body⟩) hs rfl
        (by rw [h1]; simp [afterRequest, hpoll.2.2.2]) ?_
      rw [h1]
      have hne : (Decode body).1.Error ≠ "slow_down" := by
        rcases h2 with h2 | h2
        · rw [h2.1]; simp
        · exact h2.2.2.1
      simp [nextWait, afterRequest, HttpResult.errorCode, hne]

/-- Without overflow, `nextWait` adds five seconds after a `slow_down` and nothing
otherwise. -/
theorem nextWait_of_no_overflow (p : Poll) (hlo : -9223372036854775808 ≤ p.wait)
    (hhi : p.outcome.errorCode = some "slow_down" → p.wait + 5 * Second ≤ maxInt64) :
    nextWait p =
      if p.outcome.errorCode = some "slow_down" then p.wait + 5 * Second else p.wait := by
  unfold nextWait
  split_ifs with h
  · have h5 : int64 (5 * Second) = 5 * Second := by decide
    have hb := hhi h
    rw [h5]
    have hs : (5 : Int) * Second = 5000000000 := by decide
    rw [hs] at hb ⊢
    have hm : maxInt64 = 9223372036854775807 := by decide
    rw [hm] at hb
    exact int64_of_bounds (by omega) hb
  · rfl

/-- Without overflow, the waits in a log never decrease. -/
theorem waits_monotone (log : List Poll)
    (hchain : ∀ k p q, log[k]? = some p → log[k + 1]? = some q → q.wait = nextWait p)
    (hlo : ∀ p ∈ log, -9223372036854775808 ≤ p.wait)
    (hhi : ∀ p ∈ log, p.outcome.errorCode = some "slow_down" → p.wait + 5 * Second ≤ maxInt64) :
    ∀ (d k : Nat) (p q : Poll), log[k]? = some p → log[k + d]? = some q → p.wait ≤ q.wait := by
  intro d
  induction d with
  | zero =>
    intro k p q hp hq
    rw [Nat.add_zero, hp] at hq
    have : p = q := by simpa using hq
    rw [this]
  | succ d ih =>
    intro k p q hp hq
    have hlen : k + (d + 1) < log.length := by
      obtain ⟨h, _⟩ := List.getElem?_eq_some.mp hq
      exact h
    have hlt : k + d < log.length := by omega
    obtain ⟨m, hm⟩ : ∃ m, log[k + d]? = some m := ⟨log[k + d], List.getElem?_eq_getElem hlt⟩
    have h1 := ih k p m hp hm
    have h2 := hchain (k + d) m q hm hq
    have hmem : m ∈ log := List.getElem?_mem hm
    rw [nextWait_of_no_overflow m (hlo m hmem) (hhi m hmem)] at h2
    have hs : (5 : Int) * Second = 5000000000 := by decide
    rw [hs] at h2
    split_ifs at h2 <;> omega

theorem slowDowns_append (log : List Poll) (e : Poll) :
    slowDowns (log ++ [e]) =
      slowDowns log + if e.outcome.errorCode = some "slow_down" then 1 else 0 := by
  unfold slowDowns
  rw [List.filter_append, List.length_append]
  congr 1
  by_cases h : e.outcome.errorCode = some "slow_down" <;> simp [List.filter, h]

theorem secondsDuration_of_bounds {n : Int} (hlo : -9223372036 ≤ n) (hhi : n ≤ 9223372036) :
    secondsDuration n = n * Second := by
  unfold secondsDuration
  have hs : Second = 1000000000 := rfl
  have h1 : int64 n = n := int64_of_bounds (by omega) (by omega)
  rw [h1, hs]
  exact int64_of_bounds (by omega) (by omega)

theorem pollInit_interval_of_bounds (now : Int) (deviceAuth : DeviceAuthResponse)
    (hlo : -9223372036 ≤ deviceAuth.Interval) (hhi : deviceAuth.Interval ≤ 9223372036) :
    (pollInit now deviceAuth).interval = max deviceAuth.Interval 5 * Second := by
  simp only [pollInit, int64_five_seconds, secondsDuration_of_bounds hlo hhi]
  have hs : Second = 1000000000 := rfl
  rw [hs]
  split_ifs with h
  · rw [max_eq_right (by omega)]; norm_num
  · rw [max_eq_left (by omega)]

/-- The interval of every state of a run, as long as no duration overflows. -/
theorem inRun_interval (env : Env) (now : Int) (deviceAuth : DeviceAuthResponse)
    (hlo : -9223372036 ≤ deviceAuth.Interval) (s : PollState)
    (h : InRun env now deviceAuth s)
    (hfit : max deviceAuth.Interval 5 + 5 * (slowDowns s.log : Int) ≤ 9223372036) :
    s.interval = (max deviceAuth.Interval 5 + 5 * (slowDowns s.log : Int)) * Second := by
  have hs : Second = 1000000000 := rfl
  have hmax : deviceAuth.Interval ≤ max deviceAuth.Interval 5 := le_max_left _ _
  have hmax5 : (5 : Int) ≤ max deviceAuth.Interval 5 := le_max_right _ _
  refine inRun_invariant env now deviceAuth
    (fun s => max deviceAuth.Interval 5 + 5 * (slowDowns s.log : Int) ≤ 9223372036 →
      s.interval = (max deviceAuth.Interval 5 + 5 * (slowDowns s.log : Int)) * Second)
    ?_ ?_ ?_ s h hfit
  · intro hb
    have h0 : slowDowns (pollInit now deviceAuth).log = 0 := rfl
    rw [h0] at hb ⊢
    rw [pollInit_interval_of_bounds now deviceAuth hlo (by simp at hb; omega)]
    simp
  · intro s s1 hs0 hstep hb
    obtain ⟨t, hpoll, h1 | h1⟩ := pollStep_next_cases hstep
    · have hne : (env.doResult s.iter).errorCode ≠ some "slow_down" := by
        rcases h1.1 with h2 | h2 <;> rw [h2] <;> simp
      have hsd : slowDowns s1.log = slowDowns s.log := by
        rw [h1.2]; simp [afterRequest, slowDowns_append, hne]
      rw [hsd] at hb ⊢
      rw [h1.2]; exact hs0 hb
    · have hsd : slowDowns s1.log = slowDowns s.log + 1 := by
        rw [h1.2]; simp [afterRequest, slowDowns_append, h1.1]
      rw [hsd] at hb ⊢
      push_cast at hb ⊢
      have hprev := hs0 (by omega)
      rw [h1.2]
      simp only
      rw [hprev, int64_five_seconds, hs]
      rw [int64_of_bounds (by omega) (by omega)]
      ring
  · intro s r s1 hs0 hstep hb
    rcases pollStep_ret_cases hstep with h1 | ⟨t, _, _, _, h1⟩ | ⟨t, m, _, _, _, _, h1⟩ |
      ⟨t, status, body, hpoll, h1, h2⟩
    · rw [h1.2.2] at hb ⊢; exact hs0 hb
    · rw [h1] at hb ⊢; exact hs0 hb
    · rw [h1] at hb ⊢; exact hs0 hb
    · have hne : (Decode body).1.Error ≠ "slow_down" := by
        rcases h2 with h2 | h2
        · rw [h2.1]; simp
        · exact h2.2.2.1
      have hsd : slowDowns s1.log = slowDowns s.log := by
        rw [h1]
        simp [afterRequest, slowDowns_append, hpoll.2.2.2, HttpResult.errorCode, hne]
      rw [hsd] at hb ⊢
      rw [h1]; exact hs0 hb

theorem slowDowns_mono {l1 l2 : List Poll} (h : l1 <+: l2) : slowDowns l1 ≤ slowDowns l2 := by
  obtain ⟨t, rfl⟩ := h
  unfold slowDowns
  rw [List.filter_append, List.length_append]
  omega

theorem saveCredentials_ok {faults : SaveFaults} {file file1 : CredentialsFile}
    {creds : StoredCredentials} (h : saveCredentials faults file creds = (none, file1)) :
    file1 = .holds creds := by
  unfold saveCredentials at h
  split at h
  · simp at h
  · split at h
    · simp at h
    · split at h
      · simp at h
      · simpa using h.symm

theorem GetAccessToken_holds (c : StoredCredentials) (now : Int) :
    GetAccessToken (.holds c) now = if c.ExpiresAt < now then "" else c.AccessToken := by
  simp [GetAccessToken, loadCredentials, timeAfter]

theorem runWhoami_of_error (rfc3339 : Int → String) (file : CredentialsFile) (now : Int)
    (e : GoError) (h : loadCredentials file = .error e) :
    runWhoami rfc3339 file now = (notAuthenticated, none) := by
  simp [runWhoami, h, notAuthenticated]

theorem runWhoami_of_ok (rfc3339 : Int → String) (file : CredentialsFile) (now : Int)
    (c : StoredCredentials) (h : loadCredentials file = .ok c) :
    runWhoami rfc3339 file now =
      if c.ExpiresAt < now then (sessionExpired, none) else (authenticated rfc3339 c, none) := by
  simp [runWhoami, h, timeAfter, sessionExpired, authenticated]

theorem GetAccessToken_of_error (file : CredentialsFile) (now : Int) (e : GoError)
    (h : loadCredentials file = .error e) : GetAccessToken file now = "" := by
  simp [GetAccessToken, h]

theorem runLogout_absent (refusal : Option String) :
    runLogout refusal .absent =
      { stdout := "‚úÖ Logged out successfully\n", err := none, file := .absent } := by
  simp [runLogout, Remove, IsNotExist]

theorem runLogout_removed (file : CredentialsFile) (h : file ≠ .absent) :
    runLogout none file =
      { stdout := "‚úÖ Logged out successfully\n", err := none, file := .absent } := by
  cases file <;> simp_all [runLogout, Remove]

theorem runLogout_refused (reason : String) (file : CredentialsFile) (h : file ≠ .absent) :
    runLogout (some reason) file =
      { stdout := "",
        err := some (.wrap "failed to remove credentials" (.path ("remove: " ++ reason) false)),
        file := file } := by
  cases file <;> simp_all [runLogout, Remove, IsNotExist]

/-- Reading back what `json.MarshalIndent` wrote yields the credentials, when the
time package reads back the expiry it wrote. -/
theorem unmarshal_marshalIndent (tc : TimeCodec) (c : StoredCredentials)
    (h : tc.parse (tc.format c.ExpiresAt) = some c.ExpiresAt) :
    Unmarshal tc (MarshalIndent tc c) = .ok c := by
  obtain ⟨a, r, t, e⟩ := c
  simp only at h
  by_cases hr : r = "" <;> by_cases he : e = "" <;>
    simp [MarshalIndent, marshalMembers, Unmarshal, storeMember, StoredCredentials.zero,
      hr, he, h]

theorem lessUmask_and (p q u : Nat) (h : p &&& q = 0) : lessUmask p u &&& q = 0 := by
  unfold lessUmask
  rw [Nat.and_xor_distrib_right, h, Nat.and_assoc, Nat.and_comm u q, ← Nat.and_assoc, h]
  simp

theorem lessUmask_of_disjoint (p u : Nat) (h : p &&& u = 0) : lessUmask p u = p := by
  unfold lessUmask
  rw [h]; simp

theorem saveCredentialsModes_ok {faults : SaveFaults} {m m1 : Modes}
    (h : saveCredentialsModes faults m = (none, m1)) :
    m1 = WriteFile 0o600 (MkdirAll 0o700 m) := by
  unfold saveCredentialsModes at h
  split at h
  · simp at h
  · split at h
    · simp at h
    · split at h
      · simp at h
      · simpa using h.symm

theorem runLogin_config_error (w : LoginWorld) (cfg : LoginConfig) (file : CredentialsFile)
    (fuel : Nat) (h : cfg.clerkDomain = "" ∨ cfg.clientID = "") :
    runLogin w cfg file fuel =
      some { err := some configError, file := file, deviceRequests := 0, polls := [] } := by
  have e : runLogin w cfg file fuel =
      if cfg.clerkDomain = "" ∨ cfg.clientID = "" then
        some { err := some configError, file := file, deviceRequests := 0, polls := [] }
      else runLogin w cfg file fuel := by
    unfold runLogin LoginConfig.clerkDomain LoginConfig.clientID
    simp only []
    split_ifs <;> rfl
  rw [e, if_pos h]

/-- What `runLogin` does once both configuration values are there. -/
theorem runLogin_of_config (w : LoginWorld) (cfg : LoginConfig) (file : CredentialsFile)
    (fuel : Nat) (hd : cfg.clerkDomain ≠ "") (hc : cfg.clientID ≠ "") :
    runLogin w cfg file fuel =
      match requestDeviceAuthorization w.device cfg.clerkDomain cfg.clientID with
      | .error err =>
        some { err := some (.wrap "device authorization failed" err), file := file,
               deviceRequests := deviceRequestsSent w.device cfg.clerkDomain, polls := [] }
      | .ok deviceAuth =>
        match pollForToken w.pollEnv w.pollStart deviceAuth fuel with
        | none => none
        | some (.error err, s) =>
          some { err := some (.wrap "authentication failed" err), file := file,
                 deviceRequests := deviceRequestsSent w.device cfg.clerkDomain,
                 polls := s.log }
        | some (.ok token, s) =>
          match saveCredentials w.faults file (newCredentials s.now token) with
          | (some err, file1) =>
            some { err := some (.wrap "failed to save credentials" err), file := file1,
                   deviceRequests := deviceRequestsSent w.device cfg.clerkDomain,
                   polls := s.log }
          | (none, file1) =>
            some { err := none, file := file1,
                   deviceRequests := deviceRequestsSent w.device cfg.clerkDomain,
                   polls := s.log } := by
  have hn : ¬ (cfg.clerkDomain = "" ∨ cfg.clientID = "") := by
    intro h; rcases h with h | h
    · exact hd h
    · exact hc h
  unfold LoginConfig.clerkDomain LoginConfig.clientID at hn ⊢
  unfold runLogin
  simp only []
  rw [if_neg hn]

/-- Every way in which `runLogin` can end. -/
theorem runLogin_cases {w : LoginWorld} {cfg : LoginConfig} {file : CredentialsFile}
    {fuel : Nat} {r : LoginResult} (hrun : runLogin w cfg file fuel = some r) :
    ((cfg.clerkDomain = "" ∨ cfg.clientID = "") ∧
      r.err = some configError ∧ r.file = file ∧ r.deviceRequests = 0 ∧ r.polls = []) ∨
    (∃ err, requestDeviceAuthorization w.device cfg.clerkDomain cfg.clientID = .error err ∧
      r.err = some (.wrap "device authorization failed" err) ∧ r.file = file ∧
      r.deviceRequests = deviceRequestsSent w.device cfg.clerkDomain ∧ r.polls = []) ∨
    (∃ deviceAuth err s,
      requestDeviceAuthorization w.device cfg.clerkDomain cfg.clientID = .ok deviceAuth ∧
      pollForToken w.pollEnv w.pollStart deviceAuth fuel = some (.error err, s) ∧
      r.err = some (.wrap "authentication failed" err) ∧ r.file = file ∧ r.polls = s.log) ∨
    (∃ deviceAuth token s err,
      requestDeviceAuthorization w.device cfg.clerkDomain cfg.clientID = .ok deviceAuth ∧
      pollForToken w.pollEnv w.pollStart deviceAuth fuel = some (.ok token, s) ∧
      (saveCredentials w.faults file (newCredentials s.now token)).1 = some err ∧
      r.err = some (.wrap "failed to save credentials" err) ∧
      r.file = (saveCredentials w.faults file (newCredentials s.now token)).2 ∧
      r.polls = s.log) ∨
    (∃ deviceAuth token s,
      requestDeviceAuthorization w.device cfg.clerkDomain cfg.clientID = .ok deviceAuth ∧
      pollForToken w.pollEnv w.pollStart deviceAuth fuel = some (.ok token, s) ∧
      (saveCredentials w.faults file (newCredentials s.now token)).1 = none ∧
      r.err = none ∧
      r.file = (saveCredentials w.faults file (newCredentials s.now token)).2 ∧
      r.polls = s.log) := by
  by_cases hcfg : cfg.clerkDomain = "" ∨ cfg.clientID = ""
  · rw [runLogin_config_error w cfg file fuel hcfg] at hrun
    have hr : r = { err := some configError, file := file, deviceRequests := 0, polls := [] } := by
      simpa using hrun.symm
    left; rw [hr]; exact ⟨hcfg, rfl, rfl, rfl, rfl⟩
  · have hd : cfg.clerkDomain ≠ "" := fun h => hcfg (Or.inl h)
    have hc : cfg.clientID ≠ "" := fun h => hcfg (Or.inr h)
    rw [runLogin_of_config w cfg file fuel hd hc] at hrun
    right
    cases hdev : requestDeviceAuthorization w.device cfg.clerkDomain cfg.clientID with
    | error err =>
      rw [hdev] at hrun
      have hr := (Option.some.inj hrun).symm
      left; rw [hr]; exact ⟨err, rfl, rfl, rfl, rfl, rfl⟩
    | ok deviceAuth =>
      rw [hdev] at hrun
      dsimp only at hrun
      right
      cases hpoll : pollForToken w.pollEnv w.pollStart deviceAuth fuel with
      | none => rw [hpoll] at hrun; simp at hrun
      | some res =>
        obtain ⟨res1, s⟩ := res
        rw [hpoll] at hrun
        cases res1 with
        | error err =>
          have hr := (Option.some.inj hrun).symm
          left; rw [hr]; exact ⟨deviceAuth, err, s, rfl, hpoll, rfl, rfl, rfl⟩
        | ok token =>
          right
          simp only at hrun
          cases hsave : saveCredentials w.faults file (newCredentials s.now token) with
          | mk e file1 =>
            rw [hsave] at hrun
            cases e with
            | some err =>
              have hr := (Option.some.inj hrun).symm
              left; rw [hr]
              exact ⟨deviceAuth, token, s, err, rfl, hpoll, by rw [hsave], rfl, by rw [hsave],
                rfl⟩
            | none =>
              have hr := (Option.some.inj hrun).symm
              right; rw [hr]
              exact ⟨deviceAuth, token, s, rfl, hpoll, by rw [hsave], rfl, by rw [hsave], rfl⟩

theorem runLogin_congr (w : LoginWorld) (cfg cfg1 : LoginConfig) (file : CredentialsFile)
    (fuel : Nat) (hd : cfg.clerkDomain = cfg1.clerkDomain) (hc : cfg.clientID = cfg1.clientID) :
    runLogin w cfg file fuel = runLogin w cfg1 file fuel := by
  unfold LoginConfig.clerkDomain at hd
  unfold LoginConfig.clientID at hc
  unfold runLogin
  simp only []
  rw [hd, hc]

theorem deviceRequestsSent_of_ok {env : DeviceEnv} {clerkDomain clientID : String}
    {d : DeviceAuthResponse}
    (h : requestDeviceAuthorization env clerkDomain clientID = .ok d) :
    deviceRequestsSent env clerkDomain = 1 := by
  unfold requestDeviceAuthorization at h
  unfold deviceRequestsSent
  cases hreq : env.newRequestErr (deviceEndpoint clerkDomain) with
  | some msg => simp [hreq] at h
  | none => rfl

theorem getClient_ok_iff (g : Settings) :
    (∃ c, getClient g = .ok c) ↔
      g.apiEndpoint ≠ "" ∧ g.apiToken ≠ "" ∧ g.orgID ≠ "" ∧ g.env ≠ "" := by
  unfold getClient
  constructor
  · intro ⟨c, h⟩
    split_ifs at h with h1 h2 h3 h4
    exact ⟨h1, h2, h3, h4⟩
  · intro ⟨h1, h2, h3, h4⟩
    simp [h1, h2, h3, h4]

theorem loadConfigFile_of_parsed (path : String) (doc : YamlDoc) (cfg : ConfigValues)
    (g : Settings) (h : unmarshalConfig doc = .ok cfg) :
    loadConfigFile path (.content doc) g = (merged g cfg, "") := by
  obtain ⟨e, t, o, v⟩ := g
  obtain ⟨ce, ct, co, cv⟩ := cfg
  simp only [loadConfigFile, readConfig, h, merged]
  by_cases h1 : e = "" <;> by_cases h2 : t = "" <;> by_cases h3 : o = "" <;>
    by_cases h4 : v = "" <;> by_cases h5 : ce = "" <;> by_cases h6 : ct = "" <;>
    by_cases h7 : co = "" <;> by_cases h8 : cv = "" <;>
    simp [h1, h2, h3, h4, h5, h6, h7, h8]

theorem merged_merged (g : Settings) (cfg : ConfigValues) :
    merged (merged g cfg) cfg = merged g cfg := by
  obtain ⟨e, t, o, v⟩ := g
  obtain ⟨ce, ct, co, cv⟩ := cfg
  simp only [merged]
  by_cases h1 : e = "" <;> by_cases h2 : t = "" <;> by_cases h3 : o = "" <;>
    by_cases h4 : v = "" <;> simp [h1, h2, h3, h4]

theorem loadConfigFile_of_unread (path : String) (file : ConfigFile) (g : Settings)
    (err : GoError) (h : readConfig file = .error err) :
    (loadConfigFile path file g).1 = g := by
  simp only [loadConfigFile, h]
  split_ifs <;> rfl

theorem loadConfigFile_of_unparsed (path : String) (doc : YamlDoc) (g : Settings)
    (err : GoError) (h : unmarshalConfig doc = .error err) :
    (loadConfigFile path (.content doc) g).1 = g := by
  simp only [loadConfigFile, readConfig, h]

theorem unmarshalConfig_mapping {entries : List (String × YamlValue)} {cfg : ConfigValues}
    (h : unmarshalConfig (.mapping entries) = .ok cfg) :
    yamlField entries "endpoint" = .ok cfg.Endpoint ∧ yamlField entries "token" = .ok cfg.Token ∧
    yamlField entries "org" = .ok cfg.Org ∧ yamlField entries "env" = .ok cfg.Env := by
  unfold unmarshalConfig at h
  cases h1 : yamlField entries "endpoint" <;> cases h2 : yamlField entries "token" <;>
    cases h3 : yamlField entries "org" <;> cases h4 : yamlField entries "env" <;>
    simp [h1, h2, h3, h4] at h
  subst h
  exact ⟨rfl, rfl, rfl, rfl⟩

theorem loadConfigFile_idem (path : String) (file : ConfigFile) (g : Settings) :
    (loadConfigFile path file (loadConfigFile path file g).1).1 = (loadConfigFile path file g).1 := by
  cases file with
  | absent => rfl
  | unreadable => rfl
  | content doc =>
    cases h : unmarshalConfig doc with
    | error err =>
      rw [loadConfigFile_of_unparsed path doc g err h, loadConfigFile_of_unparsed path doc g err h]
    | ok cfg =>
      rw [loadConfigFile_of_parsed path doc cfg g h]
      simp only
      rw [loadConfigFile_of_parsed path doc cfg _ h]
      simp only [merged_merged]

theorem runCreate_of_error (w : CreateWorld) (g : Settings) (f : CreateFlags) (e : GoError)
    (h : getClient g = .error e) : runCreate w g f = { err := some e, sent := [] } := by
  simp only [runCreate, h]

theorem truncate_short {s : List UInt8} {max : Int} (h : (s.length : Int) ≤ max) :
    truncate s max = .ok s := by
  simp [truncate, h]

theorem truncate_long {s : List UInt8} {max : Int} (h3 : 3 ≤ max)
    (hmax : max ≤ 9223372036854775807) (h : max < (s.length : Int)) :
    truncate s max = .ok (s.take (max - 3).toNat ++ [46, 46, 46]) := by
  have hi : int64 (max - 3) = max - 3 := int64_of_bounds (by omega) (by omega)
  unfold truncate
  rw [if_neg (by omega)]
  simp only [hi]
  rw [if_neg (by omega)]

theorem truncate_long_length {s : List UInt8} {max : Int} (h3 : 3 ≤ max)
    (h : max < (s.length : Int)) :
    ((s.take (max - 3).toNat ++ [46, 46, 46] : List UInt8).length : Int) = max := by
  simp only [List.length_append, List.length_take, List.length_cons, List.length_nil]
  omega

theorem yamlLookup_setKey_same (entries : List (String × YamlValue)) (key : String)
    (value : YamlValue) : yamlLookup (setKey entries key value) key = some value := by
  induction entries with
  | nil => simp [setKey, yamlLookup]
  | cons e rest ih =>
    unfold setKey
    by_cases h : e.1 = key
    · simp [h, yamlLookup]
    · rw [if_neg h]
      unfold yamlLookup at ih ⊢
      simp only [List.find?_cons, h, decide_False]
      exact ih

theorem yamlLookup_setKey_other (entries : List (String × YamlValue)) (key k : String)
    (value : YamlValue) (hk : k ≠ key) :
    yamlLookup (setKey entries key value) k = yamlLookup entries k := by
  induction entries with
  | nil => simp [setKey, yamlLookup, Ne.symm hk]
  | cons e rest ih =>
    unfold setKey
    by_cases h : e.1 = key
    · have hne : ¬ e.1 = k := fun h1 => hk (h1.symm.trans h)
      simp [h, yamlLookup, List.find?_cons, Ne.symm hk, hne]
    · rw [if_neg h]
      unfold yamlLookup at ih ⊢
      by_cases h1 : e.1 = k
      · simp [List.find?_cons, h1]
      · simp only [List.find?_cons, h1, decide_False]
        exact ih

theorem SplitN2_of_eq {l : String} (h : '=' ∈ l.data) :
    SplitN2 l = [labelKey l, labelValue l] := by
  unfold SplitN2 labelKey labelValue
  rw [List.span_eq_take_drop]
  cases hd : l.data.dropWhile (fun c => decide (c ≠ '=')) with
  | nil =>
    rw [List.dropWhile_eq_nil_iff] at hd
    have := hd '=' h
    simp at this
  | cons x value => simp

theorem SplitN2_of_no_eq {l : String} (h : '=' ∉ l.data) : SplitN2 l = [l] := by
  unfold SplitN2
  rw [List.span_eq_take_drop]
  have hd : l.data.dropWhile (fun c => decide (c ≠ '=')) = [] := by
    rw [List.dropWhile_eq_nil_iff]
    intro x hx
    have hne : x ≠ '=' := fun e => h (e ▸ hx)
    simpa using hne
  rw [hd]

theorem label_split {l : String} (h : '=' ∈ l.data) :
    l = labelKey l ++ "=" ++ labelValue l ∧ '=' ∉ (labelKey l).data := by
  have hsplit : l.data = l.data.takeWhile (fun c => decide (c ≠ '=')) ++
      l.data.dropWhile (fun c => decide (c ≠ '=')) := (List.takeWhile_append_dropWhile _ _).symm
  constructor
  · apply String.ext
    cases hd : l.data.dropWhile (fun c => decide (c ≠ '=')) with
    | nil =>
      rw [List.dropWhile_eq_nil_iff] at hd
      have := hd '=' h
      simp at this
    | cons x value =>
      have hx : x = '=' := by
        have hh := List.head_dropWhile_not (fun c => decide (c ≠ '=')) l.data
          (by rw [hd]; simp)
        simp only [hd, List.head_cons] at hh
        simpa using hh
      subst hx
      rw [hd] at hsplit
      simp only [labelKey, labelValue, hd, String.data_append, List.drop_succ_cons,
        List.drop_zero]
      simpa using hsplit
  · intro hmem
    have := List.mem_takeWhile_imp hmem
    simp at this

theorem parseLabelsLoop_ok (quote : String → String) (labels : List String) :
    ∀ result : Labels, (∀ l ∈ labels, '=' ∈ l.data) →
      parseLabelsLoop quote labels result =
        .ok (fun k => (lastValue labels k).or (result k)) := by
  induction labels with
  | nil =>
    intro result _
    simp [parseLabelsLoop, lastValue]
  | cons l rest ih =>
    intro result h
    have hl : '=' ∈ l.data := h l (List.mem_cons_self _ _)
    have hrest : ∀ x ∈ rest, '=' ∈ x.data := fun x hx => h x (List.mem_cons_of_mem _ hx)
    unfold parseLabelsLoop
    rw [SplitN2_of_eq hl]
    simp only
    rw [ih _ hrest]
    congr 1
    funext k
    simp only [lastValue, List.reverse_cons, List.find?_append, Labels.set]
    cases hfind : List.find? (fun l => decide (labelKey l = k)) rest.reverse with
    | some v => simp
    | none =>
      by_cases hk : labelKey l = k
      · simp [hk]
      · have hk1 : ¬ k = labelKey l := fun e => hk e.symm
        simp [hk, hk1]

theorem parseLabelsLoop_error (quote : String → String) (pre : List String) (l : String)
    (post : List String) (hl : '=' ∉ l.data) :
    ∀ result : Labels, (∀ x ∈ pre, '=' ∈ x.data) →
      parseLabelsLoop quote (pre ++ l :: post) result =
        .error (.errorf ("invalid label format " ++ quote l ++ ": expected key=value")) := by
  induction pre with
  | nil =>
    intro result _
    simp only [List.nil_append]
    unfold parseLabelsLoop
    rw [SplitN2_of_no_eq hl]
  | cons x rest ih =>
    intro result h
    have hx : '=' ∈ x.data := h x (List.mem_cons_self _ _)
    have hrest : ∀ y ∈ rest, '=' ∈ y.data := fun y hy => h y (List.mem_cons_of_mem _ hy)
    simp only [List.cons_append]
    unfold parseLabelsLoop
    rw [SplitN2_of_eq hx]
    simp only
    exact ih _ hrest

/-- A list with a label without "=" splits at the first such label. -/
theorem first_without_eq (labels : List String) (h : ∃ l ∈ labels, '=' ∉ l.data) :
    ∃ pre l post, labels = pre ++ l :: post ∧ (∀ x ∈ pre, '=' ∈ x.data) ∧ '=' ∉ l.data := by
  induction labels with
  | nil => simp at h
  | cons x rest ih =>
    by_cases hx : '=' ∈ x.data
    · obtain ⟨l, hmem, hl⟩ := h
      have hmem1 : l ∈ rest := by
        rcases List.mem_cons.mp hmem with e | e
        · exact absurd (e ▸ hx) hl
        · exact e
      obtain ⟨pre, l1, post, he, hpre, hl1⟩ := ih ⟨l, hmem1, hl⟩
      refine ⟨x :: pre, l1, post, by rw [he]; rfl, ?_, hl1⟩
      intro y hy
      rcases List.mem_cons.mp hy with e | e
      · exact e ▸ hx
      · exact hpre y e
    · exact ⟨[], x, rest, rfl, by simp, hx⟩

theorem selectWait_timer_eq {env : Env} {s : PollState} {t : Int}
    (h : selectWait env s = .timer t) : t = timerAt env s := by
  unfold selectWait at h
  cases hd : env.ctx.doneAt with
  | none =>
    rw [hd] at h
    exact (Selected.timer.inj h).symm
  | some c =>
    rw [hd] at h
    simp only at h
    split_ifs at h
    exact (Selected.timer.inj h).symm

theorem withinBudget_init (start : Int) (d : DeviceAuthResponse)
    (hlo : -9223372036 ≤ d.Interval) (he : 0 < d.ExpiresIn)
    (hsum : max d.Interval 5 + d.ExpiresIn ≤ 9223372031) :
    WithinBudget start d (pollInit start d) := by
  have h5 : d.Interval ≤ max d.Interval 5 := le_max_left _ _
  have hint := pollInit_interval_of_bounds start d hlo (by omega)
  have hdl : (pollInit start d).deadline = start + d.ExpiresIn * Second := by
    have := secondsDuration_of_bounds (n := d.ExpiresIn) (by omega) (by omega)
    simp [pollInit, timeAdd, this]
  refine ⟨hdl, ?_, ?_, ?_⟩
  · simp [pollInit]
  · rw [hint]
  · rw [hint]; simp [pollInit]

/-- Arithmetic of one more poll. -/
theorem budget_arith {start e I L now interval t : Int} (hI : 5 ≤ I) (hL : 0 ≤ L)
    (hsum : I + e ≤ 9223372031)
    (htime : start + L * (I * Second) ≤ now) (hnow : now < start + e * Second)
    (h1 : I * Second ≤ interval) (h2 : interval ≤ (I + 5 * L) * Second)
    (ht : now + max interval 0 ≤ t) :
    start + (L + 1) * (I * Second) ≤ t ∧ L + 1 ≤ ceilDiv e I ∧
    int64 (interval + int64 (5 * Second)) = interval + 5 * Second ∧
    interval + 5 * Second ≤ (I + 5 * (L + 1)) * Second := by
  have hmax : interval ≤ max interval 0 := le_max_left _ _
  obtain ⟨P, hP⟩ : ∃ P, P = L * I := ⟨_, rfl⟩
  have hP5 : 5 * L ≤ P := by rw [hP]; nlinarith
  have e1 : L * (I * Second) = P * 1000000000 := by rw [hP]; unfold Second; ring
  have e2 : (L + 1) * (I * Second) = P * 1000000000 + I * 1000000000 := by
    rw [hP]; unfold Second; ring
  have e3 : (I + 5 * L) * Second = I * 1000000000 + L * 5000000000 := by unfold Second; ring
  have e4 : (I + 5 * (L + 1)) * Second = I * 1000000000 + L * 5000000000 + 5000000000 := by
    unfold Second; ring
  rw [e1] at htime
  rw [e3] at h2
  rw [e2, e4, int64_five_seconds]
  unfold Second at *
  have hPe : P < e := by omega
  refine ⟨by omega, ?_, ?_, by omega⟩
  · unfold ceilDiv
    apply Int.le_ediv_of_mul_le (by omega)
    have : (L + 1) * I = P + I := by rw [hP]; ring
    rw [this]; omega
  · have : int64 (interval + 5000000000) = interval + 5000000000 :=
      int64_of_bounds (by omega) (by omega)
    simpa using this

theorem withinBudget_next {env : Env} {start : Int} {d : DeviceAuthResponse}
    {s s1 : PollState} (hsum : max d.Interval 5 + d.ExpiresIn ≤ 9223372031)
    (hinv : WithinBudget start d s) (h : pollStep env s = .next s1) :
    WithinBudget start d s1 ∧ s1.log.length = s.log.length + 1 ∧
    (s.log.length : Int) + 1 ≤ ceilDiv d.ExpiresIn (max d.Interval 5) := by
  obtain ⟨t, ⟨hnow, hsel, _, _⟩, hcase⟩ := pollStep_next_cases h
  have ht := selectWait_timer_eq hsel
  obtain ⟨hdl, htime, hint1, hint2⟩ := hinv
  rw [hdl] at hnow
  have htt : s.now + max s.interval 0 ≤ t + (env.doTime s.iter : Int) := by
    rw [ht]; unfold timerAt
    have : (0 : Int) ≤ (env.timerLag s.iter : Int) := Int.ofNat_nonneg _
    have : (0 : Int) ≤ (env.doTime s.iter : Int) := Int.ofNat_nonneg _
    omega
  obtain ⟨a1, a2, a3, a4⟩ := budget_arith (le_max_right d.Interval 5) (Int.ofNat_nonneg _) hsum
    htime hnow hint1 hint2 htt
  have hlen : ((afterRequest env s t).log.length : Int) = (s.log.length : Int) + 1 := by
    simp [afterRequest]
  rcases hcase with ⟨_, hs1⟩ | ⟨_, hs1⟩
  · subst hs1
    refine ⟨⟨hdl, ?_, hint1, ?_⟩, by simp [afterRequest], a2⟩
    · rw [hlen]; exact a1
    · rw [hlen]
      show s.interval ≤ _
      have : (5 : Int) * Second = 5000000000 := by decide
      omega
  · subst hs1
    refine ⟨⟨hdl, ?_, ?_, ?_⟩, by simp [afterRequest], a2⟩
    · show start + ((afterRequest env s t).log.length : Int) * _ ≤ t + (env.doTime s.iter : Int)
      rw [hlen]; exact a1
    · show _ ≤ int64 (s.interval + int64 (5 * Second))
      rw [a3]
      have : (5 : Int) * Second = 5000000000 := by decide
      omega
    · show int64 (s.interval + int64 (5 * Second)) ≤
        (max d.Interval 5 + 5 * ((afterRequest env s t).log.length : Int)) * Second
      rw [a3, hlen]; exact a4

theorem withinBudget_ret {env : Env} {start : Int} {d : DeviceAuthResponse}
    {s s1 : PollState} {r : Except GoError TokenResponse}
    (hsum : max d.Interval 5 + d.ExpiresIn ≤ 9223372031)
    (hinv : WithinBudget start d s) (h : pollStep env s = .ret r s1)
    (hle : (s.log.length : Int) ≤ ceilDiv d.ExpiresIn (max d.Interval 5)) :
    (s1.log.length : Int) ≤ ceilDiv d.ExpiresIn (max d.Interval 5) := by
  rcases pollStep_ret_cases h with ⟨_, _, hs1⟩ | ⟨t, _, _, _, hs1⟩ | ⟨t, msg, _, _, _, _, hs1⟩ |
    ⟨t, status, body, ⟨hnow, hsel, _, _⟩, hs1, _⟩
  · rw [hs1]; exact hle
  · rw [hs1]; exact hle
  · rw [hs1]; exact hle
  · have ht := selectWait_timer_eq hsel
    obtain ⟨hdl, htime, hint1, hint2⟩ := hinv
    rw [hdl] at hnow
    have htt : s.now + max s.interval 0 ≤ t := by
      rw [ht]; unfold timerAt
      have : (0 : Int) ≤ (env.timerLag s.iter : Int) := Int.ofNat_nonneg _
      omega
    obtain ⟨_, a2, _, _⟩ := budget_arith (le_max_right d.Interval 5) (Int.ofNat_nonneg _) hsum
      htime hnow hint1 hint2 htt
    have hlen : ((afterRequest env s t).log.length : Int) = (s.log.length : Int) + 1 := by
      simp [afterRequest]
    rw [hs1, hlen]; exact a2

theorem budget_terminates (env : Env) (start : Int) (d : DeviceAuthResponse)
    (hsum : max d.Interval 5 + d.ExpiresIn ≤ 9223372031) :
    ∀ (m : Nat) (s : PollState), WithinBudget start d s →
      (s.log.length : Int) ≤ ceilDiv d.ExpiresIn (max d.Interval 5) →
      ceilDiv d.ExpiresIn (max d.Interval 5) ≤ (s.log.length : Int) + m →
      ∃ r s1, pollLoop env (m + 1) s = some (r, s1) ∧
        (s1.log.length : Int) ≤ ceilDiv d.ExpiresIn (max d.Interval 5) := by
  intro m
  induction m with
  | zero =>
    intro s hinv hle hge
    rw [pollLoop_succ]
    cases hstep : pollStep env s with
    | ret r s1 => exact ⟨r, s1, rfl, withinBudget_ret hsum hinv hstep hle⟩
    | next s1 =>
      obtain ⟨_, _, h3⟩ := withinBudget_next hsum hinv hstep
      simp at hge
      omega
  | succ k ih =>
    intro s hinv hle hge
    rw [pollLoop_succ]
    cases hstep : pollStep env s with
    | ret r s1 => exact ⟨r, s1, rfl, withinBudget_ret hsum hinv hstep hle⟩
    | next s1 =>
      obtain ⟨h1, h2, h3⟩ := withinBudget_next hsum hinv hstep
      have hl : (s1.log.length : Int) = (s.log.length : Int) + 1 := by rw [h2]; simp
      exact ih s1 h1 (by rw [hl]; exact h3) (by rw [hl]; push_cast at hge; omega)

theorem yamlField_of_not_composite {entries : List (String × YamlValue)} {key : String}
    (h : yamlLookup entries key ≠ some .composite) :
    yamlField entries key = .ok (fieldText entries key) := by
  unfold yamlField fieldText
  cases hl : yamlLookup entries key with
  | none => rfl
  | some v =>
    cases v with
    | scalar text => rfl
    | null => rfl
    | composite => exact absurd hl h

theorem yamlField_of_composite {entries : List (String × YamlValue)} {key : String}
    (h : yamlLookup entries key = some .composite) :
    yamlField entries key =
      .error (.errorf ("yaml: cannot unmarshal " ++ key ++ " into string")) := by
  simp [yamlField, h]

theorem unmarshalConfig_of_scalars {entries : List (String × YamlValue)}
    (h1 : yamlLookup entries "endpoint" ≠ some .composite)
    (h2 : yamlLookup entries "token" ≠ some .composite)
    (h3 : yamlLookup entries "org" ≠ some .composite)
    (h4 : yamlLookup entries "env" ≠ some .composite) :
    unmarshalConfig (.mapping entries) =
      .ok { Endpoint := fieldText entries "endpoint", Token := fieldText entries "token",
            Org := fieldText entries "org", Env := fieldText entries "env" } := by
  simp only [unmarshalConfig, yamlField_of_not_composite h1, yamlField_of_not_composite h2,
    yamlField_of_not_composite h3, yamlField_of_not_composite h4]

theorem unmarshalConfig_of_composite {entries : List (String × YamlValue)}
    (h : yamlLookup entries "endpoint" = some .composite ∨
      yamlLookup entries "token" = some .composite ∨
      yamlLookup entries "org" = some .composite ∨
      yamlLookup entries "env" = some .composite) :
    ∃ err, unmarshalConfig (.mapping entries) = .error err := by
  have h1 := @yamlField_of_composite entries "endpoint"
  have h2 := @yamlField_of_composite entries "token"
  have h3 := @yamlField_of_composite entries "org"
  have h4 := @yamlField_of_composite entries "env"
  simp only [unmarshalConfig]
  cases e1 : yamlField entries "endpoint" <;> cases e2 : yamlField entries "token" <;>
    cases e3 : yamlField entries "org" <;> cases e4 : yamlField entries "env" <;>
    simp only [exists_eq', Except.error.injEq, reduceCtorEq, exists_false]
  rcases h with h | h | h | h
  · rw [h1 h] at e1; cases e1
  · rw [h2 h] at e2; cases e2
  · rw [h3 h] at e3; cases e3
  · rw [h4 h] at e4; cases e4

/-- With no selector, `runCreate` returns an error and sends nothing: the selector
error when `getClient` succeeds, the error of `getClient` otherwise. -/
theorem runCreate_empty_selector (w : CreateWorld) (g : Settings) (f : CreateFlags)
    (hu : f.userID = "") (hr : f.requestID = "") (ht : f.tenantID = "") (ho : f.route = "") :
    (runCreate w g f).sent = [] ∧
    (∃ e, (runCreate w g f).err = some e) ∧
    (∀ c, getClient g = .ok c →
      ∃ e, (runCreate w g f).err = some e ∧
        e = .errorf
          "at least one selector field required (--user, --request, --tenant, or --route)" ∧
        Mentions e "at least one selector field required") ∧
    (∀ e, getClient g = .error e → (runCreate w g f).err = some e) := by
  have hsel : IsEmptySelector
      { UserID := f.userID, RequestID := f.requestID, TenantID := f.tenantID,
        Route := f.route } = true := by
    simp [IsEmptySelector, hu, hr, ht, ho]
  cases hc : getClient g with
  | error e =>
    rw [runCreate_of_error w g f e hc]
    exact ⟨rfl, ⟨e, rfl⟩, fun c h => by simp at h, fun e1 h => by rw [Except.error.inj h]⟩
  | ok c =>
    have hrun : runCreate w g f =
        { err := some (.errorf
            "at least one selector field required (--user, --request, --tenant, or --route)"),
          sent := [] } := by
      simp only [runCreate, hc, hsel, if_true]
    rw [hrun]
    refine ⟨rfl, ⟨_, rfl⟩, fun c1 _ => ⟨_, rfl, rfl, ?_⟩, fun e h => by simp at h⟩
    exact ⟨[], " (--user, --request, --tenant, or --route)".data, by decide⟩

theorem daysSinceEpoch_of_parts (a n2 c n4 : Int) (h2 : 0 ≤ n2 ∧ n2 ≤ 3)
    (hc : 0 ≤ c ∧ c ≤ 24) (h4 : 0 ≤ n4 ∧ n4 ≤ 3) :
    daysSinceEpoch (400 * a + 100 * n2 + 4 * c + n4 + absoluteZeroYear) =
      146097 * a + 36524 * n2 + 1461 * c + 365 * n4 := by
  simp only [daysSinceEpoch]
  have e0 : 400 * a + 100 * n2 + 4 * c + n4 + absoluteZeroYear - absoluteZeroYear =
      400 * a + 100 * n2 + 4 * c + n4 := by ring
  rw [e0]
  have e1 : (400 * a + 100 * n2 + 4 * c + n4) / 400 = a := by omega
  rw [e1]
  have e2 : 400 * a + 100 * n2 + 4 * c + n4 - 400 * a = 100 * n2 + 4 * c + n4 := by ring
  rw [e2]
  have e3 : (100 * n2 + 4 * c + n4) / 100 = n2 := by omega
  rw [e3]
  have e4 : 100 * n2 + 4 * c + n4 - 100 * n2 = 4 * c + n4 := by ring
  rw [e4]
  have e5 : (4 * c + n4) / 4 = c := by omega
  rw [e5]
  ring

theorem absYear_spec (abs : Int) :
    daysSinceEpoch (absYear abs).1 + (absYear abs).2 = abs ∧ 0 ≤ (absYear abs).2 ∧
    (absYear abs).2 < (if isLeap (absYear abs).1 = true then 366 else 365) := by
  obtain ⟨a, ha⟩ : ∃ a, a = abs / 146097 := ⟨_, rfl⟩
  obtain ⟨d1, hd1⟩ : ∃ d1, d1 = abs - 146097 * a := ⟨_, rfl⟩
  obtain ⟨b, hb⟩ : ∃ b, b = d1 / 36524 := ⟨_, rfl⟩
  obtain ⟨n2, hn2⟩ : ∃ n2, n2 = b - b / 4 := ⟨_, rfl⟩
  obtain ⟨d2, hd2⟩ : ∃ d2, d2 = d1 - 36524 * n2 := ⟨_, rfl⟩
  obtain ⟨c, hc⟩ : ∃ c, c = d2 / 1461 := ⟨_, rfl⟩
  obtain ⟨d3, hd3⟩ : ∃ d3, d3 = d2 - 1461 * c := ⟨_, rfl⟩
  obtain ⟨e, he⟩ : ∃ e, e = d3 / 365 := ⟨_, rfl⟩
  obtain ⟨n4, hn4⟩ : ∃ n4, n4 = e - e / 4 := ⟨_, rfl⟩
  have hval : absYear abs =
      (400 * a + 100 * n2 + 4 * c + n4 + absoluteZeroYear, d3 - 365 * n4) := by
    simp only [absYear]
    subst ha hd1 hb hn2 hd2 hc hd3 he hn4
    rfl
  have b1 : 0 ≤ d1 ∧ d1 < 146097 := by omega
  have b2 : 0 ≤ b ∧ b ≤ 4 ∧ (b = 4 → d1 = 146096) := by omega
  have b3 : 0 ≤ n2 ∧ n2 ≤ 3 ∧ 0 ≤ d2 ∧ d2 ≤ 36524 ∧ (d2 = 36524 → n2 = 3) := by omega
  have b4 : 0 ≤ c ∧ c ≤ 24 ∧ 0 ≤ d3 ∧ d3 < 1461 ∧ (c = 24 → d3 = 1460 → n2 = 3) := by omega
  have b5 : 0 ≤ e ∧ e ≤ 4 ∧ (e = 4 → d3 = 1460) := by omega
  have b6 : 0 ≤ n4 ∧ n4 ≤ 3 ∧ 0 ≤ d3 - 365 * n4 ∧ d3 - 365 * n4 ≤ 365 ∧
      (d3 - 365 * n4 = 365 → n4 = 3 ∧ d3 = 1460) := by omega
  rw [hval]
  simp only
  rw [daysSinceEpoch_of_parts a n2 c n4 ⟨b3.1, b3.2.1⟩ ⟨b4.1, b4.2.1⟩ ⟨b6.1, b6.2.1⟩]
  refine ⟨by omega, b6.2.2.1, ?_⟩
  by_cases hl : isLeap (400 * a + 100 * n2 + 4 * c + n4 + absoluteZeroYear) = true
  · rw [if_pos hl]; omega
  · rw [if_neg hl]
    simp only [isLeap, absoluteZeroYear, decide_eq_true_eq] at hl
    omega
theorem daysBefore_values :
    daysBefore 0 = 0 ∧ daysBefore 1 = 31 ∧ daysBefore 2 = 59 ∧ daysBefore 3 = 90 ∧
    daysBefore 4 = 120 ∧ daysBefore 5 = 151 ∧ daysBefore 6 = 181 ∧ daysBefore 7 = 212 ∧
    daysBefore 8 = 243 ∧ daysBefore 9 = 273 ∧ daysBefore 10 = 304 ∧ daysBefore 11 = 334 ∧
    daysBefore 12 = 365 := by decide

/-- The month and day found for the day `day` of a year without its leap day. -/
theorem monthDay_of_day (day : Int) (h0 : 0 ≤ day) (h1 : day < 365) (r : Int × Int)
    (hr : r = if day ≥ daysBefore (day / 31 + 1) then
          ((day / 31 + 1 + 1, day - daysBefore (day / 31 + 1) + 1) : Int × Int)
        else (day / 31 + 1, day - daysBefore (day / 31) + 1)) :
    1 ≤ r.1 ∧ r.1 ≤ 12 ∧ 1 ≤ r.2 ∧ r.2 ≤ daysBefore r.1 - daysBefore (r.1 - 1) ∧
    daysBefore (r.1 - 1) + (r.2 - 1) = day ∧ (r.1 ≤ 2 ↔ day < 59) := by
  obtain ⟨q, hq⟩ : ∃ q, q = day / 31 := ⟨_, rfl⟩
  have hq0 : 0 ≤ q := by omega
  have hq1 : q ≤ 11 := by omega
  obtain ⟨v0, v1, v2, v3, v4, v5, v6, v7, v8, v9, v10, v11, v12⟩ := daysBefore_values
  rw [← hq] at hr
  interval_cases q <;>
    norm_num only [v0, v1, v2, v3, v4, v5, v6, v7, v8, v9, v10, v11, v12] at hr <;>
    split_ifs at hr <;> subst hr <;>
    norm_num only [v0, v1, v2, v3, v4, v5, v6, v7, v8, v9, v10, v11, v12] <;>
    simp only [true_and, true_iff, false_iff, not_lt] <;> omega

theorem monthDay_spec (year yday : Int) (h0 : 0 ≤ yday)
    (h1 : yday < if isLeap year = true then 366 else 365) :
    1 ≤ (monthDay year yday).1 ∧ (monthDay year yday).1 ≤ 12 ∧
    1 ≤ (monthDay year yday).2 ∧
    (monthDay year yday).2 ≤ daysIn (monthDay year yday).1 year ∧
    dateDays year (monthDay year yday).1 (monthDay year yday).2 =
      daysSinceEpoch year + yday := by
  obtain ⟨v0, v1, v2, v3, v4, v5, v6, v7, v8, v9, v10, v11, v12⟩ := daysBefore_values
  unfold monthDay dateDays daysIn
  by_cases hl : isLeap year = true
  · rw [if_pos hl] at h1
    simp only [hl, true_and, and_true]
    by_cases h59 : yday = 31 + 29 - 1
    · rw [if_pos h59]
      norm_num only [v1, v2]
      simp only [true_and, if_true, if_false]
      omega
    · rw [if_neg h59]
      by_cases hgt : yday > 31 + 29 - 1
      · rw [if_pos hgt]
        obtain ⟨r, hr⟩ : ∃ r : Int × Int, r =
            if yday - 1 ≥ daysBefore ((yday - 1) / 31 + 1) then
              ((yday - 1) / 31 + 1 + 1, yday - 1 - daysBefore ((yday - 1) / 31 + 1) + 1)
            else ((yday - 1) / 31 + 1, yday - 1 - daysBefore ((yday - 1) / 31) + 1) := ⟨_, rfl⟩
        obtain ⟨a1, a2, a3, a4, a5, a6⟩ := monthDay_of_day (yday - 1) (by omega) (by omega) r hr
        rw [← hr]
        have h3 : r.1 ≥ 3 := by omega
        have hne : ¬ r.1 = 2 := by omega
        simp only [hne, if_false, h3, if_true]
        omega
      · rw [if_neg hgt]
        obtain ⟨r, hr⟩ : ∃ r : Int × Int, r =
            if yday ≥ daysBefore (yday / 31 + 1) then
              (yday / 31 + 1 + 1, yday - daysBefore (yday / 31 + 1) + 1)
            else (yday / 31 + 1, yday - daysBefore (yday / 31) + 1) := ⟨_, rfl⟩
        obtain ⟨a1, a2, a3, a4, a5, a6⟩ := monthDay_of_day yday (by omega) (by omega) r hr
        rw [← hr]
        have h3 : ¬ r.1 ≥ 3 := by omega
        simp only [h3, if_false]
        by_cases h2 : r.1 = 2
        · simp only [h2, if_true]
          rw [h2] at a5 a4
          norm_num only [v1, v2] at a5 a4 ⊢
          simp only [true_and]
          omega
        · simp only [h2, if_false]
          omega
  · rw [if_neg hl] at h1
    simp only [hl, false_and, and_false, if_false, Bool.false_eq_true]
    obtain ⟨r, hr⟩ : ∃ r : Int × Int, r =
        if yday ≥ daysBefore (yday / 31 + 1) then
          (yday / 31 + 1 + 1, yday - daysBefore (yday / 31 + 1) + 1)
        else (yday / 31 + 1, yday - daysBefore (yday / 31) + 1) := ⟨_, rfl⟩
    obtain ⟨a1, a2, a3, a4, a5, a6⟩ := monthDay_of_day yday h0 h1 r hr
    rw [← hr]
    omega

theorem digitVal_digitChar (d : Int) : digitVal (digitChar d) = some (d % 10) := by
  obtain ⟨k, hk⟩ : ∃ k, k = d % 10 := ⟨_, rfl⟩
  have h0 : 0 ≤ k := by omega
  have h1 : k < 10 := by omega
  unfold digitChar
  rw [← hk]
  interval_cases k <;> simp [digitVal]

theorem digitChar_ne_zero {d : Int} (h : d % 10 ≠ 0) : digitChar d ≠ '0' := by
  intro he
  have := digitVal_digitChar d
  rw [he] at this
  simp [digitVal] at this
  omega

theorem digitsOf_length (w : Nat) : ∀ x, (digitsOf w x).length = w := by
  induction w with
  | zero => intro x; rfl
  | succ n ih => intro x; simp [digitsOf, ih]

theorem digitsOf_digits (w : Nat) : ∀ x, ∀ c ∈ digitsOf w x, (digitVal c).isSome = true := by
  induction w with
  | zero => intro x c hc; simp [digitsOf] at hc
  | succ n ih =>
    intro x c hc
    simp only [digitsOf, List.mem_append, List.mem_singleton] at hc
    rcases hc with hc | hc
    · exact ih _ c hc
    · rw [hc, digitVal_digitChar]; rfl

theorem atoi_append (s : List Char) (c : Char) :
    atoi (s ++ [c]) = atoi s * 10 + (digitVal c).getD 0 := by
  simp [atoi, List.foldl_append]

theorem atoi_digitsOf_nine {x : Int} (h0 : 0 ≤ x) (h1 : x < 1000000000) :
    atoi (digitsOf 9 x) = x := by
  simp only [digitsOf, List.nil_append, List.append_assoc, List.singleton_append, atoi,
    List.cons_append, List.foldl_cons, List.foldl_nil, digitVal_digitChar, Option.getD_some]
  omega

theorem parseUint_two {x : Int} (h0 : 0 ≤ x) (h1 : x < 100) (min max : Int) :
    parseUint (digitsOf 2 x) min max = if x < min ∨ max < x then none else some x := by
  have hx : x / 10 % 10 * 10 + x % 10 = x := by omega
  simp [digitsOf, parseUint, digitVal_digitChar, hx]

theorem parseUint_four {x : Int} (h0 : 0 ≤ x) (h1 : x < 10000) (min max : Int) :
    parseUint (digitsOf 4 x) min max = if x < min ∨ max < x then none else some x := by
  have hx : ((x / 10 / 10 / 10 % 10 * 10 + x / 10 / 10 % 10) * 10 + x / 10 % 10) * 10 +
      x % 10 = x := by omega
  simp [digitsOf, parseUint, digitVal_digitChar, hx]

theorem appendInt_of_lt {x : Int} {w : Nat} (h0 : 0 ≤ x) (h1 : x < 10 ^ w) :
    appendInt x w = digitsOf w x := by
  simp [appendInt, not_lt.mpr h0, h1]

theorem trimZeros_append_zero (b : List Char) : trimZeros (b ++ ['0']) = trimZeros b := by
  simp [trimZeros]

theorem trimZeros_append_of_ne (b : List Char) {c : Char} (h : c ≠ '0') :
    trimZeros (b ++ [c]) = b ++ [c] := by
  simp [trimZeros, h]

theorem trimZeros_spec (b : List Char) :
    (trimZeros b).length ≤ b.length ∧
    atoi (trimZeros b) * 10 ^ (b.length - (trimZeros b).length) = atoi b ∧
    (∀ c ∈ trimZeros b, c ∈ b) := by
  induction b using List.reverseRecOn with
  | nil => simp [trimZeros, atoi]
  | append_singleton b c ih =>
    by_cases hc : c = '0'
    · subst hc
      rw [trimZeros_append_zero]
      obtain ⟨h1, h2, h3⟩ := ih
      refine ⟨by simp; omega, ?_, fun c hc => List.mem_append_left _ (h3 c hc)⟩
      rw [atoi_append, ← h2]
      have e : (b ++ ['0']).length - (trimZeros b).length =
          (b.length - (trimZeros b).length) + 1 := by simp; omega
      rw [e, pow_succ]
      simp [digitVal]
      ring
    · rw [trimZeros_append_of_ne b hc]
      simp

theorem digitsOf_two (x : Int) : digitsOf 2 x = [digitChar (x / 10), digitChar x] := by
  simp [digitsOf]

theorem digitsOf_four (x : Int) :
    digitsOf 4 x =
      [digitChar (x / 10 / 10 / 10), digitChar (x / 10 / 10), digitChar (x / 10), digitChar x] := by
  simp [digitsOf]

theorem parseUint_pair {x : Int} (h0 : 0 ≤ x) (h1 : x < 100) (min max : Int) (hmin : min ≤ x)
    (hmax : x ≤ max) : parseUint [digitChar (x / 10), digitChar x] min max = some x := by
  rw [← digitsOf_two, parseUint_two h0 h1, if_neg (by omega)]

theorem parseUint_quad {x : Int} (h0 : 0 ≤ x) (h1 : x < 10000) (min max : Int) (hmin : min ≤ x)
    (hmax : x ≤ max) :
    parseUint [digitChar (x / 10 / 10 / 10), digitChar (x / 10 / 10), digitChar (x / 10),
      digitChar x] min max = some x := by
  rw [← digitsOf_four, parseUint_four h0 h1, if_neg (by omega)]

theorem parseFraction_appendNano {n : Int} (h0 : 0 ≤ n) (h1 : n < 1000000000) (zc : Char)
    (zrest : List Char) (hz : digitVal zc = none) (hdot : zc ≠ '.') :
    parseFraction (appendNano n ++ zc :: zrest) = (n, zc :: zrest) := by
  unfold appendNano
  by_cases hn : n = 0
  · rw [if_pos hn, hn]
    simp only [List.nil_append]
    unfold parseFraction
    split
    · rename_i c rest heq
      have := (List.cons.inj heq).1
      exact absurd this hdot
    · rfl
  · rw [if_neg hn, appendInt_of_lt h0 (by norm_num; omega)]
    obtain ⟨hlen, hval, hmem⟩ := trimZeros_spec (digitsOf 9 n)
    rw [digitsOf_length, atoi_digitsOf_nine h0 h1] at hval
    rw [digitsOf_length] at hlen
    have hdig : ∀ c ∈ trimZeros (digitsOf 9 n), (digitVal c).isSome = true :=
      fun c hc => digitsOf_digits 9 n c (hmem c hc)
    cases hT : trimZeros (digitsOf 9 n) with
    | nil =>
      rw [hT] at hval
      simp [atoi] at hval
      omega
    | cons c T =>
      rw [hT] at hval hlen hdig
      have hc : (digitVal c).isSome = true := hdig c (List.mem_cons_self _ _)
      have htake : List.takeWhile (fun x => (digitVal x).isSome) (c :: (T ++ zc :: zrest)) =
          c :: T := by
        rw [← List.cons_append, List.takeWhile_append_of_pos (fun a ha => hdig a ha)]
        simp [hz]
      have hdrop : List.dropWhile (fun x => (digitVal x).isSome) (c :: (T ++ zc :: zrest)) =
          zc :: zrest := by
        rw [← List.cons_append, List.dropWhile_append_of_pos (fun a ha => hdig a ha)]
        simp [hz]
      simp only [List.cons_append, parseFraction, hc, if_true, htake, hdrop]
      have ht9 : List.take 9 (c :: T) = c :: T := List.take_of_length_le hlen
      simp only [parseNanoseconds, ht9]
      rw [hval]

theorem parseZone_appendZone {offset : Int} (hlo : -86400 < offset) (hhi : offset < 86400)
    (hm : offset % 60 = 0) : parseZone (appendZone offset) = some offset := by
  unfold appendZone
  by_cases h0 : offset = 0
  · rw [if_pos h0, h0]; rfl
  · rw [if_neg h0]
    by_cases hneg : offset < 0
    · have hz : -(-offset / 60) < 0 := by omega
      simp only [hneg, if_true, hz, neg_neg]
      rw [appendInt_of_lt (by omega) (by norm_num; omega),
        appendInt_of_lt (by omega) (by norm_num; omega), digitsOf_two, digitsOf_two]
      simp only [List.cons_append, List.nil_append, parseZone]
      rw [parseUint_pair (by omega) (by omega) 0 23 (by omega) (by omega),
        parseUint_pair (by omega) (by omega) 0 59 (by omega) (by omega)]
      simp
      omega
    · have hz : ¬ offset / 60 < 0 := by omega
      simp only [hneg, if_false, hz]
      rw [appendInt_of_lt (by omega) (by norm_num; omega),
        appendInt_of_lt (by omega) (by norm_num; omega), digitsOf_two, digitsOf_two]
      simp only [List.cons_append, List.nil_append, parseZone]
      rw [parseUint_pair (by omega) (by omega) 0 23 (by omega) (by omega),
        parseUint_pair (by omega) (by omega) 0 59 (by omega) (by omega)]
      simp
      omega

theorem appendZone_head (offset : Int) :
    ∃ zc zrest, appendZone offset = zc :: zrest ∧ digitVal zc = none ∧ zc ≠ '.' := by
  unfold appendZone
  by_cases h0 : offset = 0
  · rw [if_pos h0]; exact ⟨_, _, rfl, by decide, by decide⟩
  · rw [if_neg h0]
    refine ⟨_, _, rfl, ?_, ?_⟩ <;> split_ifs <;> decide

theorem daysIn_le (month year : Int) (h1 : 1 ≤ month) (h2 : month ≤ 12) :
    daysIn month year ≤ 31 := by
  obtain ⟨v0, v1, v2, v3, v4, v5, v6, v7, v8, v9, v10, v11, v12⟩ := daysBefore_values
  unfold daysIn
  split_ifs
  · omega
  · interval_cases month <;>
      norm_num only [v0, v1, v2, v3, v4, v5, v6, v7, v8, v9, v10, v11, v12]

/-- The fields of an instant are within their ranges and denote the instant. -/
theorem civil_spec (offset t : Int) :
    1 ≤ (civil offset t).month ∧ (civil offset t).month ≤ 12 ∧
    1 ≤ (civil offset t).day ∧
    (civil offset t).day ≤ daysIn (civil offset t).month (civil offset t).year ∧
    (0 ≤ (civil offset t).hour ∧ (civil offset t).hour ≤ 23) ∧
    (0 ≤ (civil offset t).min ∧ (civil offset t).min ≤ 59) ∧
    (0 ≤ (civil offset t).sec ∧ (civil offset t).sec ≤ 59) ∧
    (0 ≤ (civil offset t).nsec ∧ (civil offset t).nsec < 1000000000) ∧
    Date (civil offset t).year (civil offset t).month (civil offset t).day
      (civil offset t).hour (civil offset t).min (civil offset t).sec (civil offset t).nsec =
      t + offset * 1000000000 := by
  obtain ⟨abs, habs⟩ : ∃ abs, abs = t / 1000000000 + offset + unixToAbsoluteDays * 86400 :=
    ⟨_, rfl⟩
  obtain ⟨hy1, hy2, hy3⟩ := absYear_spec (abs / 86400)
  obtain ⟨hm1, hm2, hm3, hm4, hm5⟩ :=
    monthDay_spec (absYear (abs / 86400)).1 (absYear (abs / 86400)).2 hy2 hy3
  simp only [civil, ← habs]
  refine ⟨hm1, hm2, hm3, hm4, by omega, by omega, by omega, by omega, ?_⟩
  unfold Date
  rw [hm5, hy1]
  unfold unixToAbsoluteDays at habs ⊢
  omega

theorem parseRFC3339_appendFormatRFC3339 (offset t : Int)
    (hy0 : 0 ≤ (civil offset t).year) (hy1 : (civil offset t).year ≤ 9999)
    (hlo : -86400 < offset) (hhi : offset < 86400) (hm : offset % 60 = 0) :
    parseRFC3339 (appendFormatRFC3339 offset t) = some t := by
  obtain ⟨c1, c2, c3, c4, ⟨c5, c6⟩, ⟨c7, c8⟩, ⟨c9, c10⟩, ⟨c11, c12⟩, hdate⟩ :=
    civil_spec offset t
  have c13 := daysIn_le _ (civil offset t).year c1 c2
  obtain ⟨zc, zrest, hz, hzd, hzdot⟩ := appendZone_head offset
  have hfrac := parseFraction_appendNano c11 c12 zc zrest hzd hzdot
  have hzone := parseZone_appendZone hlo hhi hm
  rw [hz] at hzone
  unfold appendFormatRFC3339
  simp only
  rw [appendInt_of_lt hy0 (by norm_num; omega), appendInt_of_lt (by omega) (by norm_num; omega),
    appendInt_of_lt (by omega) (by norm_num; omega),
    appendInt_of_lt c5 (by norm_num; omega), appendInt_of_lt c7 (by norm_num; omega),
    appendInt_of_lt c9 (by norm_num; omega), hz]
  simp only [digitsOf_four, digitsOf_two, List.cons_append, List.nil_append, List.append_assoc,
    parseRFC3339]
  rw [parseUint_quad hy0 (by omega) 0 9999 hy0 hy1]
  simp only [Option.bind_some, Option.some_bind]
  rw [parseUint_pair (by omega) (by omega) 1 12 c1 c2]
  simp only [Option.bind_some, Option.some_bind]
  rw [parseUint_pair (by omega) (by omega) 1 _ c3 c4]
  simp only [Option.bind_some, Option.some_bind]
  rw [parseUint_pair c5 (by omega) 0 23 c5 c6]
  simp only [Option.bind_some, Option.some_bind]
  rw [parseUint_pair c7 (by omega) 0 59 c7 c8]
  simp only [Option.bind_some, Option.some_bind]
  rw [parseUint_pair c9 (by omega) 0 59 c9 c10]
  simp only [Option.bind_some, Option.some_bind, and_self, if_true, hfrac, hzone,
    Option.map_some', hdate]
  congr 1
  omega

theorem toNat_ofNat_byte {n : Nat} (h : n < 256) : (UInt8.ofNat n).toNat = n :=
  UInt8.toNat_ofNat_of_lt h

theorem char_scalar (c : Char) : c.toNat < 0xD800 ∨ (0xDFFF < c.toNat ∧ c.toNat < 0x110000) :=
  c.valid

theorem AppendRune_length_pos (c : Char) : 0 < (AppendRune c).length := by
  unfold AppendRune
  simp only
  split_ifs <;> simp

theorem DecodeRune_AppendRune (c : Char) (rest : List UInt8) :
    DecodeRune (AppendRune c ++ rest) = (c, (AppendRune c).length) := by
  obtain ⟨v, hv⟩ : ∃ v, v = c.toNat := ⟨_, rfl⟩
  have hc : Char.ofNat v = c := by rw [hv]; exact Char.ofNat_toNat c
  have hvalid := char_scalar c
  rw [← hv] at hvalid
  unfold AppendRune
  simp only [← hv]
  by_cases h1 : v ≤ 0x7F
  · rw [if_pos h1]
    simp only [List.singleton_append, DecodeRune, toNat_ofNat_byte (show v < 256 by omega)]
    rw [if_pos (by omega), hc]
    rfl
  · rw [if_neg h1]
    by_cases h2 : v ≤ 0x7FF
    · rw [if_pos h2]
      simp only [List.cons_append, List.nil_append, DecodeRune,
        toNat_ofNat_byte (show 0xC0 + v / 64 < 256 by omega),
        toNat_ofNat_byte (show 0x80 + v % 64 < 256 by omega)]
      rw [if_neg (by omega), if_neg (by omega), if_pos (by omega), if_pos (by omega)]
      have e : (0xC0 + v / 64 - 0xC0) * 64 + (0x80 + v % 64 - 0x80) = v := by omega
      rw [e, hc]
      rfl
    · rw [if_neg h2]
      by_cases h3 : v ≤ 0xFFFF
      · rw [if_pos h3]
        simp only [List.cons_append, List.nil_append, DecodeRune,
          toNat_ofNat_byte (show 0xE0 + v / 4096 < 256 by omega),
          toNat_ofNat_byte (show 0x80 + v / 64 % 64 < 256 by omega),
          toNat_ofNat_byte (show 0x80 + v % 64 < 256 by omega)]
        rw [if_neg (by omega), if_neg (by omega), if_neg (by omega), if_pos (by omega),
          if_pos (by split_ifs <;> omega)]
        have e : (0xE0 + v / 4096 - 0xE0) * 4096 + (0x80 + v / 64 % 64 - 0x80) * 64 +
            (0x80 + v % 64 - 0x80) = v := by omega
        rw [e, hc]
        rfl
      · rw [if_neg h3]
        simp only [List.cons_append, List.nil_append, DecodeRune,
          toNat_ofNat_byte (show 0xF0 + v / 262144 < 256 by omega),
          toNat_ofNat_byte (show 0x80 + v / 4096 % 64 < 256 by omega),
          toNat_ofNat_byte (show 0x80 + v / 64 % 64 < 256 by omega),
          toNat_ofNat_byte (show 0x80 + v % 64 < 256 by omega)]
        rw [if_neg (by omega), if_neg (by omega), if_neg (by omega), if_neg (by omega),
          if_pos (by omega), if_pos (by split_ifs <;> omega)]
        have e : (0xF0 + v / 262144 - 0xF0) * 262144 + (0x80 + v / 4096 % 64 - 0x80) * 4096 +
            (0x80 + v / 64 % 64 - 0x80) * 64 + (0x80 + v % 64 - 0x80) = v := by omega
        rw [e, hc]
        rfl

theorem runesLoop_utf8 (s : List Char) :
    ∀ fuel, (utf8 s).length ≤ fuel → runesLoop fuel (utf8 s) = s := by
  induction s with
  | nil =>
    intro fuel _
    cases fuel <;> rfl
  | cons c rest ih =>
    intro fuel hfuel
    have hpos := AppendRune_length_pos c
    simp only [utf8, List.length_append] at hfuel
    cases fuel with
    | zero => omega
    | succ k =>
      simp only [utf8]
      cases hA : AppendRune c with
      | nil => rw [hA] at hpos; simp at hpos
      | cons b bs =>
        have hdec := DecodeRune_AppendRune c (utf8 rest)
        rw [hA] at hdec hfuel
        simp only [List.cons_append] at hdec ⊢
        simp only [runesLoop, hdec]
        have hdrop : List.drop (b :: bs).length (b :: (bs ++ utf8 rest)) = utf8 rest := by
          rw [← List.cons_append]
          exact List.drop_left _ _
        rw [hdrop, ih k (by simp at hfuel; omega)]

theorem jsonString_goString (s : String) : jsonString (goString s) = s := by
  unfold jsonString goString
  rw [runesLoop_utf8 s.data _ (le_refl _)]

theorem goString_eq_nil {s : String} : goString s = [] ↔ s = "" := by
  constructor
  · intro h
    have := jsonString_goString s
    rw [h] at this
    rw [← this]
    rfl
  · intro h
    rw [h]
    rfl

/-- What `Time.MarshalJSON` writes, `Time.UnmarshalJSON` reads back as the same
instant, when the offset of the zone is a whole number of minutes. -/
theorem goTime_round_trip {offset t : Int} {text : String}
    (h : MarshalJSON offset t = .ok text) (hm : offset % 60 = 0) :
    text = (goTime offset).format t ∧
    (goTime offset).parse ((goTime offset).format t) = some t ∧
    UnmarshalJSON text = .ok t := by
  unfold MarshalJSON at h
  split_ifs at h with h1 h2
  have htext : text = String.mk (appendFormatRFC3339 offset t) := (Except.ok.inj h).symm
  have hparse := parseRFC3339_appendFormatRFC3339 offset t (by omega) (by omega) (by omega)
    (by omega) hm
  refine ⟨?_, ?_, ?_⟩
  · rw [htext]
    simp only [goTime]
  · simp only [goTime]
    exact hparse
  · rw [htext]
    simp only [UnmarshalJSON, hparse]

theorem toGo_toText (c : StoredCredentials) : c.toGo.toText = c := by
  obtain ⟨a, r, t, e⟩ := c
  simp [StoredCredentials.toGo, GoCredentials.toText, jsonString_goString]

/-! ## Claims -/

/-- C1 (as amended). In every run in which every token request the poller sends is
answered with `authorization_pending`, the request sent once `expires_in` seconds
have elapsed (after a wait that began before the deadline) included, `pollForToken`
never returns a grant; and when the requests can be sent and the context is not
cancelled, it returns the error "authentication timed out", in a state whose clock
has reached the deadline `now + expires_in` seconds. -/
theorem C1_pending_until_deadline_times_out (env : Env) (now : Int)
    (deviceAuth : DeviceAuthResponse)
    (hpending : ∀ k, (env.doResult k).errorCode = some "authorization_pending") :
    (∀ fuel g s, pollForToken env now deviceAuth fuel ≠ some (.ok g, s)) ∧
    (env.ctx.doneAt = none → env.newRequestErr = none →
      ∃ fuel s, s.deadline = timeAdd now (secondsDuration deviceAuth.ExpiresIn) ∧
        s.deadline ≤ s.now ∧
        ∀ k, pollForToken env now deviceAuth (fuel + k) =
          some (.error (.errorf "authentication timed out"), s)) := by
  constructor
  · intro fuel g s h
    obtain ⟨k, status, body, hres, hg, he⟩ := pollLoop_ok_inv env fuel _ s g h
    have hk := hpending k
    rw [hres] at hk
    simp only [HttpResult.errorCode, hg, he] at hk
    simp at hk
  · intro hctx hreq
    have hpos : 0 < (pollInit now deviceAuth).interval := by
      have := pollInit_interval_pos now deviceAuth
      omega
    obtain ⟨fuel, s1, h1, h2, h3⟩ := pending_terminates env hctx hreq hpending
      ((pollInit now deviceAuth).deadline - (pollInit now deviceAuth).now).toNat
      (pollInit now deviceAuth) hpos (Int.self_le_toNat _)
    exact ⟨fuel, s1, by rw [h2]; rfl, h3, fun k => pollLoop_mono env fuel _ _ h1 k⟩

/-- C1 as amended, at the challenge (5, 30) with a provider that never authorizes. -/
theorem C1_witness :
    (∀ k, (pendingEnv.doResult k).errorCode = some "authorization_pending") ∧
    ∃ fuel s, s.deadline = timeAdd 0 (secondsDuration 30) ∧ s.deadline ≤ s.now ∧
      ∀ k, pollForToken pendingEnv 0 (challenge 5 30) (fuel + k) =
        some (.error (.errorf "authentication timed out"), s) :=
  ⟨fun _ => rfl,
    (C1_pending_until_deadline_times_out pendingEnv 0 (challenge 5 30) (fun _ => rfl)).2 rfl rfl⟩

/-- C1 fails as stated: with the challenge (5, 30), the five token requests sent
before 30 seconds have elapsed (at 5, 10, 15, 20 and 25 s) are all answered with
`authorization_pending`; the loop test at 25 s passes, the sixth request is sent at
30 s, the deadline, it is answered with a grant, and `pollForToken` returns that grant
and not the timeout. -/
theorem C1_counterexample :
    (pollInit 0 (challenge 5 30)).deadline = 30000000000 ∧
    (∀ k, k < 5 → (lateGrantEnv.doResult k).errorCode = some "authorization_pending") ∧
    (pollForToken lateGrantEnv 0 (challenge 5 30) 6).map
        (fun x => (x.1, x.2.log.map fun p => p.sentAt)) =
      some (.ok grant3600,
        [5000000000, 10000000000, 15000000000, 20000000000, 25000000000, 30000000000]) := by
  refine ⟨by decide, ?_, rfl⟩
  intro k hk
  interval_cases k <;> rfl

/-- C2 (as amended). In every state of every run, if a logged token request was
answered with `slow_down`, and no increase of the interval in the log overflows
`int64` nanoseconds, then the wait before the next request is the wait before this one
plus exactly five seconds, no later request is preceded by a shorter wait than that,
and the current interval is not shorter either. -/
theorem C2_slow_down_adds_five_seconds (env : Env) (now : Int) (deviceAuth : DeviceAuthResponse)
    (s : PollState) (hrun : InRun env now deviceAuth s)
    (hfit : ∀ p ∈ s.log, p.outcome.errorCode = some "slow_down" →
      p.wait + 5 * Second ≤ maxInt64)
    (k : Nat) (p : Poll) (hp : s.log[k]? = some p)
    (hslow : p.outcome.errorCode = some "slow_down") :
    (∀ q, s.log[k + 1]? = some q → q.wait = p.wait + 5 * Second) ∧
    (∀ j q, k < j → s.log[j]? = some q → p.wait + 5 * Second ≤ q.wait) ∧
    p.wait + 5 * Second ≤ s.interval := by
  obtain ⟨hchain, hlast, _, hwaits⟩ := inRun_waitsFollow env now deviceAuth s hrun
  have hpmem : p ∈ s.log := List.getElem?_mem hp
  have hklen : k < s.log.length := (List.getElem?_eq_some.mp hp).1
  have hnext : nextWait p = p.wait + 5 * Second := by
    rw [nextWait_of_no_overflow p (hwaits p hpmem) (hfit p hpmem)]
    simp [hslow]
  have part1 : ∀ q, s.log[k + 1]? = some q → q.wait = p.wait + 5 * Second := by
    intro q hq
    rw [hchain k p q hp hq, hnext]
  have part2 : ∀ j q, k < j → s.log[j]? = some q → p.wait + 5 * Second ≤ q.wait := by
    intro j q hkj hq
    have hjlen : j < s.log.length := (List.getElem?_eq_some.mp hq).1
    have hk1 : k + 1 < s.log.length := by omega
    obtain ⟨q1, hq1⟩ : ∃ q1, s.log[k + 1]? = some q1 :=
      ⟨s.log[k + 1], List.getElem?_eq_getElem hk1⟩
    have e : j = (k + 1) + (j - (k + 1)) := by omega
    rw [e] at hq
    have hmono := waits_monotone s.log hchain hwaits hfit (j - (k + 1)) (k + 1) q1 q hq1 hq
    rw [part1 q1 hq1] at hmono
    exact hmono
  refine ⟨part1, part2, ?_⟩
  have hl1 : s.log.length - 1 < s.log.length := by omega
  obtain ⟨l, hl⟩ : ∃ l, s.log[s.log.length - 1]? = some l :=
    ⟨s.log[s.log.length - 1], List.getElem?_eq_getElem hl1⟩
  have hint : s.interval = nextWait l := hlast l (by rw [List.getLast?_eq_getElem?]; exact hl)
  have hlmem : l ∈ s.log := List.getElem?_mem hl
  by_cases hkl : k = s.log.length - 1
  · rw [← hkl, hp] at hl
    have : p = l := by simpa using hl
    rw [hint, ← this, hnext]
  · have h1 := part2 (s.log.length - 1) l (by omega) hl
    have h2 := nextWait_of_no_overflow l (hwaits l hlmem) (hfit l hlmem)
    have hs : (5 : Int) * Second = 5000000000 := by decide
    rw [hint, h2]
    rw [hs] at h1 ⊢
    split_ifs <;> omega

/-- C2, at a run whose second poll is answered with `slow_down`: the third poll is
preceded by a wait of ten seconds. -/
theorem C2_witness :
    InRun slowDownEnv 0 (challenge 3 60) slowDownState ∧
    slowDownState.log[1]? =
      some ⟨5000000000, 10000000000, .response 400 (errorBody "slow_down" "")⟩ ∧
    (∀ q, slowDownState.log[1 + 1]? = some q → q.wait = 5000000000 + 5 * Second) ∧
    (5000000000 : Int) + 5 * Second ≤ slowDownState.interval :=
  have hrun : InRun slowDownEnv 0 (challenge 3 60) slowDownState := Or.inl ⟨3, rfl⟩
  have h := C2_slow_down_adds_five_seconds slowDownEnv 0 (challenge 3 60) slowDownState hrun
    (by decide) 1 ⟨5000000000, 10000000000, .response 400 (errorBody "slow_down" "")⟩ rfl rfl
  ⟨hrun, rfl, h.1, h.2.2⟩

/-- C2 fails as stated: with interval 9223372035 and expires_in 9223372036, the first
poll is answered with `slow_down` and the second poll is preceded by a negative wait,
not by the first wait plus five seconds. -/
theorem C2_counterexample :
    (pollForToken overflowEnv 0 (challenge 9223372035 9223372036) 2).map
        (fun x => x.2.log.map fun p => (p.wait, p.outcome.errorCode)) =
      some [(9223372035000000000, some "slow_down"),
        (-9223372033709551616, some "access_denied")] ∧
    (-9223372033709551616 : Int) ≠ 9223372035000000000 + 5 * Second := by
  constructor
  · rfl
  · decide

/-- C3. When the token response of an iteration decodes with an empty `error` member,
`pollForToken` returns exactly the decoded grant, with no error, at that iteration:
the log of token requests ends with this request. For a body that decodes without
error the grant is the decoded object itself, member by member. -/
theorem C3_empty_error_returns_grant (env : Env) (now : Int) (deviceAuth : DeviceAuthResponse)
    (n fuel : Nat) (s : PollState) (t : Int) (status : Nat) (body : Body)
    (hreach : pollAfter env n (pollInit now deviceAuth) = some s)
    (hpoll : Polls env s t (.response status body))
    (hempty : (Decode body).1.Error = "") :
    pollForToken env now deviceAuth (n + (fuel + 1)) =
        some (.ok (Decode body).1, afterRequest env s t) ∧
      (afterRequest env s t).log = s.log ++ [⟨s.interval, t, .response status body⟩] ∧
      ∀ g, body = .object g → (Decode body).1 = g := by
  refine ⟨?_, ?_, ?_⟩
  · unfold pollForToken
    rw [pollLoop_after env n _ s hreach, pollLoop_succ, pollStep_of_polls hpoll]
    simp [hempty]
  · simp [afterRequest, hpoll.2.2.2]
  · intro g hg; subst hg; rfl

/-- C3, at the challenge (5, 30) with four pending polls and then a grant. -/
theorem C3_witness :
    pollAfter grantEnv 4 (pollInit 0 (challenge 5 30)) = some grantState ∧
    pollForToken grantEnv 0 (challenge 5 30) 5 =
      some (.ok grant3600, afterRequest grantEnv grantState 25000000000) :=
  ⟨rfl, (C3_empty_error_returns_grant grantEnv 0 (challenge 5 30) 4 0 grantState 25000000000
    200 (.object grant3600) rfl ⟨by decide, rfl, rfl, rfl⟩ rfl).1⟩

/-- C4. When the token response of an iteration carries a non-empty `error` code that
is neither `authorization_pending` nor `slow_down`, `pollForToken` returns at that
iteration (the log of token requests ends with this request) with an error whose
message is "device code expired" for `expired_token`, "access denied by user" for
`access_denied`, and otherwise the code, ": " and the description, verbatim. -/
theorem C4_terminal_provider_error (env : Env) (now : Int) (deviceAuth : DeviceAuthResponse)
    (n fuel : Nat) (s : PollState) (t : Int) (status : Nat) (body : Body)
    (hreach : pollAfter env n (pollInit now deviceAuth) = some s)
    (hpoll : Polls env s t (.response status body))
    (hne : (Decode body).1.Error ≠ "")
    (hpending : (Decode body).1.Error ≠ "authorization_pending")
    (hslow : (Decode body).1.Error ≠ "slow_down") :
    ∃ msg, pollForToken env now deviceAuth (n + (fuel + 1)) =
        some (.error (.errorf msg), afterRequest env s t) ∧
      (afterRequest env s t).log = s.log ++ [⟨s.interval, t, .response status body⟩] ∧
      ((Decode body).1.Error = "expired_token" → msg = "device code expired") ∧
      ((Decode body).1.Error = "access_denied" → msg = "access denied by user") ∧
      ((Decode body).1.Error ≠ "expired_token" → (Decode body).1.Error ≠ "access_denied" →
        msg = (Decode body).1.Error ++ ": " ++ (Decode body).1.ErrorDesc) := by
  have hrun : pollForToken env now deviceAuth (n + (fuel + 1)) =
      some (.error (providerError (Decode body).1.Error (Decode body).1.ErrorDesc),
        afterRequest env s t) := by
    unfold pollForToken
    rw [pollLoop_after env n _ s hreach, pollLoop_succ, pollStep_of_polls hpoll]
    simp [hne, hpending, hslow]
  have hlog : (afterRequest env s t).log = s.log ++ [⟨s.interval, t, .response status body⟩] := by
    simp [afterRequest, hpoll.2.2.2]
  by_cases h1 : (Decode body).1.Error = "expired_token"
  · refine ⟨"device code expired", ?_, hlog, fun _ => rfl, ?_, fun h => absurd h1 h⟩
    · rw [hrun]; simp [providerError, h1]
    · intro h2; rw [h1] at h2; simp at h2
  · by_cases h2 : (Decode body).1.Error = "access_denied"
    · refine ⟨"access denied by user", ?_, hlog, fun h => absurd h h1, fun _ => rfl,
        fun _ h => absurd h2 h⟩
      rw [hrun]; simp [providerError, h2]
    · refine ⟨(Decode body).1.Error ++ ": " ++ (Decode body).1.ErrorDesc, ?_, hlog,
        fun h => absurd h h1, fun h => absurd h h2, fun _ _ => rfl⟩
      rw [hrun]; simp [providerError, h1, h2]

/-- C4, at a first poll answered with `access_denied`. -/
theorem C4_witness :
    ∃ msg, pollForToken deniedEnv 0 (challenge 5 30) 1 =
        some (.error (.errorf msg),
          afterRequest deniedEnv (pollInit 0 (challenge 5 30)) 5000000000) ∧
      msg = "access denied by user" := by
  obtain ⟨msg, h1, _, _, h3, _⟩ := C4_terminal_provider_error deniedEnv 0 (challenge 5 30) 0 0
    (pollInit 0 (challenge 5 30)) 5000000000 400 (errorBody "access_denied" "") rfl
    ⟨by decide, rfl, rfl, rfl⟩ (by decide) (by decide) (by decide)
  exact ⟨msg, h1, h3 rfl⟩

/-- C5. For a token response that is not JSON, `Decode` returns an error, and yet
`pollForToken` returns a grant (the zero value) with no error, and `runLogin` stores a
credential with an empty access token from it. -/
theorem C5_undecodable_body_is_success :
    (Body.notJSON "<html>502 Bad Gateway</html>").decodable = false ∧
    (pollForToken badGatewayEnv 0 (challenge 5 30) 1).map (fun x => x.1) =
      some (.ok TokenResponse.zero) ∧
    pollAndSave badGatewayEnv noFaults .absent 0 (challenge 5 30) 1 =
      some (none, .holds
        { AccessToken := "", RefreshToken := "", ExpiresAt := 5000000000, Email := "" }) := by
  refine ⟨rfl, rfl, rfl⟩

/-- C6. When the token request of an iteration fails at transport level, the loop goes
on to its next iteration with the interval and the deadline unchanged; and whatever
the run returns, it is not the error of that attempt: the run ends with a grant, an
error for a provider error code, the context error or the timeout. -/
theorem C6_transport_failure_absorbed (env : Env) (now : Int) (deviceAuth : DeviceAuthResponse)
    (n : Nat) (s : PollState) (t : Int) (msg : String)
    (hreach : pollAfter env n (pollInit now deviceAuth) = some s)
    (hpoll : Polls env s t (.transportError msg)) :
    pollStep env s = .next (afterRequest env s t) ∧
    pollAfter env (n + 1) (pollInit now deviceAuth) = some (afterRequest env s t) ∧
    (afterRequest env s t).interval = s.interval ∧
    (afterRequest env s t).deadline = s.deadline ∧
    ∀ fuel r s1, pollForToken env now deviceAuth fuel = some (r, s1) →
      r ≠ .error (.url msg) ∧
      ((∃ g, g.Error = "" ∧ r = .ok g) ∨
        (∃ code desc, code ≠ "" ∧ code ≠ "authorization_pending" ∧ code ≠ "slow_down" ∧
          r = .error (providerError code desc)) ∨
        r = .error (.context env.ctx.err) ∨
        r = .error (.errorf "authentication timed out")) := by
  have hstep : pollStep env s = .next (afterRequest env s t) := by
    rw [pollStep_of_polls hpoll]
  refine ⟨hstep, pollAfter_snoc env n _ s _ hreach hstep, rfl, rfl, ?_⟩
  intro fuel r s1 hrun
  have hcases := pollLoop_result_cases env fuel _ s1 r hrun
  have hend : (∃ g, g.Error = "" ∧ r = .ok g) ∨
      (∃ code desc, code ≠ "" ∧ code ≠ "authorization_pending" ∧ code ≠ "slow_down" ∧
        r = .error (providerError code desc)) ∨
      r = .error (.context env.ctx.err) ∨
      r = .error (.errorf "authentication timed out") := by
    rcases hcases with h | h | h | h | ⟨m, hm, _⟩
    · exact Or.inl h
    · exact Or.inr (Or.inl h)
    · exact Or.inr (Or.inr (Or.inl h))
    · exact Or.inr (Or.inr (Or.inr h))
    · rw [hpoll.2.2.1] at hm; simp at hm
  refine ⟨?_, hend⟩
  rcases hend with ⟨g, _, h⟩ | ⟨code, desc, _, _, _, h⟩ | h | h
  · rw [h]; simp
  · rw [h]; intro hc
    exact providerError_ne_url code desc msg (by simpa using hc)
  · rw [h]; simp
  · rw [h]; simp

/-- C6, at a first request that fails at transport level. -/
theorem C6_witness :
    Polls flakyEnv (pollInit 0 (challenge 5 30)) 5000000000
      (.transportError "dial tcp: connection refused") ∧
    pollAfter flakyEnv 1 (pollInit 0 (challenge 5 30)) =
      some (afterRequest flakyEnv (pollInit 0 (challenge 5 30)) 5000000000) ∧
    ∀ fuel r s1, pollForToken flakyEnv 0 (challenge 5 30) fuel = some (r, s1) →
      r ≠ .error (.url "dial tcp: connection refused") :=
  have hp : Polls flakyEnv (pollInit 0 (challenge 5 30)) 5000000000
      (.transportError "dial tcp: connection refused") := ⟨by decide, rfl, rfl, rfl⟩
  have h := C6_transport_failure_absorbed flakyEnv 0 (challenge 5 30) 0
    (pollInit 0 (challenge 5 30)) 5000000000 "dial tcp: connection refused" rfl hp
  ⟨hp, h.2.1, fun fuel r s1 hr => (h.2.2.2.2 fuel r s1 hr).1⟩

/-- C7. If the context is done before the timer of an inter-poll wait is due,
`pollForToken` returns the context error from that wait without sending a request:
the log of token requests is the one it had when the wait began, and no request in
it was sent after the instant at which the context was done. -/
theorem C7_cancelled_wait_returns_ctx_error (env : Env) (now : Int)
    (deviceAuth : DeviceAuthResponse) (n fuel : Nat) (s : PollState) (c : Int)
    (hreach : pollAfter env n (pollInit now deviceAuth) = some s)
    (hloop : s.now < s.deadline)
    (hdone : env.ctx.doneAt = some c)
    (hwait : c < timerAt env s) :
    ∃ s1, pollForToken env now deviceAuth (n + (fuel + 1)) =
        some (.error (.context env.ctx.err), s1) ∧
      s1.log = s.log ∧ s1.log.length = s.log.length ∧ ∀ p ∈ s1.log, p.sentAt ≤ c := by
  have hsel : selectWait env s = .done (max c s.now) := by
    simp [selectWait, hdone, hwait]
  have hstep : pollStep env s = .ret (.error (.context env.ctx.err))
      { s with now := max c s.now } := by
    unfold pollStep
    simp [timeBefore, hloop, hsel]
  refine ⟨{ s with now := max c s.now }, ?_, rfl, rfl, ?_⟩
  · unfold pollForToken
    rw [pollLoop_after env n _ s hreach, pollLoop_succ, hstep]
  · exact log_sent_before_done env now deviceAuth c hdone s (Or.inl ⟨n, hreach⟩)

/-- C7, at a context cancelled two seconds into the first wait of five. -/
theorem C7_witness :
    cancelledEnv.ctx.doneAt = some 2000000000 ∧
    (2000000000 : Int) < timerAt cancelledEnv (pollInit 0 (challenge 5 30)) ∧
    ∃ s1, pollForToken cancelledEnv 0 (challenge 5 30) 1 =
        some (.error (.context .Canceled), s1) ∧ s1.log = [] :=
  have h := C7_cancelled_wait_returns_ctx_error cancelledEnv 0 (challenge 5 30) 0 0
    (pollInit 0 (challenge 5 30)) 2000000000 rfl (by decide) rfl (by decide)
  ⟨rfl, by decide, h.elim fun s1 hs => ⟨s1, hs.1, hs.2.1⟩⟩

/-- C8 (as amended). In every state of every run, for a challenge interval `i` of at
least -9223372036 seconds and as long as `max(i, 5)` plus five times the number of
`slow_down` responses so far is at most 9223372036 seconds (no duration overflows
`int64` nanoseconds), the interval is `max(i, 5)` seconds plus five seconds per
`slow_down` response so far; so it is at least five seconds and not shorter than in
any earlier state of the run. An iteration that goes on after anything but a
`slow_down` leaves the interval unchanged. -/
theorem C8_interval_is_floor_plus_slow_downs (env : Env) (now : Int)
    (deviceAuth : DeviceAuthResponse) (s : PollState) (hrun : InRun env now deviceAuth s)
    (hlo : -9223372036 ≤ deviceAuth.Interval)
    (hfit : max deviceAuth.Interval 5 + 5 * (slowDowns s.log : Int) ≤ 9223372036) :
    s.interval = (max deviceAuth.Interval 5 + 5 * (slowDowns s.log : Int)) * Second ∧
    5 * Second ≤ s.interval ∧
    (∀ s0, InRun env now deviceAuth s0 → s0.log <+: s.log → s0.interval ≤ s.interval) ∧
    (∀ s1, pollStep env s = .next s1 →
      (env.doResult s.iter).errorCode ≠ some "slow_down" → s1.interval = s.interval) := by
  have hs : Second = 1000000000 := rfl
  have hmax5 : (5 : Int) ≤ max deviceAuth.Interval 5 := le_max_right _ _
  have hint := inRun_interval env now deviceAuth hlo s hrun hfit
  refine ⟨hint, ?_, ?_, ?_⟩
  · rw [hint, hs]; omega
  · intro s0 hrun0 hpre
    have hsd : (slowDowns s0.log : Int) ≤ (slowDowns s.log : Int) := by
      exact_mod_cast slowDowns_mono hpre
    have hint0 := inRun_interval env now deviceAuth hlo s0 hrun0 (by omega)
    rw [hint, hint0, hs]; omega
  · intro s1 hstep hne
    obtain ⟨t, _, h1 | h1⟩ := pollStep_next_cases hstep
    · rw [h1.2]; rfl
    · exact absurd h1.1 hne

/-- C8, at the challenge interval 3 after one `slow_down`: the interval is ten
seconds. -/
theorem C8_witness :
    InRun slowDownEnv 0 (challenge 3 60) slowDownState ∧
    slowDownState.interval = (max 3 5 + 5 * ((1 : Nat) : Int)) * Second :=
  have hrun : InRun slowDownEnv 0 (challenge 3 60) slowDownState := Or.inl ⟨3, rfl⟩
  ⟨hrun, (C8_interval_is_floor_plus_slow_downs slowDownEnv 0 (challenge 3 60) slowDownState
    hrun (by decide) (by decide)).1⟩

/-- C8 fails as stated: for the challenge interval 9223372037 the poller starts with an
interval of five seconds, not of `max(9223372037, 5)` seconds. -/
theorem C8_counterexample :
    InRun pendingEnv 0 (challenge 9223372037 30) (pollInit 0 (challenge 9223372037 30)) ∧
    (pollInit 0 (challenge 9223372037 30)).interval = 5 * Second ∧
    (pollInit 0 (challenge 9223372037 30)).interval ≠
      (max 9223372037 5 +
        5 * (slowDowns (pollInit 0 (challenge 9223372037 30)).log : Int)) * Second :=
  ⟨Or.inl ⟨0, rfl⟩, by decide, by decide⟩

/-- C9 (as amended). For every stored credential with a non-empty access token and
every instant `now`, `GetAccessToken` returns the access token if and only if `now`
is not after `expires_at`, and the empty string otherwise; at `now = expires_at` it
returns the access token. -/
theorem C9_token_iff_not_after_expiry (c : StoredCredentials) (now : Int)
    (hne : c.AccessToken ≠ "") :
    (GetAccessToken (.holds c) now = c.AccessToken ↔ now ≤ c.ExpiresAt) ∧
    (¬ now ≤ c.ExpiresAt → GetAccessToken (.holds c) now = "") ∧
    GetAccessToken (.holds c) c.ExpiresAt = c.AccessToken := by
  rw [GetAccessToken_holds, GetAccessToken_holds]
  refine ⟨?_, ?_, ?_⟩
  · constructor
    · intro h
      by_contra hc
      rw [if_pos (not_le.mp hc)] at h
      exact hne h.symm
    · intro h
      rw [if_neg (not_lt.mpr h)]
  · intro h
    rw [if_pos (not_le.mp h)]
  · rw [if_neg (lt_irrefl _)]

/-- C9, at a credential that expires at instant 100, read at instant 99. -/
theorem C9_witness :
    cred100.AccessToken ≠ "" ∧ GetAccessToken (.holds cred100) 99 = cred100.AccessToken :=
  ⟨by decide,
    (C9_token_iff_not_after_expiry cred100 99 (by decide)).1.mpr (by decide)⟩

/-- C9 fails as stated: at `now = expires_at` the access token is returned, although
`now < expires_at` does not hold. -/
theorem C9_counterexample :
    cred100.AccessToken ≠ "" ∧
    ¬ (GetAccessToken (.holds cred100) 100 = cred100.AccessToken ↔
      (100 : Int) < cred100.ExpiresAt) := by
  decide

/-- C10 (as amended). A credential that `runLogin` builds at instant `T` from a grant
with `expires_in = n`, for `n` between -9223372036 and 9223372036 (so that `n` seconds
fit a `time.Duration`), and saves without error, makes `GetAccessToken` return its
access token at every instant before `T + n` seconds, and the empty string at every
instant after `T + n` seconds. -/
theorem C10_valid_before_invalid_after (T : Int) (token : TokenResponse)
    (faults : SaveFaults) (file file1 : CredentialsFile)
    (hlo : -9223372036 ≤ token.ExpiresIn) (hhi : token.ExpiresIn ≤ 9223372036)
    (hsave : saveCredentials faults file (newCredentials T token) = (none, file1)) :
    ∀ now : Int,
      (now < T + token.ExpiresIn * Second → GetAccessToken file1 now = token.AccessToken) ∧
      (T + token.ExpiresIn * Second < now → GetAccessToken file1 now = "") := by
  intro now
  rw [saveCredentials_ok hsave, GetAccessToken_holds]
  have he : (newCredentials T token).ExpiresAt = T + token.ExpiresIn * Second := by
    simp [newCredentials, timeAdd, secondsDuration_of_bounds hlo hhi]
  rw [he]
  constructor
  · intro h
    rw [if_neg (by omega)]
    rfl
  · intro h
    rw [if_pos h]

/-- C10, at `expires_in = 3600` and `T = 0`: valid at 3599 s, invalid at 3601 s. -/
theorem C10_witness :
    GetAccessToken (.holds (newCredentials 0 grant3600)) (3599 * Second) = "access-123" ∧
    GetAccessToken (.holds (newCredentials 0 grant3600)) (3601 * Second) = "" :=
  have h := C10_valid_before_invalid_after 0 grant3600 noFaults .absent
    (.holds (newCredentials 0 grant3600)) (by decide) (by decide) rfl
  ⟨(h (3599 * Second)).1 (by decide), (h (3601 * Second)).2 (by decide)⟩

/-- C10 fails as stated: a credential built at instant 0 from a grant with
`expires_in = 9223372037` is already invalid one second later, long before
`0 + 9223372037` seconds. -/
theorem C10_counterexample :
    (1 * Second : Int) < 0 + grantHuge.ExpiresIn * Second ∧
    saveCredentials noFaults .absent (newCredentials 0 grantHuge) =
      (none, .holds (newCredentials 0 grantHuge)) ∧
    GetAccessToken (.holds (newCredentials 0 grantHuge)) (1 * Second) = "" ∧
    GetAccessToken (.holds (newCredentials 0 grantHuge)) (1 * Second) ≠
      grantHuge.AccessToken := by
  refine ⟨by decide, rfl, rfl, by decide⟩

/-- C11 (as amended). `runWhoami` is a three-way function of the store and the clock:
if loading the credential fails it reports "Not authenticated"; else if `now` is
after `expires_at` it reports "Session expired"; else (also at `now = expires_at`) it
reports the authenticated status with the expiry. In every case it returns no
error. -/
theorem C11_whoami_three_way (rfc3339 : Int → String) (file : CredentialsFile) (now : Int) :
    (runWhoami rfc3339 file now).2 = none ∧
    (∀ e, loadCredentials file = .error e →
      (runWhoami rfc3339 file now).1 = notAuthenticated) ∧
    (∀ c, loadCredentials file = .ok c → c.ExpiresAt < now →
      (runWhoami rfc3339 file now).1 = sessionExpired) ∧
    (∀ c, loadCredentials file = .ok c → now ≤ c.ExpiresAt →
      (runWhoami rfc3339 file now).1 = authenticated rfc3339 c) := by
  refine ⟨?_, ?_, ?_, ?_⟩
  · cases h : loadCredentials file with
    | error e => rw [runWhoami_of_error rfc3339 file now e h]
    | ok c => rw [runWhoami_of_ok rfc3339 file now c h]; split_ifs <;> rfl
  · intro e h
    rw [runWhoami_of_error rfc3339 file now e h]
  · intro c h hlt
    rw [runWhoami_of_ok rfc3339 file now c h, if_pos hlt]
  · intro c h hle
    rw [runWhoami_of_ok rfc3339 file now c h, if_neg (not_lt.mpr hle)]

/-- C11, at a credential that expires at instant 100: the three reports, for a file
that is absent, at instant 101 and at instant 99. -/
theorem C11_witness :
    (runWhoami stamp .absent 99).1 = notAuthenticated ∧
    (runWhoami stamp (.holds cred100) 101).1 = sessionExpired ∧
    (runWhoami stamp (.holds cred100) 99).1 = authenticated stamp cred100 :=
  ⟨(C11_whoami_three_way stamp .absent 99).2.1 _ rfl,
    (C11_whoami_three_way stamp (.holds cred100) 101).2.2.1 cred100 rfl (by decide),
    (C11_whoami_three_way stamp (.holds cred100) 99).2.2.2 cred100 rfl (by decide)⟩

/-- C11 fails as stated: at `now = expires_at`, where `now >= expires_at` holds,
`runWhoami` reports the authenticated status, not "Session expired". -/
theorem C11_counterexample :
    cred100.ExpiresAt ≤ (100 : Int) ∧
    runWhoami stamp (.holds cred100) 100 =
      ("Authenticated\nExpires: 2025-01-15T12:00:00Z\n", none) ∧
    (runWhoami stamp (.holds cred100) 100).1 ≠ sessionExpired := by
  refine ⟨by decide, rfl, by decide⟩

/-- C12. For every state of the credential file in which no credential can be
loaded (the file is absent, unreadable or does not parse), `GetAccessToken` returns
the empty string and `runWhoami` returns no error with the not-authenticated
report. -/
theorem C12_no_credential_no_error (rfc3339 : Int → String) (file : CredentialsFile)
    (now : Int)
    (h : file = .absent ∨ file = .unreadable ∨ ∃ data, file = .corrupt data) :
    (∃ e, loadCredentials file = .error e) ∧
    GetAccessToken file now = "" ∧
    runWhoami rfc3339 file now = (notAuthenticated, none) := by
  have he : ∃ e, loadCredentials file = .error e := by
    rcases h with h | h | ⟨data, h⟩ <;> rw [h] <;> exact ⟨_, rfl⟩
  obtain ⟨e, he⟩ := he
  exact ⟨⟨e, he⟩, GetAccessToken_of_error file now e he,
    runWhoami_of_error rfc3339 file now e he⟩

/-- C12, with no prior login. -/
theorem C12_witness :
    GetAccessToken .absent 0 = "" ∧ runWhoami stamp .absent 0 = (notAuthenticated, none) :=
  (C12_no_credential_no_error stamp .absent 0 (Or.inl rfl)).2

/-- C13 (as amended). `loadCredentials` fails in all three cases, with the error of the
call that failed: a path error that says the file does not exist for an absent file,
another path error for an unreadable file, and the parse error of `json.Unmarshal`
for a corrupt file. Its callers treat every one of these errors alike:
`GetAccessToken` returns the empty string and `runWhoami` the not-authenticated
report, without an error. -/
theorem C13_load_fails_with_the_underlying_error (rfc3339 : Int → String) (now : Int) :
    (∃ op, loadCredentials .absent = .error (.path op true)) ∧
    (∃ op, loadCredentials .unreadable = .error (.path op false)) ∧
    (∀ data, ∃ msg, loadCredentials (.corrupt data) = .error (.json msg)) ∧
    (∀ file e, loadCredentials file = .error e →
      GetAccessToken file now = "" ∧
      runWhoami rfc3339 file now = (notAuthenticated, none)) :=
  ⟨⟨_, rfl⟩, ⟨_, rfl⟩, fun _ => ⟨_, rfl⟩,
    fun file e h => ⟨GetAccessToken_of_error file now e h,
      runWhoami_of_error rfc3339 file now e h⟩⟩

/-- C13, at a truncated credential file. -/
theorem C13_witness :
    GetAccessToken (.corrupt "not json") 0 = "" ∧
    runWhoami stamp (.corrupt "not json") 0 = (notAuthenticated, none) :=
  (C13_load_fails_with_the_underlying_error stamp 0).2.2.2 (.corrupt "not json") _ rfl

/-- C13 fails as stated: for a corrupt file `loadCredentials` returns the parse error
itself, which is not the error it returns for an absent file, and that one is not
the error it returns for an unreadable file. -/
theorem C13_counterexample :
    loadCredentials (.corrupt "not json") =
      .error (.json "invalid character in not json") ∧
    loadCredentials (.corrupt "not json") ≠ loadCredentials .absent ∧
    loadCredentials .unreadable ≠ loadCredentials .absent := by
  refine ⟨rfl, ?_, ?_⟩ <;> simp [loadCredentials]

/-- C14. `runLogout` on an absent credential file returns no error; whenever it
returns no error the file is absent afterwards; a second `runLogout` (met with the
same answer of the file system) yields the same result and state as the first; and
it returns an error only when the file exists and its removal is refused. -/
theorem C14_logout_idempotent (refusal : Option String) (file : CredentialsFile) :
    (runLogout refusal .absent).err = none ∧
    (runLogout refusal .absent).file = .absent ∧
    ((runLogout refusal file).err = none → (runLogout refusal file).file = .absent) ∧
    runLogout refusal (runLogout refusal file).file = runLogout refusal file ∧
    (∀ e, (runLogout refusal file).err = some e →
      file ≠ .absent ∧ (runLogout refusal file).file = file ∧
      ∃ reason, refusal = some reason ∧
        e = .wrap "failed to remove credentials" (.path ("remove: " ++ reason) false)) := by
  have habs := runLogout_absent refusal
  refine ⟨by rw [habs], by rw [habs], ?_, ?_, ?_⟩
  · by_cases hf : file = .absent
    · intro _; rw [hf, habs]
    · cases refusal with
      | none => intro _; rw [runLogout_removed file hf]
      | some reason => rw [runLogout_refused reason file hf]; simp
  · by_cases hf : file = .absent
    · rw [hf, habs]; exact habs
    · cases refusal with
      | none => rw [runLogout_removed file hf]; exact runLogout_absent none
      | some reason =>
        rw [runLogout_refused reason file hf]
        exact runLogout_refused reason file hf
  · intro e he
    by_cases hf : file = .absent
    · rw [hf, habs] at he; simp at he
    · cases refusal with
      | none => rw [runLogout_removed file hf] at he; simp at he
      | some reason =>
        rw [runLogout_refused reason file hf] at he ⊢
        refine ⟨hf, rfl, reason, rfl, ?_⟩
        simpa using he.symm

/-- C14, at a stored credential whose removal is refused, and at one that is
removed. -/
theorem C14_witness :
    (runLogout (some "permission denied") (.holds cred100)).file = .holds cred100 ∧
    (runLogout none (.holds cred100)).file = .absent ∧
    runLogout none (runLogout none (.holds cred100)).file = runLogout none (.holds cred100) :=
  ⟨((C14_logout_idempotent (some "permission denied") (.holds cred100)).2.2.2.2 _ rfl).2.1,
    (C14_logout_idempotent none (.holds cred100)).2.2.1 rfl,
    (C14_logout_idempotent none (.holds cred100)).2.2.2.1⟩

/-- C15 (as amended). For every credential `c` whose access token, refresh token and
email are valid UTF-8 (the Go strings of the texts of `c`) and whose expiry is
written in a zone with an offset of whole minutes, and whatever the file was before:
after a successful `saveCredentials c`, `loadCredentials` returns `c`. At the level
of the file: `json.Unmarshal` reads what `json.MarshalIndent` wrote (with
`refresh_token` and `email` left out when empty) back as the same bytes for the three
strings and the same instant for the expiry, and this is the state the file is left
in. -/
theorem C15_save_then_load_round_trip (offset : Int) (faults : SaveFaults)
    (file file1 : CredentialsFile) (c : StoredCredentials) (text : String)
    (hminutes : offset % 60 = 0)
    (hexpiry : MarshalJSON offset c.ExpiresAt = .ok text)
    (hsave : saveCredentials faults file c = (none, file1)) :
    loadCredentials file1 = .ok c ∧
    fileWith (goTime offset) (MarshalIndentGo (goTime offset) c.toGo) = file1 ∧
    UnmarshalGo (goTime offset) (MarshalIndentGo (goTime offset) c.toGo) = .ok c.toGo ∧
    Unmarshal (goTime offset) (MarshalIndent (goTime offset) c) = .ok c ∧
    UnmarshalJSON text = .ok c.ExpiresAt := by
  have h1 := saveCredentials_ok hsave
  obtain ⟨_, hparse, hread⟩ := goTime_round_trip hexpiry hminutes
  have h2 := unmarshal_marshalIndent (goTime offset) c hparse
  refine ⟨by rw [h1]; rfl, ?_, ?_, h2, hread⟩
  · rw [h1]
    simp [MarshalIndentGo, toGo_toText, fileWith, h2]
  · simp [UnmarshalGo, MarshalIndentGo, toGo_toText, h2]

/-- C15 as amended, at the credentials of `TestStoredCredentialsSerialization`, saved
in the zone UTC over another credential, and at credentials without refresh token
and email, saved in a zone one hour east of UTC. -/
theorem C15_witness :
    loadCredentials (saveCredentials noFaults (.holds cred100) testCreds).2 = .ok testCreds ∧
    MarshalIndent (goTime 0) testCreds =
      .object [("access_token", .str "test-access-token"),
        ("refresh_token", .str "test-refresh-token"),
        ("expires_at", .str "2025-01-15T12:00:00Z"), ("email", .str "test@example.com")] ∧
    UnmarshalGo (goTime 0) (MarshalIndentGo (goTime 0) testCreds.toGo) = .ok testCreds.toGo ∧
    MarshalIndent (goTime 3600) cred100 =
      .object [("access_token", .str "tok"),
        ("expires_at", .str "1970-01-01T01:00:00.0000001+01:00")] ∧
    Unmarshal (goTime 3600) (MarshalIndent (goTime 3600) cred100) = .ok cred100 :=
  have h := C15_save_then_load_round_trip 0 noFaults (.holds cred100) (.holds testCreds)
    testCreds "2025-01-15T12:00:00Z" (by decide) rfl rfl
  have h1 := C15_save_then_load_round_trip 3600 noFaults .absent (.holds cred100)
    cred100 "1970-01-01T01:00:00.0000001+01:00" (by decide) rfl rfl
  ⟨h.1, rfl, h.2.2.1, rfl, h1.2.2.2.1⟩

/-- C15 fails as stated: for the access token that is the one byte 0xFF, which is
not UTF-8, `json.MarshalIndent` writes U+FFFD and `json.Unmarshal` reads back the
three bytes 0xEF 0xBF 0xBD, not the token that was saved; and an expiry at the
instant 0 in a zone 30 seconds east of UTC is written as
"1970-01-01T00:00:30+00:00", which reads back as the instant 30 s. -/
theorem C15_counterexample :
    UnmarshalGo (goTime 0) (MarshalIndentGo (goTime 0) invalidToken) =
      .ok { invalidToken with AccessToken := [0xEF, 0xBF, 0xBD] } ∧
    invalidToken.AccessToken = [0xFF] ∧
    MarshalJSON 30 0 = .ok "1970-01-01T00:00:30+00:00" ∧
    UnmarshalJSON "1970-01-01T00:00:30+00:00" = .ok 30000000000 :=
  ⟨rfl, rfl, rfl, rfl⟩

/-- C16 (as amended). After a successful `saveCredentials`, a directory that did not
exist has the permission bits 0700 less the umask and a file that did not exist the
bits 0600 less the umask, so neither has a bit for group or others; with a umask
without owner bits they are 0700 and 0600. A directory that existed keeps the bits it
had. -/
theorem C16_created_with_owner_only_bits (faults : SaveFaults) (m m1 : Modes)
    (hsave : saveCredentialsModes faults m = (none, m1)) :
    (m.dir = none → m1.dir = some (lessUmask 0o700 m.umask)) ∧
    (m.file = none → m1.file = some (lessUmask 0o600 m.umask)) ∧
    (∀ bits, m.dir = some bits → m1.dir = some bits) ∧
    lessUmask 0o700 m.umask &&& 0o077 = 0 ∧
    lessUmask 0o600 m.umask &&& 0o177 = 0 ∧
    (m.umask &&& 0o700 = 0 →
      lessUmask 0o700 m.umask = 0o700 ∧ lessUmask 0o600 m.umask = 0o600) := by
  have h1 := saveCredentialsModes_ok hsave
  refine ⟨?_, ?_, ?_, lessUmask_and _ _ _ (by decide), lessUmask_and _ _ _ (by decide), ?_⟩
  · intro hd
    rw [h1]
    cases hf : m.file <;> simp [WriteFile, MkdirAll, hd, hf]
  · intro hf
    rw [h1]
    cases hd : m.dir <;> simp [WriteFile, MkdirAll, hd, hf]
  · intro bits hd
    rw [h1]
    cases hf : m.file <;> simp [WriteFile, MkdirAll, hd, hf]
  · intro hu
    have h7 : 0o700 &&& m.umask = 0 := by rw [Nat.and_comm]; exact hu
    have h6 : 0o600 &&& m.umask = 0 := by
      have e : (0o600 : Nat) = 0o600 &&& 0o700 := by decide
      rw [e, Nat.and_assoc, h7]; simp
    exact ⟨lessUmask_of_disjoint _ _ h7, lessUmask_of_disjoint _ _ h6⟩

/-- C16, in a fresh home directory under the umask 022. -/
theorem C16_witness :
    saveCredentialsModes noFaults freshModes =
      (none, { umask := 0o022, dir := some 0o700, file := some 0o600 }) ∧
    (saveCredentialsModes noFaults freshModes).2.dir = some (lessUmask 0o700 0o022) :=
  ⟨rfl, (C16_created_with_owner_only_bits noFaults freshModes
    (saveCredentialsModes noFaults freshModes).2 rfl).1 rfl⟩

/-- C16 fails as stated: a directory with the bits 0755 and a file with the bits 0644
have the same bits after a successful `saveCredentials`, not 0700 and 0600. -/
theorem C16_counterexample :
    saveCredentialsModes noFaults wideModes =
      (none, { umask := 0o022, dir := some 0o755, file := some 0o644 }) ∧
    (saveCredentialsModes noFaults wideModes).2.dir ≠ some 0o700 ∧
    (saveCredentialsModes noFaults wideModes).2.file ≠ some 0o600 := by
  refine ⟨rfl, by decide, by decide⟩

/-- C17. `runLogin` works with the flag value of the domain and of the client id when
it is not empty and otherwise with the environment variable, and depends on the four
only through these two values. If either is empty it returns the configuration error
without sending a request and without touching the credential file; if both are there
it never returns that error, and the device authorization request is the one for
these two values. -/
theorem C17_login_configuration (w : LoginWorld) (cfg : LoginConfig) (file : CredentialsFile) :
    (cfg.flagClerkDomain ≠ "" → cfg.clerkDomain = cfg.flagClerkDomain) ∧
    (cfg.flagClerkDomain = "" → cfg.clerkDomain = cfg.envClerkDomain) ∧
    (cfg.flagClientID ≠ "" → cfg.clientID = cfg.flagClientID) ∧
    (cfg.flagClientID = "" → cfg.clientID = cfg.envClientID) ∧
    (∀ fuel, runLogin w cfg file fuel =
      runLogin w { flagClerkDomain := cfg.clerkDomain, flagClientID := cfg.clientID,
                   envClerkDomain := "", envClientID := "" } file fuel) ∧
    (cfg.clerkDomain = "" ∨ cfg.clientID = "" →
      ∀ fuel, runLogin w cfg file fuel =
        some { err := some configError, file := file, deviceRequests := 0, polls := [] }) ∧
    (cfg.clerkDomain ≠ "" → cfg.clientID ≠ "" →
      ∀ fuel r, runLogin w cfg file fuel = some r →
        r.err ≠ some configError ∧
        ∀ err, requestDeviceAuthorization w.device cfg.clerkDomain cfg.clientID = .error err →
          r.err = some (.wrap "device authorization failed" err)) := by
  refine ⟨fun h => by simp [LoginConfig.clerkDomain, h],
    fun h => by simp [LoginConfig.clerkDomain, h],
    fun h => by simp [LoginConfig.clientID, h],
    fun h => by simp [LoginConfig.clientID, h], ?_, ?_, ?_⟩
  · intro fuel
    apply runLogin_congr
    · simp only [LoginConfig.clerkDomain]
      split_ifs <;> simp_all
    · simp only [LoginConfig.clientID]
      split_ifs <;> simp_all
  · intro h fuel
    exact runLogin_config_error w cfg file fuel h
  · intro hd hc fuel r hrun
    rcases runLogin_cases hrun with ⟨h, _⟩ | ⟨e, he, h, _⟩ | ⟨d, e, s, hdev, _, h, _⟩ |
      ⟨d, t, s, e, hdev, _, _, h, _⟩ | ⟨d, t, s, hdev, _, _, h, _⟩
    · rcases h with h | h
      · exact absurd h hd
      · exact absurd h hc
    · refine ⟨by rw [h]; simp [configError], fun err herr => ?_⟩
      rw [he] at herr
      rw [h, Except.error.inj herr]
    · refine ⟨by rw [h]; simp [configError], fun err herr => ?_⟩
      rw [hdev] at herr; simp at herr
    · refine ⟨by rw [h]; simp [configError], fun err herr => ?_⟩
      rw [hdev] at herr; simp at herr
    · refine ⟨by rw [h]; simp, fun err herr => ?_⟩
      rw [hdev] at herr; simp at herr

/-- C17, at a configuration with the domain from the environment and no client id,
and at one with both flags. -/
theorem C17_witness :
    noClientConfig.clerkDomain = "clerk.example.com" ∧
    runLogin deniedWorld noClientConfig (.holds cred100) 0 =
      some { err := some configError, file := .holds cred100, deviceRequests := 0,
             polls := [] } ∧
    ∀ fuel r, runLogin deniedWorld flagsConfig (.holds cred100) fuel = some r →
      r.err ≠ some configError :=
  have h := C17_login_configuration deniedWorld noClientConfig (.holds cred100)
  have h1 := C17_login_configuration deniedWorld flagsConfig (.holds cred100)
  ⟨h.2.1 rfl, h.2.2.2.2.2.1 (Or.inr rfl) 0,
    fun fuel r hr => (h1.2.2.2.2.2.2 (by decide) (by decide) fuel r hr).1⟩

/-- C18. Whenever `runLogin` returns the configuration error, an error of the device
authorization or an error of the polling, the credential file is the one it was
before. In particular, when the first poll is answered with `access_denied`,
`runLogin` fails with "authentication failed: access denied by user" after that one
token request and the file is untouched. -/
theorem C18_failed_login_keeps_store (w : LoginWorld) (cfg : LoginConfig)
    (file : CredentialsFile) (fuel : Nat) (r : LoginResult)
    (hrun : runLogin w cfg file fuel = some r) :
    ((r.err = some configError ∨
        (∃ e, r.err = some (.wrap "device authorization failed" e)) ∨
        (∃ e, r.err = some (.wrap "authentication failed" e))) → r.file = file) ∧
    (∀ deviceAuth t status body, cfg.clerkDomain ≠ "" → cfg.clientID ≠ "" →
      requestDeviceAuthorization w.device cfg.clerkDomain cfg.clientID = .ok deviceAuth →
      Polls w.pollEnv (pollInit w.pollStart deviceAuth) t (.response status body) →
      (Decode body).1.Error = "access_denied" →
      r.err = some (.wrap "authentication failed" (.errorf "access denied by user")) ∧
      r.file = file ∧ r.polls.length = 1) := by
  constructor
  · intro herr
    rcases runLogin_cases hrun with ⟨_, _, h, _⟩ | ⟨e, _, _, h, _⟩ | ⟨d, e, s, _, _, _, h, _⟩ |
      ⟨d, t, s, e, _, _, _, h, _⟩ | ⟨d, t, s, _, _, _, h, _⟩
    · exact h
    · exact h
    · exact h
    · rw [h] at herr
      simp [configError] at herr
    · rw [h] at herr
      simp at herr
  · intro deviceAuth t status body hd hc hdev hpoll hden
    rw [runLogin_of_config w cfg file fuel hd hc, hdev] at hrun
    dsimp only at hrun
    cases fuel with
    | zero => simp [pollForToken, pollLoop] at hrun
    | succ k =>
      have hp : pollForToken w.pollEnv w.pollStart deviceAuth (k + 1) =
          some (.error (.errorf "access denied by user"),
            afterRequest w.pollEnv (pollInit w.pollStart deviceAuth) t) := by
        unfold pollForToken
        rw [pollLoop_succ, pollStep_of_polls hpoll]
        simp [hden, providerError]
      rw [hp] at hrun
      have hr := (Option.some.inj hrun).symm
      rw [hr]
      exact ⟨rfl, rfl, by simp [afterRequest, pollInit]⟩

/-- C18, at a first poll answered with `access_denied`, with a credential already
stored. -/
theorem C18_witness :
    runLogin deniedWorld flagsConfig (.holds cred100) 1 =
      some { err := some (.wrap "authentication failed" (.errorf "access denied by user")),
             file := .holds cred100, deviceRequests := 1,
             polls := [⟨5000000000, 5000000000,
               .response 400 (errorBody "access_denied" "")⟩] } ∧
    (∀ r, runLogin deniedWorld flagsConfig (.holds cred100) 1 = some r →
      r.file = .holds cred100) :=
  ⟨rfl, fun r hr =>
    ((C18_failed_login_keeps_store deniedWorld flagsConfig (.holds cred100) 1 r hr).2
      (challenge 5 30) 5000000000 400 (errorBody "access_denied" "") (by decide) (by decide)
      rfl ⟨by decide, rfl, rfl, rfl⟩ rfl).2.1⟩

/-- C19 (as amended). For every run in which polling ends with a grant `g` and the
credential is saved without error, `runLogin` succeeds and the stored credential has
the access token and the refresh token of `g`; and, for `g.expires_in` between
-9223372036 and 9223372036, its expiry is the instant at which the credential is
built plus `g.expires_in` seconds. -/
theorem C19_login_stores_the_grant (w : LoginWorld) (cfg : LoginConfig)
    (file file1 : CredentialsFile) (fuel : Nat) (deviceAuth : DeviceAuthResponse)
    (g : TokenResponse) (s : PollState)
    (hd : cfg.clerkDomain ≠ "") (hc : cfg.clientID ≠ "")
    (hdev : requestDeviceAuthorization w.device cfg.clerkDomain cfg.clientID = .ok deviceAuth)
    (hpoll : pollForToken w.pollEnv w.pollStart deviceAuth fuel = some (.ok g, s))
    (hsave : saveCredentials w.faults file (newCredentials s.now g) = (none, file1)) :
    runLogin w cfg file fuel =
      some { err := none, file := file1, deviceRequests := 1, polls := s.log } ∧
    ∃ c, file1 = .holds c ∧ loadCredentials file1 = .ok c ∧
      c.AccessToken = g.AccessToken ∧ c.RefreshToken = g.RefreshToken ∧
      (-9223372036 ≤ g.ExpiresIn → g.ExpiresIn ≤ 9223372036 →
        c.ExpiresAt = s.now + g.ExpiresIn * Second) := by
  constructor
  · rw [runLogin_of_config w cfg file fuel hd hc, hdev]
    dsimp only
    rw [hpoll]
    dsimp only
    rw [hsave, deviceRequestsSent_of_ok hdev]
  · refine ⟨newCredentials s.now g, saveCredentials_ok hsave, ?_, rfl, rfl, ?_⟩
    · rw [saveCredentials_ok hsave]; rfl
    · intro hlo hhi
      simp [newCredentials, timeAdd, secondsDuration_of_bounds hlo hhi]

/-- C19, at the challenge (5, 30) with four pending polls and then a grant with
`expires_in` 3600: the login succeeds after five token requests and the stored expiry
is the instant of the fifth response, 25 s, plus 3600 s. -/
theorem C19_witness :
    (runLogin grantWorld flagsConfig .absent 5).map (fun r => (r.err, r.file, r.polls.length)) =
      some (none,
        .holds { AccessToken := "access-123", RefreshToken := "refresh-456",
                 ExpiresAt := 25000000000 + 3600 * Second, Email := "" }, 5) :=
  have h := C19_login_stores_the_grant grantWorld flagsConfig .absent
    (.holds (newCredentials 25000000000 grant3600)) 5 (challenge 5 30) grant3600
    (afterRequest grantEnv grantState 25000000000) (by decide) (by decide) rfl rfl rfl
  by rw [h.1]; rfl

/-- C19 fails as stated: with polling ended by a grant, `runLogin` fails when the
credential cannot be written; and for a grant with `expires_in` 9223372037 built at
5 s the stored expiry is not 5 s plus 9223372037 s. -/
theorem C19_counterexample :
    (pollForToken grantEnv 0 (challenge 5 30) 5).map (fun x => x.1) = some (.ok grant3600) ∧
    (runLogin diskFullWorld flagsConfig .absent 5).map (fun r => r.err) =
      some (some (.wrap "failed to save credentials"
        (.path "write: no space left on device" false))) ∧
    (runLogin hugeGrantWorld flagsConfig .absent 1).map (fun r => (r.err, r.file)) =
      some (none, .holds { AccessToken := "tok", RefreshToken := "",
                           ExpiresAt := -9223372031709551616, Email := "" }) ∧
    (-9223372031709551616 : Int) ≠ 5000000000 + 9223372037 * Second := by
  refine ⟨rfl, rfl, rfl, by decide⟩

/-- C20. When the device authorization request is answered, `requestDeviceAuthorization`
fails for every status other than 200 with the message "device auth request failed: "
followed by the body as read; for status 200 and a body that decodes it returns the
decoded challenge, member by member; and for status 200 and a body that does not
decode it fails with the error of the decoder. -/
theorem C20_device_authorization_response (env : DeviceEnv) (clerkDomain clientID : String)
    (resp : DeviceResponse)
    (hreq : env.newRequestErr (deviceEndpoint clerkDomain) = none)
    (hdo : env.doResult (deviceEndpoint clerkDomain) (deviceForm clientID) = .response resp) :
    (resp.StatusCode ≠ 200 →
      requestDeviceAuthorization env clerkDomain clientID =
        .error (.errorf ("device auth request failed: " ++ resp.text))) ∧
    (resp.StatusCode = 200 → ∀ d, resp.body = .object d →
      requestDeviceAuthorization env clerkDomain clientID = .ok d) ∧
    (resp.StatusCode = 200 → ∀ err, (DecodeDevice resp.body).2 = some err →
      requestDeviceAuthorization env clerkDomain clientID = .error err) := by
  refine ⟨?_, ?_, ?_⟩
  · intro hs
    simp [requestDeviceAuthorization, hreq, hdo, hs]
  · intro hs d hb
    simp [requestDeviceAuthorization, hreq, hdo, hs, hb, DecodeDevice]
  · intro hs err he
    unfold requestDeviceAuthorization
    simp only [hreq, hdo, hs]
    cases hdec : DecodeDevice resp.body with
    | mk result e =>
      rw [hdec] at he
      simp only at he
      subst he
      simp

/-- C20, at the answers 403 with the body "invalid_client", 200 with the challenge
of `TestDeviceAuthResponseParsing`, and 200 with a body that is not JSON. -/
theorem C20_witness :
    requestDeviceAuthorization
        (deviceAnswers { StatusCode := 403, text := "invalid_client", body := .notJSON })
        "clerk.example.com" "client-1" =
      .error (.errorf "device auth request failed: invalid_client") ∧
    requestDeviceAuthorization
        (deviceAnswers { StatusCode := 200, text := "", body := .object testChallenge })
        "clerk.example.com" "client-1" = .ok testChallenge ∧
    requestDeviceAuthorization
        (deviceAnswers { StatusCode := 200, text := "<html>", body := .notJSON })
        "clerk.example.com" "client-1" = .error (.json "invalid character") :=
  ⟨(C20_device_authorization_response _ "clerk.example.com" "client-1"
      { StatusCode := 403, text := "invalid_client", body := .notJSON } rfl rfl).1 (by decide),
    (C20_device_authorization_response _ "clerk.example.com" "client-1"
      { StatusCode := 200, text := "", body := .object testChallenge } rfl rfl).2.1 rfl _ rfl,
    (C20_device_authorization_response _ "clerk.example.com" "client-1"
      { StatusCode := 200, text := "<html>", body := .notJSON } rfl rfl).2.2 rfl _ rfl⟩

/-- C21. The challenge request is not retried: for every run of `runLogin` in which
the device authorization request is sent and `requestDeviceAuthorization` fails,
which is by a failure of the transport, by a status other than 200 or by a body that
does not decode, `runLogin` issues exactly one device authorization request and no
token request, leaves the credential file as it was and returns the failure wrapped
as "device authorization failed". -/
theorem C21_challenge_request_not_retried (w : LoginWorld) (cfg : LoginConfig)
    (file : CredentialsFile) (err : GoError)
    (hd : cfg.clerkDomain ≠ "") (hc : cfg.clientID ≠ "")
    (hreq : w.device.newRequestErr (deviceEndpoint cfg.clerkDomain) = none)
    (herr : requestDeviceAuthorization w.device cfg.clerkDomain cfg.clientID = .error err) :
    (∀ fuel, runLogin w cfg file fuel =
      some { err := some (.wrap "device authorization failed" err), file := file,
             deviceRequests := 1, polls := [] }) ∧
    ((∃ msg, w.device.doResult (deviceEndpoint cfg.clerkDomain) (deviceForm cfg.clientID) =
        .transportError msg ∧ err = .url msg) ∨
     (∃ resp, w.device.doResult (deviceEndpoint cfg.clerkDomain) (deviceForm cfg.clientID) =
        .response resp ∧ resp.StatusCode ≠ 200 ∧
        err = .errorf ("device auth request failed: " ++ resp.text)) ∨
     (∃ resp, w.device.doResult (deviceEndpoint cfg.clerkDomain) (deviceForm cfg.clientID) =
        .response resp ∧ resp.StatusCode = 200 ∧ (DecodeDevice resp.body).2 = some err)) := by
  constructor
  · intro fuel
    rw [runLogin_of_config w cfg file fuel hd hc, herr]
    simp only [deviceRequestsSent, hreq]
  · unfold requestDeviceAuthorization at herr
    simp only [hreq] at herr
    cases hdo : w.device.doResult (deviceEndpoint cfg.clerkDomain) (deviceForm cfg.clientID) with
    | transportError msg =>
      rw [hdo] at herr
      exact Or.inl ⟨msg, rfl, (Except.error.inj herr).symm⟩
    | response resp =>
      rw [hdo] at herr
      simp only at herr
      by_cases hs : resp.StatusCode = 200
      · rw [if_neg (by simpa using hs)] at herr
        refine Or.inr (Or.inr ⟨resp, rfl, hs, ?_⟩)
        cases hdec : DecodeDevice resp.body with
        | mk result e =>
          rw [hdec] at herr
          cases e with
          | none => simp at herr
          | some e1 => simpa using herr
      · rw [if_pos hs] at herr
        exact Or.inr (Or.inl ⟨resp, rfl, hs, (Except.error.inj herr).symm⟩)

/-- C21, at a device endpoint that cannot be reached and at one that answers 403:
one device authorization request, no token request, the stored credential kept. -/
theorem C21_witness :
    (∀ fuel, runLogin unreachableWorld flagsConfig (.holds cred100) fuel =
      some { err := some (.wrap "device authorization failed"
               (.url "dial tcp: connection refused")),
             file := .holds cred100, deviceRequests := 1, polls := [] }) ∧
    (∀ fuel, runLogin forbiddenWorld flagsConfig .absent fuel =
      some { err := some (.wrap "device authorization failed"
               (.errorf "device auth request failed: invalid_client")),
             file := .absent, deviceRequests := 1, polls := [] }) :=
  ⟨(C21_challenge_request_not_retried unreachableWorld flagsConfig (.holds cred100)
      (.url "dial tcp: connection refused") (by decide) (by decide) rfl rfl).1,
   (C21_challenge_request_not_retried forbiddenWorld flagsConfig .absent
      (.errorf "device auth request failed: invalid_client") (by decide) (by decide)
      rfl rfl).1⟩

/-- C22 (as amended). No command takes its token from the credential store:
`getClient` reads the token from the settings only (the flag `--token`, the variable
`TREK_API_TOKEN`, the configuration file). With the endpoint, the organisation and
the environment set: with no token set `getClient` fails with "API token required
(--token or TREK_API_TOKEN)", and so does `session create`, which sends nothing; with
a token set the client is authorised with that token. -/
theorem C22_client_token_from_settings (g : Settings)
    (he : g.apiEndpoint ≠ "") (ho : g.orgID ≠ "") (hv : g.env ≠ "") :
    (g.apiToken = "" →
      getClient g = .error (.errorf "API token required (--token or TREK_API_TOKEN)") ∧
      ∀ w f, runCreate w g f =
        { err := some (.errorf "API token required (--token or TREK_API_TOKEN)"),
          sent := [] }) ∧
    (g.apiToken ≠ "" →
      getClient g =
        .ok { endpoint := g.apiEndpoint, token := g.apiToken, orgID := g.orgID,
              env := g.env }) := by
  constructor
  · intro ht
    have h : getClient g =
        .error (.errorf "API token required (--token or TREK_API_TOKEN)") := by
      simp [getClient, he, ht]
    exact ⟨h, fun w f => runCreate_of_error w g f _ h⟩
  · intro ht
    simp [getClient, he, ht, ho, hv]

/-- C22 as amended, at settings without a token and at the settings of the tests. -/
theorem C22_witness :
    getClient noTokenSettings =
      .error (.errorf "API token required (--token or TREK_API_TOKEN)") ∧
    getClient validSettings =
      .ok { endpoint := "https://api.trek.dev", token := "test-token", orgID := "test-org",
            env := "prod" } :=
  ⟨((C22_client_token_from_settings noTokenSettings (by decide) (by decide) (by decide)).1
      rfl).1,
   (C22_client_token_from_settings validSettings (by decide) (by decide) (by decide)).2
      (by decide)⟩

/-- C22 fails as stated: with the endpoint, the organisation and the environment set,
no token set and a valid credential cached (`GetAccessToken` yields "tok"),
`getClient` builds no client and `session create` fails with "API token required
(--token or TREK_API_TOKEN)" without sending a request. -/
theorem C22_counterexample :
    GetAccessToken (.holds cred100) 99 = "tok" ∧
    getClient noTokenSettings =
      .error (.errorf "API token required (--token or TREK_API_TOKEN)") ∧
    (runCreate createWorld noTokenSettings { noSelectorFlags with userID := "user-1" }).err =
      some (.errorf "API token required (--token or TREK_API_TOKEN)") ∧
    (runCreate createWorld noTokenSettings
      { noSelectorFlags with userID := "user-1" }).sent.length = 0 :=
  ⟨rfl, rfl, rfl, rfl⟩

/-- C23. The function `getClient` returns a client exactly when the endpoint, the
token, the organisation and the environment are all non-empty, and the client holds
these four values; otherwise it returns no client and the error of the first missing
one in the order endpoint ("API endpoint required ..."), token ("API token required
..."), organisation ("org ID required ...") and environment ("env required ..."). -/
theorem C23_getClient_validation (g : Settings) :
    ((∃ c, getClient g = .ok c) ↔
      g.apiEndpoint ≠ "" ∧ g.apiToken ≠ "" ∧ g.orgID ≠ "" ∧ g.env ≠ "") ∧
    (g.apiEndpoint ≠ "" → g.apiToken ≠ "" → g.orgID ≠ "" → g.env ≠ "" →
      getClient g =
        .ok { endpoint := g.apiEndpoint, token := g.apiToken, orgID := g.orgID,
              env := g.env }) ∧
    (g.apiEndpoint = "" →
      getClient g =
        .error (.errorf "API endpoint required (--endpoint or TREK_API_ENDPOINT)")) ∧
    (g.apiEndpoint ≠ "" → g.apiToken = "" →
      getClient g = .error (.errorf "API token required (--token or TREK_API_TOKEN)")) ∧
    (g.apiEndpoint ≠ "" → g.apiToken ≠ "" → g.orgID = "" →
      getClient g = .error (.errorf "org ID required (--org or TREK_ORG_ID)")) ∧
    (g.apiEndpoint ≠ "" → g.apiToken ≠ "" → g.orgID ≠ "" → g.env = "" →
      getClient g = .error (.errorf "env required (--env or TREK_ENV)")) := by
  refine ⟨getClient_ok_iff g, ?_, ?_, ?_, ?_, ?_⟩
  · intro h1 h2 h3 h4
    simp [getClient, h1, h2, h3, h4]
  · intro h1
    simp [getClient, h1]
  · intro h1 h2
    simp [getClient, h1, h2]
  · intro h1 h2 h3
    simp [getClient, h1, h2, h3]
  · intro h1 h2 h3 h4
    simp [getClient, h1, h2, h3, h4]

/-- C23, at the cases of `TestGetClientValidation`: nothing set, the token missing,
and all four set. -/
theorem C23_witness :
    getClient emptySettings =
      .error (.errorf "API endpoint required (--endpoint or TREK_API_ENDPOINT)") ∧
    getClient noTokenSettings =
      .error (.errorf "API token required (--token or TREK_API_TOKEN)") ∧
    (∃ c, getClient validSettings = .ok c) :=
  ⟨(C23_getClient_validation emptySettings).2.2.1 rfl,
   (C23_getClient_validation noTokenSettings).2.2.2.1 (by decide) rfl,
   (C23_getClient_validation validSettings).1.2 ⟨by decide, by decide, by decide, by decide⟩⟩

/-- C24 (as amended). The function `loadConfigFile` never overrides a setting that
is set. When the file holds a mapping in which none of the keys `endpoint`, `token`,
`org` and `env` has a sequence or a mapping as its value, each of the four settings
is afterwards what it was before if that was non-empty and otherwise the value the
file has for its key (the empty string when the key is not there or is `null`). When
the file is missing, unreadable, not valid YAML, an empty document, not a mapping, or
a mapping in which one of the four keys has a sequence or a mapping as its value,
all four settings are unchanged. Loading the same file a second time changes
nothing. -/
theorem C24_config_file_never_overrides (path : String) (file : ConfigFile) (g : Settings) :
    (∀ entries, file = .content (.mapping entries) →
      yamlLookup entries "endpoint" ≠ some .composite →
      yamlLookup entries "token" ≠ some .composite →
      yamlLookup entries "org" ≠ some .composite →
      yamlLookup entries "env" ≠ some .composite →
      (loadConfigFile path file g).1 =
        { apiEndpoint :=
            if g.apiEndpoint = "" then fieldText entries "endpoint" else g.apiEndpoint,
          apiToken := if g.apiToken = "" then fieldText entries "token" else g.apiToken,
          orgID := if g.orgID = "" then fieldText entries "org" else g.orgID,
          env := if g.env = "" then fieldText entries "env" else g.env }) ∧
    (∀ entries, file = .content (.mapping entries) →
      (yamlLookup entries "endpoint" = some .composite ∨
        yamlLookup entries "token" = some .composite ∨
        yamlLookup entries "org" = some .composite ∨
        yamlLookup entries "env" = some .composite) →
      (loadConfigFile path file g).1 = g) ∧
    ((file = .absent ∨ file = .unreadable ∨ file = .content .empty ∨
        file = .content .other ∨ ∃ msg, file = .content (.invalid msg)) →
      (loadConfigFile path file g).1 = g) ∧
    (loadConfigFile path file (loadConfigFile path file g).1).1 =
      (loadConfigFile path file g).1 := by
  refine ⟨?_, ?_, ?_, loadConfigFile_idem path file g⟩
  · intro entries hfile h1 h2 h3 h4
    subst hfile
    rw [loadConfigFile_of_parsed path _ _ g (unmarshalConfig_of_scalars h1 h2 h3 h4)]
    rfl
  · intro entries hfile h
    subst hfile
    obtain ⟨err, herr⟩ := unmarshalConfig_of_composite h
    exact loadConfigFile_of_unparsed path _ g err herr
  · intro h
    rcases h with h | h | h | h | ⟨msg, h⟩ <;> subst h
    · rfl
    · rfl
    · rw [loadConfigFile_of_parsed path .empty ⟨"", "", "", ""⟩ g rfl]
      obtain ⟨e, t, o, v⟩ := g
      simp only [merged]
      by_cases h1 : e = "" <;> by_cases h2 : t = "" <;> by_cases h3 : o = "" <;>
        by_cases h4 : v = "" <;> simp [h1, h2, h3, h4]
    · rfl
    · rfl

/-- C24 as amended, at the cases "env vars take precedence" and "partial config" of
`TestLoadConfigFile`, at a file that is not there and at a file that is not YAML. -/
theorem C24_witness :
    (loadConfigFile "config.yaml" stagingConfig envVarSettings).1 =
      { apiEndpoint := "https://env.trek.dev", apiToken := "env-token",
        orgID := "config-org", env := "staging" } ∧
    (loadConfigFile "config.yaml"
        (.content (.mapping [("endpoint", .scalar "https://partial.trek.dev")]))
        emptySettings).1 =
      { apiEndpoint := "https://partial.trek.dev", apiToken := "", orgID := "", env := "" } ∧
    (loadConfigFile "config.yaml" .absent envVarSettings).1 = envVarSettings ∧
    (loadConfigFile "config.yaml" (.content (.invalid "did not find expected key"))
      envVarSettings).1 = envVarSettings :=
  ⟨(C24_config_file_never_overrides "config.yaml" stagingConfig envVarSettings).1 _ rfl
      (by decide) (by decide) (by decide) (by decide),
   (C24_config_file_never_overrides "config.yaml"
      (.content (.mapping [("endpoint", .scalar "https://partial.trek.dev")]))
      emptySettings).1 _ rfl (by decide) (by decide) (by decide) (by decide),
   (C24_config_file_never_overrides "config.yaml" .absent envVarSettings).2.2.1 (Or.inl rfl),
   (C24_config_file_never_overrides "config.yaml"
      (.content (.invalid "did not find expected key")) envVarSettings).2.2.1
      (Or.inr (Or.inr (Or.inr (Or.inr ⟨_, rfl⟩))))⟩

/-- C24 fails as stated: the file with the lines `endpoint: https://x.test` and
`token: [a]` is valid YAML and has the value "https://x.test" for the key
`endpoint`; `yaml.Unmarshal` returns a type error for `token`, `loadConfigFile`
returns before it assigns anything, and the endpoint, empty before, is empty
afterwards. -/
theorem C24_counterexample :
    yamlLookup mistypedEntries "endpoint" = some (.scalar "https://x.test") ∧
    emptySettings.apiEndpoint = "" ∧
    (loadConfigFile "config.yaml" (.content (.mapping mistypedEntries)) emptySettings).1 =
      emptySettings ∧
    (loadConfigFile "config.yaml" (.content (.mapping mistypedEntries)) emptySettings).2 =
      "Warning: failed to parse config file config.yaml: " ++
        "yaml: cannot unmarshal token into string\n" := by
  refine ⟨by decide, rfl, by decide, by decide⟩

/-- C25. With all four selector fields empty and no setting at all, the state in
which `TestRunCreateValidation_EmptySelector` runs on its own, `runCreate` returns
the error "API endpoint required (--endpoint or TREK_API_ENDPOINT)" of `getClient`,
which does not contain "at least one selector field required"; it returns the
selector error only once `getClient` succeeds. In both cases no create-session
request is sent. -/
theorem C25_selector_checked_after_getClient :
    noSelectorFlags.userID = "" ∧ noSelectorFlags.requestID = "" ∧
    noSelectorFlags.tenantID = "" ∧ noSelectorFlags.route = "" ∧
    (runCreate createWorld emptySettings noSelectorFlags).err =
      some (.errorf "API endpoint required (--endpoint or TREK_API_ENDPOINT)") ∧
    ¬ Mentions (.errorf "API endpoint required (--endpoint or TREK_API_ENDPOINT)")
      "at least one selector field required" ∧
    (runCreate createWorld emptySettings noSelectorFlags).sent.length = 0 ∧
    (runCreate createWorld validSettings noSelectorFlags).err =
      some (.errorf
        "at least one selector field required (--user, --request, --tenant, or --route)") ∧
    (runCreate createWorld validSettings noSelectorFlags).sent.length = 0 := by
  refine ⟨rfl, rfl, rfl, rfl, rfl, ?_, rfl, rfl, rfl⟩
  unfold Mentions
  decide

/-- C26. For every byte string `s` and every `max` from 3 on (an `int`), `truncate`
returns `s` itself when `s` has at most `max` bytes, and otherwise the first `max - 3`
bytes of `s` followed by "..."; the result has at most `max` bytes, exactly `max`
when `s` is cut; and `truncate` applied to its result returns it unchanged. -/
theorem C26_truncate_spec (s : List UInt8) (max : Int) (h3 : 3 ≤ max)
    (hmax : max ≤ 9223372036854775807) :
    ((s.length : Int) ≤ max → truncate s max = .ok s) ∧
    (max < (s.length : Int) →
      truncate s max = .ok (s.take (max - 3).toNat ++ bytes "...")) ∧
    ∃ r, truncate s max = .ok r ∧ (r.length : Int) ≤ max ∧
      (max < (s.length : Int) → (r.length : Int) = max) ∧ truncate r max = .ok r := by
  have hb : bytes "..." = [46, 46, 46] := rfl
  rw [hb]
  refine ⟨fun h => truncate_short h, fun h => truncate_long h3 hmax h, ?_⟩
  by_cases h : (s.length : Int) ≤ max
  · exact ⟨s, truncate_short h, h, fun h1 => absurd h (by omega), truncate_short h⟩
  · have hlt : max < (s.length : Int) := by omega
    have hlen := truncate_long_length h3 hlt
    exact ⟨_, truncate_long h3 hmax hlt, le_of_eq hlen, fun _ => hlen,
      truncate_short (le_of_eq hlen)⟩

/-- C26, at the cases of `TestTruncate`: "hello" with 10, "hello world" with 8 and
"hello" with 4. -/
theorem C26_witness :
    truncate (bytes "hello") 10 = .ok (bytes "hello") ∧
    truncate (bytes "hello world") 8 = .ok (bytes "hello...") ∧
    truncate (bytes "hello") 4 = .ok (bytes "h...") :=
  ⟨(C26_truncate_spec (bytes "hello") 10 (by decide) (by decide)).1 (by decide),
   (C26_truncate_spec (bytes "hello world") 8 (by decide) (by decide)).2.1 (by decide),
   (C26_truncate_spec (bytes "hello") 4 (by decide) (by decide)).2.1 (by decide)⟩

/-- C27 (as amended). The deadline guard bounds the poll loop: for every environment
(every sequence of provider responses and transport failures, every lag of the
timers) and every challenge with `interval` at least -9223372036, `expires_in` above
0 and max(interval, 5) + expires_in at most 9223372031, `pollForToken` returns after
at most ceil(expires_in / max(interval, 5)) token requests; and for `expires_in`
between -9223372036 and 0 it returns "authentication timed out" with no token
request. -/
theorem C27_deadline_bounds_polling (env : Env) (now : Int) (d : DeviceAuthResponse) :
    (-9223372036 ≤ d.Interval → 0 < d.ExpiresIn →
      max d.Interval 5 + d.ExpiresIn ≤ 9223372031 →
      ∃ r s,
        (∀ fuel, (ceilDiv d.ExpiresIn (max d.Interval 5)).toNat + 1 ≤ fuel →
          pollForToken env now d fuel = some (r, s)) ∧
        (s.log.length : Int) ≤ ceilDiv d.ExpiresIn (max d.Interval 5)) ∧
    (-9223372036 ≤ d.ExpiresIn → d.ExpiresIn ≤ 0 →
      ∀ fuel, 1 ≤ fuel →
        pollForToken env now d fuel =
          some (.error (.errorf "authentication timed out"), pollInit now d) ∧
        (pollInit now d).log = []) := by
  constructor
  · intro hlo he hsum
    obtain ⟨r, s, hrun, hlen⟩ := budget_terminates env now d hsum
      (ceilDiv d.ExpiresIn (max d.Interval 5)).toNat (pollInit now d)
      (withinBudget_init now d hlo he hsum)
      (by
        have h5 : (5 : Int) ≤ max d.Interval 5 := le_max_right _ _
        have : 0 ≤ ceilDiv d.ExpiresIn (max d.Interval 5) := by
          unfold ceilDiv
          exact Int.ediv_nonneg (by omega) (by omega)
        simpa [pollInit] using this)
      (by simp [pollInit, Int.self_le_toNat])
    refine ⟨r, s, ?_, hlen⟩
    intro fuel hfuel
    obtain ⟨k, hk⟩ := Nat.exists_eq_add_of_le hfuel
    rw [hk]
    exact pollLoop_mono env _ _ _ hrun k
  · intro hlo he fuel hfuel
    refine ⟨?_, rfl⟩
    have hdl : (pollInit now d).deadline ≤ (pollInit now d).now := by
      have := secondsDuration_of_bounds (n := d.ExpiresIn) hlo (by omega)
      simp only [pollInit, timeAdd, this]
      unfold Second
      omega
    obtain ⟨k, hk⟩ := Nat.exists_eq_add_of_le hfuel
    rw [hk]
    unfold pollForToken
    apply pollLoop_mono env 1 _ _ _ k
    rw [pollLoop_succ, pollStep_timeout hdl]

/-- C27 as amended, at the challenge (5, 30) with every poll pending, at most 6
token requests, and at the challenge (5, 0), none. -/
theorem C27_witness :
    (∃ r s, (∀ fuel, 7 ≤ fuel → pollForToken pendingEnv 0 (challenge 5 30) fuel = some (r, s)) ∧
      (s.log.length : Int) ≤ 6) ∧
    (∀ fuel, 1 ≤ fuel → pollForToken pendingEnv 0 (challenge 5 0) fuel =
      some (.error (.errorf "authentication timed out"), pollInit 0 (challenge 5 0))) :=
  ⟨(C27_deadline_bounds_polling pendingEnv 0 (challenge 5 30)).1 (by decide) (by decide)
      (by decide),
   fun fuel h => ((C27_deadline_bounds_polling pendingEnv 0 (challenge 5 0)).2 (by decide)
      (by decide) fuel h).1⟩

/-- C27 fails as stated: with `interval` 9223372037 the interval wraps around and is
replaced by 5 s, so that with `expires_in` 30 six token requests are sent, not at
most ceil(30 / 9223372037) = 1; and with `expires_in` -9223372037 the deadline wraps
around to the future and a token request is sent. -/
theorem C27_counterexample :
    (pollForToken pendingEnv 0 (challenge 9223372037 30) 100).map
        (fun x => (x.1, x.2.log.length)) =
      some (.error (.errorf "authentication timed out"), 6) ∧
    ceilDiv 30 (max 9223372037 5) = 1 ∧
    (pollForToken deniedEnv 0 (challenge 5 (-9223372037)) 100).map
        (fun x => (x.1, x.2.log.length)) =
      some (.error (.errorf "access denied by user"), 1) :=
  ⟨rfl, by decide, rfl⟩

/-- C28. The function `parseLabels` fails exactly when some label has no "=", and
the error names the first such label; otherwise every label is split at its first
"=" only (the value may contain "=", the key and the value may be empty), and for a
list that is not empty the map returned gives each key the value of the last label
with that key and has as keys exactly the keys of the labels; for the empty list it
returns no map and no error. -/
theorem C28_parseLabels_spec (quote : String → String) (labels : List String) :
    ((∃ err, parseLabels quote labels = .error err) ↔ ∃ l ∈ labels, '=' ∉ l.data) ∧
    (∀ pre l post, labels = pre ++ l :: post → (∀ x ∈ pre, '=' ∈ x.data) → '=' ∉ l.data →
      parseLabels quote labels =
        .error (.errorf ("invalid label format " ++ quote l ++ ": expected key=value"))) ∧
    (labels ≠ [] → (∀ l ∈ labels, '=' ∈ l.data) →
      ∃ m, parseLabels quote labels = .ok (some m) ∧
        (∀ k, m k = lastValue labels k) ∧
        (∀ k, (m k).isSome ↔ ∃ l ∈ labels, labelKey l = k)) ∧
    (labels = [] → parseLabels quote labels = .ok none) ∧
    (∀ l ∈ labels, '=' ∈ l.data →
      SplitN2 l = [labelKey l, labelValue l] ∧ l = labelKey l ++ "=" ++ labelValue l ∧
      '=' ∉ (labelKey l).data) := by
  have herror : ∀ pre l post, labels = pre ++ l :: post → (∀ x ∈ pre, '=' ∈ x.data) →
      '=' ∉ l.data →
      parseLabels quote labels =
        .error (.errorf ("invalid label format " ++ quote l ++ ": expected key=value")) := by
    intro pre l post he hpre hl
    subst he
    unfold parseLabels
    rw [if_neg (by simp), parseLabelsLoop_error quote pre l post hl _ hpre]
  have hok : labels ≠ [] → (∀ l ∈ labels, '=' ∈ l.data) →
      parseLabels quote labels = .ok (some fun k => (lastValue labels k).or none) := by
    intro hne hall
    unfold parseLabels
    rw [if_neg (by simpa using hne), parseLabelsLoop_ok quote labels _ hall]
  have hnil : labels = [] → parseLabels quote labels = .ok none := by
    intro he
    subst he
    rfl
  refine ⟨⟨?_, ?_⟩, herror, ?_, hnil, ?_⟩
  · intro ⟨err, herr⟩
    by_contra hno
    have hall : ∀ l ∈ labels, '=' ∈ l.data := by
      intro l hl
      by_contra hc
      exact hno ⟨l, hl, hc⟩
    by_cases hne : labels = []
    · rw [hnil hne] at herr
      simp at herr
    · rw [hok hne hall] at herr
      simp at herr
  · intro h
    obtain ⟨pre, l, post, he, hpre, hl⟩ := first_without_eq labels h
    exact ⟨_, herror pre l post he hpre hl⟩
  · intro hne hall
    refine ⟨_, hok hne hall, fun k => by simp, fun k => ?_⟩
    simp only [Option.or_none, lastValue]
    cases hfind : List.find? (fun l => decide (labelKey l = k)) labels.reverse with
    | none =>
      simp only [Option.map_none', Option.isSome_none, Bool.false_eq_true, false_iff]
      intro ⟨l, hl, hkey⟩
      have := List.find?_eq_none.mp hfind l (List.mem_reverse.mpr hl)
      simp [hkey] at this
    | some v =>
      simp only [Option.map_some', Option.isSome_some, true_iff]
      have hmem := List.mem_of_find?_eq_some hfind
      have hp := List.find?_some hfind
      exact ⟨v, List.mem_reverse.mp hmem, by simpa using hp⟩
  · intro l _ hl
    exact ⟨SplitN2_of_eq hl, label_split hl⟩

/-- C28, at labels with a repeated key, a value with "=", an empty key and an empty
value, and at a list whose second label has no "=". -/
theorem C28_witness :
    (∃ m, parseLabels (fun s => "\"" ++ s ++ "\"") ["env=prod", "q=a=b", "env=dev", "=x", "k="] =
        .ok (some m) ∧
      m "env" = some "dev" ∧ m "q" = some "a=b" ∧ m "" = some "x" ∧ m "k" = some "" ∧
      m "prod" = none) ∧
    parseLabels (fun s => "\"" ++ s ++ "\"") ["a=b", "bad", "worse"] =
      .error (.errorf "invalid label format \"bad\": expected key=value") :=
  ⟨by
    obtain ⟨m, hm, hk, _⟩ := (C28_parseLabels_spec (fun s => "\"" ++ s ++ "\"")
      ["env=prod", "q=a=b", "env=dev", "=x", "k="]).2.2.1 (by decide) (by decide)
    exact ⟨m, hm, by rw [hk]; decide, by rw [hk]; decide, by rw [hk]; decide,
      by rw [hk]; decide, by rw [hk]; decide⟩,
   (C28_parseLabels_spec (fun s => "\"" ++ s ++ "\"") ["a=b", "bad", "worse"]).2.1
     ["a=b"] "bad" ["worse"] rfl (by decide) (by decide)⟩

/-- C29 (as amended). For every byte string `s` and every `max` from 0 on (an `int`):
when `max` is at least 3 or `s` has at most `max` bytes, the slice bound of `truncate`
is in range and `truncate` returns, without fault, at most `max` bytes; when `max` is
below 3 and `s` has more than `max` bytes, the slice bound `max - 3` is negative and
`truncate` faults. -/
theorem C29_truncate_total_from_three (s : List UInt8) (max : Int) (h0 : 0 ≤ max)
    (hmax : max ≤ 9223372036854775807) :
    ((3 ≤ max ∨ (s.length : Int) ≤ max) →
      ∃ r, truncate s max = .ok r ∧ (r.length : Int) ≤ max) ∧
    (max < 3 → max < (s.length : Int) →
      truncate s max = .error { msg := "slice bounds out of range" }) := by
  constructor
  · intro h
    by_cases hle : (s.length : Int) ≤ max
    · exact ⟨s, truncate_short hle, hle⟩
    · have h3 : 3 ≤ max := by omega
      have hlt : max < (s.length : Int) := by omega
      exact ⟨_, truncate_long h3 hmax hlt, le_of_eq (truncate_long_length h3 hlt)⟩
  · intro h3 hlt
    have hi : int64 (max - 3) = max - 3 := int64_of_bounds (by omega) (by omega)
    unfold truncate
    rw [if_neg (by omega)]
    simp only [hi]
    rw [if_pos (Or.inl (by omega))]

/-- C29 as amended, at the widths the tables pass (28 and 30) and at a string that
fits a width below 3. -/
theorem C29_witness :
    (∃ r, truncate (bytes "a-session-id-of-more-than-twenty-eight-bytes") 28 = .ok r ∧
      (r.length : Int) ≤ 28) ∧
    (∃ r, truncate (bytes "ab") 2 = .ok r ∧ (r.length : Int) ≤ 2) :=
  ⟨(C29_truncate_total_from_three (bytes "a-session-id-of-more-than-twenty-eight-bytes") 28
      (by decide) (by decide)).1 (Or.inl (by decide)),
   (C29_truncate_total_from_three (bytes "ab") 2 (by decide) (by decide)).1
      (Or.inr (by decide))⟩

/-- C29 fails as stated: for "abcd" and `max` 2 the slice bound `max - 3` is -1 and
`truncate` faults instead of returning at most 2 bytes. -/
theorem C29_counterexample :
    (0 : Int) ≤ 2 ∧ int64 (2 - 3) = -1 ∧
    truncate (bytes "abcd") 2 = .error { msg := "slice bounds out of range" } :=
  ⟨by decide, by decide, rfl⟩

/-- C30. With `~/.trek/config.yaml` present and holding an empty document (an empty
file, comments only, or `null`), `env switch` does not return: `yaml.Unmarshal`
leaves the map nil and the assignment `cfg["env"] = targetEnv` faults, with the file
as it was. For a file that is absent the map is made first and the written
configuration maps `env` to the target; for a file holding a mapping the written
configuration maps `env` to the target and every other key to the value it had; for
a file that does not parse an error is returned and the file is unchanged. -/
theorem C30_env_switch_faults_on_empty_document (target env : String) :
    runEnvSwitch noSwitchFaults [target] (.content .empty) env =
      .error { msg := "assignment to entry in nil map" } ∧
    runEnvSwitch noSwitchFaults [target] .absent env =
      .ok { err := none, file := .content (.mapping [("env", .scalar target)]),
            env := target, stdout := "Switched to environment: " ++ target ++ "\n" } ∧
    (∀ entries, runEnvSwitch noSwitchFaults [target] (.content (.mapping entries)) env =
      .ok { err := none,
            file := .content (.mapping (setKey entries "env" (.scalar target))),
            env := target, stdout := "Switched to environment: " ++ target ++ "\n" } ∧
      yamlLookup (setKey entries "env" (.scalar target)) "env" = some (.scalar target) ∧
      ∀ k, k ≠ "env" →
        yamlLookup (setKey entries "env" (.scalar target)) k = yamlLookup entries k) ∧
    (∀ msg, runEnvSwitch noSwitchFaults [target] (.content (.invalid msg)) env =
      .ok { err := some (.wrap "failed to parse config" (.errorf ("yaml: " ++ msg))),
            file := .content (.invalid msg), env := env, stdout := "" }) := by
  refine ⟨rfl, rfl, fun entries => ⟨rfl, yamlLookup_setKey_same _ _ _,
    fun k hk => yamlLookup_setKey_other _ _ _ _ hk⟩, fun msg => rfl⟩

end Trek
